import Mathlib

/-!
# Webhook delivery service: embedding of the delivery pipeline

Shallow embedding of `internal/service/service.go`, `internal/repository/repository.go`,
`internal/models/models.go`, `internal/config/config.go`, `internal/worker/worker.go` and the
ingest handler of `internal/api/handlers.go`.

Conventions of the embedding

* A Go `string` and a Go `[]byte` are both byte sequences (`List UInt8`); the conversions
  `[]byte(s)` and `string(b)` are the identity.  String literals of the source are written
  `goStr "..."` (all literals of the source are ASCII).
* Go `int` is a 64-bit two's-complement integer: values are `Int`, and the additions and the
  subtraction of the source on a retry count (`RetryCount++`, `RetryCount + 1`,
  `RetryCount-1`) go through `wrapInt`.
* `time.Time` is an `Int` (nanoseconds), `time.Duration` an `Int` (nanoseconds), and
  `t.Add(d)` is `t + d`.
* A pointer field (`*string`, `*int`, `*time.Time`) is an `Option`; a slice that may be `nil`
  and whose nil-ness is observable (`StringArray`) is an `Option (List _)`.
* Calls that leave the process (database, task queue, HTTP, clock, UUID generator) take their
  outcome from an environment record: a write with `fault = some e` returns `e` and changes
  nothing; with `fault = none` it performs the SQL statement of `repository.go` on the tables.
* Logging is not modelled.
-/

namespace Webhook

/-! ## Basic types -/

/-- Go byte slice. -/
abbrev Bytes := List UInt8

/-- Go string: an immutable byte sequence. -/
abbrev GoString := List UInt8

/-- ASCII string literal of the source as a Go string. -/
def goStr (s : String) : GoString := s.toList.map (fun c => UInt8.ofNat c.toNat)

/-- Identifier `uuid.UUID`, kept abstract. -/
abbrev UUID := Nat

/-- Instant `time.Time`, in nanoseconds. -/
abbrev Time := Int

/-- Span `time.Duration`, in nanoseconds. -/
abbrev Duration := Int

/-- Constant `time.Second`. -/
def Second : Duration := 1000000000

/-- Constant `time.Minute`. -/
def Minute : Duration := 60 * Second

/-- Constant `time.Hour`. -/
def Hour : Duration := 60 * Minute

/-- Go `error` value, identified by its message (`err.Error()`). -/
structure GoError where
  msg : GoString
  deriving DecidableEq, Repr

/-- Constructor `errors.New`. -/
def errorsNew (s : String) : GoError := ⟨goStr s⟩

/-- Rendering of the verb `%d` of `fmt.Sprintf`. -/
def formatInt (n : Int) : GoString := goStr (toString n)

/-- Result of 64-bit two's-complement arithmetic on Go `int`. -/
def wrapInt (x : Int) : Int := (x + 2 ^ 63) % 2 ^ 64 - 2 ^ 63

/-- Slice indexing `xs[i]` with a Go `int` index: `none` stands for the run-time panic
`index out of range`. -/
def sliceIndex {α : Type} (xs : List α) (i : Int) : Option α :=
  if 0 ≤ i then xs.get? i.toNat else none

/-- How a call ends: it returns (with `nil` or an error) or it panics. -/
inductive Outcome where
  | returned (err : Option GoError)
  | panicked
  deriving DecidableEq, Repr

/-! ## models.go -/

/-- Type `models.StringArray`: a `[]string` that may be `nil`. -/
abbrev StringArray := Option (List GoString)

/-- Elements of a `StringArray` as seen by `len` and `range` (a nil slice has none). -/
def StringArray.elems (s : StringArray) : List GoString := s.getD []

/-- Function `strings.Join(elems, sep)` for a separator of one byte. -/
def stringsJoin : List GoString → UInt8 → GoString
  | [], _ => []
  | [x], _ => x
  | x :: y :: rest, sep => x ++ sep :: stringsJoin (y :: rest) sep

/-- Function `strings.Split(s, sep)` for a separator of one byte: the pieces between the
occurrences of the separator, one piece more than there are occurrences. -/
def stringsSplit (sep : UInt8) : GoString → List GoString
  | [] => [[]]
  | b :: bs =>
    if b = sep then [] :: stringsSplit sep bs
    else
      match stringsSplit sep bs with
      | piece :: pieces => (b :: piece) :: pieces
      | [] => [[b]]

/-- Method `StringArray.Value`: the `driver.Value` (`none` for `nil`) and the error. -/
def StringArray.Value (s : StringArray) : Option GoString × Option GoError :=
  match s with
  | none => (none, none)
  | some elems => (some (goStr "\x7b" ++ stringsJoin elems 44 ++ goStr "\x7d"), none)

/-- Dynamic type and value of the argument `src` of `Scan`. -/
inductive ScanSource where
  | null
  | bytes (v : Bytes)
  | text (v : GoString)
  | unsupported
  deriving DecidableEq, Repr

/-- Body of the cases `[]byte` and `string` of `StringArray.Scan`, which are the same code
after the conversion `string(v)`: the new value of `*s` and the error. -/
def scanBraced (s : StringArray) (str : GoString) : StringArray × Option GoError :=
  if str.length < 2 ∨ str[0]? ≠ some 123 ∨ str[str.length - 1]? ≠ some 125 then
    (s, some (errorsNew "invalid format for StringArray"))
  else
    let str := (str.take (str.length - 1)).drop 1
    if str = [] then (some [], none)
    else (some (stringsSplit 44 str), none)

/-- Method `StringArray.Scan`: the new value of `*s` and the error. -/
def StringArray.Scan (s : StringArray) (src : ScanSource) : StringArray × Option GoError :=
  match src with
  | .null => (none, none)
  | .bytes v => scanBraced s v
  | .text v => scanBraced s v
  | .unsupported => (s, some (errorsNew "unsupported type for StringArray"))

/-- Type `models.Subscription`. -/
structure Subscription where
  ID : UUID
  TargetURL : GoString
  SecretKey : Option GoString
  EventTypes : StringArray
  CreatedAt : Time
  UpdatedAt : Time
  deriving DecidableEq, Repr

/-- Type `models.WebhookDelivery`. -/
structure WebhookDelivery where
  ID : UUID
  SubscriptionID : UUID
  Payload : Bytes
  EventType : Option GoString
  CreatedAt : Time
  Status : GoString
  NextRetryAt : Option Time
  RetryCount : Int
  MaxRetries : Int
  deriving DecidableEq, Repr

/-- Type `models.DeliveryAttempt`. -/
structure DeliveryAttempt where
  ID : UUID
  DeliveryID : UUID
  AttemptNumber : Int
  Status : GoString
  StatusCode : Option Int
  ErrorDetails : Option GoString
  CreatedAt : Time
  deriving DecidableEq, Repr

/-- Constant `models.StatusPending`. -/
def StatusPending : GoString := goStr "PENDING"

/-- Constant `models.StatusProcessing`. -/
def StatusProcessing : GoString := goStr "PROCESSING"

/-- Constant `models.StatusDelivered`. -/
def StatusDelivered : GoString := goStr "DELIVERED"

/-- Constant `models.StatusFailed`. -/
def StatusFailed : GoString := goStr "FAILED"

/-- Constant `models.StatusSuccess`. -/
def StatusSuccess : GoString := goStr "SUCCESS"

/-! ## config.go -/

/-- Type `config.Config`, the fields the delivery pipeline reads. -/
structure Config where
  RetryLimit : Int
  LogRetentionHours : Int
  RetryDelays : List Duration
  deriving DecidableEq, Repr

/-- The `RetryDelays` literal that `config.Load` installs: 10s, 30s, 1m, 5m, 15m. -/
def defaultRetryDelays : List Duration :=
  [10 * Second, 30 * Second, 1 * Minute, 5 * Minute, 15 * Minute]

/-- Function `getEnv`; `lookupEnv` is `os.LookupEnv`. -/
def getEnv (lookupEnv : GoString → Option GoString) (key defaultValue : GoString) : GoString :=
  match lookupEnv key with
  | none => defaultValue
  | some value => value

/-- Function `getEnvAsInt`; `atoi` is `strconv.Atoi`. -/
def getEnvAsInt (lookupEnv : GoString → Option GoString) (atoi : GoString → Except GoError Int)
    (key : GoString) (defaultValue : Int) : Int :=
  let valueStr := getEnv lookupEnv key (formatInt defaultValue)
  match atoi valueStr with
  | .error _ => defaultValue
  | .ok value => value

/-- Function `Load`, restricted to the three fields of `Config` kept here. -/
def Load (lookupEnv : GoString → Option GoString) (atoi : GoString → Except GoError Int) :
    Config :=
  { RetryLimit := getEnvAsInt lookupEnv atoi (goStr "RETRY_LIMIT") 5
    LogRetentionHours := getEnvAsInt lookupEnv atoi (goStr "LOG_RETENTION_HOURS") 72
    RetryDelays := [10 * Second, 30 * Second, 1 * Minute, 5 * Minute, 15 * Minute] }

/-! ## Library functions used by the service -/

/-- Functions of libraries outside the repository, taken as given. -/
structure Lib where
  /-- HMAC-SHA256: `hmacSha256 key message` is `h := hmac.New(sha256.New, key); h.Write(message);
  h.Sum(nil)`. -/
  hmacSha256 : Bytes → Bytes → Bytes
  /-- Rendering `uuid.UUID.String`. -/
  uuidString : UUID → GoString

/-- One digit of the table `"0123456789abcdef"` of `encoding/hex`. -/
def hexDigit (n : Nat) : UInt8 :=
  if n < 10 then UInt8.ofNat (48 + n) else UInt8.ofNat (87 + n)

/-- Function `hex.EncodeToString`: two lowercase hexadecimal digits per byte. -/
def hexEncodeToString : Bytes → GoString
  | [] => []
  | b :: bs => hexDigit (b.toNat / 16) :: hexDigit (b.toNat % 16) :: hexEncodeToString bs

/-- Accumulator loop of `subtle.ConstantTimeCompare`: `v |= x[i] ^ y[i]`. -/
def xorFold : UInt8 → Bytes → Bytes → UInt8
  | v, x :: xs, y :: ys => xorFold (v ||| (x ^^^ y)) xs ys
  | v, _, _ => v

/-- Function `subtle.ConstantTimeCompare`: 1 when the slices are equal, 0 otherwise. -/
def constantTimeCompare (x y : Bytes) : Int :=
  if x.length ≠ y.length then 0
  else if xorFold 0 x y = 0 then 1 else 0

/-- Function `hmac.Equal`. -/
def hmacEqual (mac1 mac2 : Bytes) : Bool :=
  constantTimeCompare mac1 mac2 == 1

/-! ## repository.go: the three tables and the SQL statements -/

/-- Tables `subscriptions`, `webhook_deliveries` and `delivery_attempts`. -/
structure DB where
  subscriptions : List Subscription
  deliveries : List WebhookDelivery
  attempts : List DeliveryAttempt
  deriving DecidableEq, Repr

/-- Error `sql.ErrNoRows`, returned by `GetContext` when the query selects no row. -/
def sqlErrNoRows : GoError := errorsNew "sql: no rows in result set"

/-- Method `PostgresRepository.GetSubscription`: `SELECT * FROM subscriptions WHERE id = $1`. -/
def PostgresRepository.GetSubscription (fault : Option GoError) (db : DB) (id : UUID) :
    Except GoError Subscription :=
  match fault with
  | some e => .error e
  | none =>
    match db.subscriptions.find? (fun s => s.ID == id) with
    | some sub => .ok sub
    | none => .error sqlErrNoRows

/-- Method `PostgresRepository.CreateWebhookDelivery`: `INSERT INTO webhook_deliveries`. -/
def PostgresRepository.CreateWebhookDelivery (fault : Option GoError) (db : DB)
    (delivery : WebhookDelivery) : DB × Option GoError :=
  match fault with
  | some e => (db, some e)
  | none => ({ db with deliveries := db.deliveries ++ [delivery] }, none)

/-- Method `PostgresRepository.GetWebhookDelivery`:
`SELECT * FROM webhook_deliveries WHERE id = $1`. -/
def PostgresRepository.GetWebhookDelivery (fault : Option GoError) (db : DB) (id : UUID) :
    Except GoError WebhookDelivery :=
  match fault with
  | some e => .error e
  | none =>
    match db.deliveries.find? (fun d => d.ID == id) with
    | some delivery => .ok delivery
    | none => .error sqlErrNoRows

/-- Method `PostgresRepository.UpdateWebhookDelivery`:
`UPDATE webhook_deliveries SET status = $1, next_retry_at = $2, retry_count = $3 WHERE id = $4`.
Only the three listed columns are written; a statement that matches no row succeeds. -/
def PostgresRepository.UpdateWebhookDelivery (fault : Option GoError) (db : DB)
    (delivery : WebhookDelivery) : DB × Option GoError :=
  match fault with
  | some e => (db, some e)
  | none =>
    ({ db with
        deliveries := db.deliveries.map (fun d =>
          if d.ID = delivery.ID then
            { d with
              Status := delivery.Status
              NextRetryAt := delivery.NextRetryAt
              RetryCount := delivery.RetryCount }
          else d) }, none)

/-- Method `PostgresRepository.CreateDeliveryAttempt`: `INSERT INTO delivery_attempts`. -/
def PostgresRepository.CreateDeliveryAttempt (fault : Option GoError) (db : DB)
    (attempt : DeliveryAttempt) : DB × Option GoError :=
  match fault with
  | some e => (db, some e)
  | none => ({ db with attempts := db.attempts ++ [attempt] }, none)

/-- Method `PostgresRepository.DeleteOldDeliveryAttempts`:
`DELETE FROM delivery_attempts WHERE created_at < $1`, returning the number of rows affected. -/
def PostgresRepository.DeleteOldDeliveryAttempts (fault : Option GoError) (db : DB)
    (olderThan : Time) : DB × Int × Option GoError :=
  match fault with
  | some e => (db, 0, some e)
  | none =>
    ({ db with attempts := db.attempts.filter (fun a => !(decide (a.CreatedAt < olderThan))) },
      ((db.attempts.filter (fun a => decide (a.CreatedAt < olderThan))).length : Int), none)

/-! ## Task queue, subscription cache, outbound HTTP -/

/-- Task `asynq.Task` together with the `asynq.ProcessIn` option it was enqueued with. -/
structure Task where
  typename : GoString
  payload : Bytes
  processIn : Option Duration
  deriving DecidableEq, Repr

/-- Call `taskClient.Enqueue(task, opts...)`. -/
def clientEnqueue (fault : Option GoError) (queue : List Task) (task : Task) :
    List Task × Option GoError :=
  match fault with
  | some e => (queue, some e)
  | none => (queue ++ [task], none)

/-- Entry of the in-memory cache created by `cache.New(5*time.Minute, 10*time.Minute)`. -/
structure CacheItem where
  key : UUID
  object : Subscription
  expiration : Time
  deriving DecidableEq, Repr

/-- Call `cache.Get`: the entry stored under the key, unless it has expired. -/
def cacheGet (items : List CacheItem) (key : UUID) (now : Time) : Option Subscription :=
  match items.find? (fun it => it.key == key) with
  | some it => if now > it.expiration then none else some it.object
  | none => none

/-- Call `cache.Set(key, x, cache.DefaultExpiration)`: the entry replaces any older one and
expires five minutes later. -/
def cacheSet (items : List CacheItem) (key : UUID) (x : Subscription) (now : Time) :
    List CacheItem :=
  ⟨key, x, now + 5 * Minute⟩ :: items.filter (fun it => !(it.key == key))

/-- Header map `http.Header`, as an association list. -/
abbrev Header := List (GoString × GoString)

/-- Method `Header.Set`: the value replaces any value stored under the key.  Keys are kept as
the source writes them (the canonical spelling `net/http` gives them is not modelled). -/
def Header.set (h : Header) (key value : GoString) : Header :=
  h.filter (fun kv => !(kv.1 == key)) ++ [(key, value)]

/-- Method `Header.Get`. -/
def Header.get (h : Header) (key : GoString) : Option GoString :=
  (h.find? (fun kv => kv.1 == key)).map (fun kv => kv.2)

/-- Outbound `http.Request`, the fields the service sets.  `Body` is the byte sequence that
reading `req.Body` yields (`http.NoBody` yields none); `GetBody` is the byte sequence the
`GetBody` callback would yield, when the callback is set. -/
structure Request where
  Method : GoString
  URL : GoString
  Body : Bytes
  GetBody : Option Bytes
  ContentLength : Int
  Header : Header
  deriving DecidableEq, Repr

/-- Inbound `http.Response`: status code and the bytes `io.ReadAll(resp.Body)` yields. -/
structure Response where
  StatusCode : Int
  Body : Bytes
  deriving DecidableEq, Repr

/-- Value `http.NoBody`: a reader that is always at end of file. -/
def NoBody : Bytes := []

/-- Call `http.NewRequestWithContext(ctx, method, url, nil)`: with a nil body the request has
no body, no `GetBody`, content length 0 and an empty header map. -/
def NewRequestWithContext (fault : Option GoError) (method url : GoString) :
    Except GoError Request :=
  match fault with
  | some e => .error e
  | none => .ok ⟨method, url, NoBody, none, 0, []⟩

/-- State a call of the service runs against: the database, the subscription cache of the
running process, the task queue, and the log of HTTP requests handed to `client.Do`. -/
structure World where
  db : DB
  cache : List CacheItem
  queue : List Task
  sent : List Request
  deriving DecidableEq, Repr

/-! ## service.go -/

/-- Outcomes of the external calls of `GetSubscription`. -/
structure SubEnv where
  cacheGetNow : Time
  repoFault : Option GoError
  cacheSetNow : Time

/-- Outcomes of the external calls of `IngestWebhook`. -/
structure IngestEnv where
  sub : SubEnv
  newID : UUID
  createdAt : Time
  createFault : Option GoError
  enqueueFault : Option GoError

/-- Outcomes of the external calls of `handleDeliveryFailure`. -/
structure FailureEnv where
  updateFault : Option GoError
  now : Time
  enqueueFault : Option GoError

/-- Outcomes of the external calls of `DeliverWebhook`. -/
structure DeliverEnv where
  getDeliveryFault : Option GoError
  updateProcessingFault : Option GoError
  sub : SubEnv
  newRequestFault : Option GoError
  clientDo : Request → Except GoError Response
  attemptID : UUID
  attemptCreatedAt : Time
  createAttemptFault : Option GoError
  updateDeliveredFault : Option GoError
  failure : FailureEnv

/-- Method `WebhookService.GetSubscription`: the cache first, then the repository, whose
result is cached. -/
def WebhookService.GetSubscription (env : SubEnv) (w : World) (id : UUID) :
    World × Except GoError Subscription :=
  match cacheGet w.cache id env.cacheGetNow with
  | some cached => (w, .ok cached)
  | none =>
    match PostgresRepository.GetSubscription env.repoFault w.db id with
    | .error err => (w, .error err)
    | .ok sub => ({ w with cache := cacheSet w.cache id sub env.cacheSetNow }, .ok sub)

/-- Method `WebhookService.VerifySignature`. -/
def WebhookService.VerifySignature (L : Lib) (payload : Bytes) (signature : GoString)
    (secretKey : GoString) : Bool :=
  let expectedSignature := goStr "sha256=" ++ hexEncodeToString (L.hmacSha256 secretKey payload)
  hmacEqual signature expectedSignature

/-- Loop of `IngestWebhook` over `sub.EventTypes` (`if et == eventType { matched = true; break }`). -/
def eventTypeMatched : List GoString → GoString → Bool
  | [], _ => false
  | et :: rest, eventType => if et = eventType then true else eventTypeMatched rest eventType

/-- Event-type filter of `IngestWebhook`: `true` when the event is skipped. -/
def eventSkipped (sub : Subscription) (eventType : GoString) : Bool :=
  if eventType ≠ [] ∧ sub.EventTypes.elems.length > 0 then
    !(eventTypeMatched sub.EventTypes.elems eventType)
  else false

/-- Signature check of `IngestWebhook`: `true` when the request is refused. -/
def signatureRefused (L : Lib) (sub : Subscription) (payload : Bytes) (signature : GoString) :
    Bool :=
  match sub.SecretKey with
  | none => false
  | some secretKey =>
    if secretKey ≠ [] ∧ signature ≠ [] then
      !(WebhookService.VerifySignature L payload signature secretKey)
    else false

/-- Delivery record that `IngestWebhook` constructs. -/
def newDelivery (config : Config) (env : IngestEnv) (subscriptionID : UUID)
    (eventType : GoString) (payload : Bytes) : WebhookDelivery :=
  let eventTypePtr : Option GoString := if eventType ≠ [] then some eventType else none
  { ID := env.newID
    SubscriptionID := subscriptionID
    Payload := payload
    EventType := eventTypePtr
    CreatedAt := env.createdAt
    Status := StatusPending
    NextRetryAt := none
    RetryCount := 0
    MaxRetries := config.RetryLimit }

/-- Task `asynq.NewTask("webhook:deliver", []byte(delivery.ID.String()))`. -/
def deliverTask (L : Lib) (id : UUID) (processIn : Option Duration) : Task :=
  ⟨goStr "webhook:deliver", L.uuidString id, processIn⟩

/-- Method `WebhookService.IngestWebhook`. -/
def WebhookService.IngestWebhook (L : Lib) (config : Config) (env : IngestEnv) (w : World)
    (subscriptionID : UUID) (eventType : GoString) (payload : Bytes) (signature : GoString) :
    World × Outcome :=
  match WebhookService.GetSubscription env.sub w subscriptionID with
  | (w1, .error err) => (w1, .returned (some err))
  | (w1, .ok sub) =>
    if eventSkipped sub eventType then (w1, .returned none)
    else if signatureRefused L sub payload signature then
      (w1, .returned (some (errorsNew "invalid signature")))
    else
      let delivery := newDelivery config env subscriptionID eventType payload
      match PostgresRepository.CreateWebhookDelivery env.createFault w1.db delivery with
      | (db, some err) => ({ w1 with db := db }, .returned (some err))
      | (db, none) =>
        match clientEnqueue env.enqueueFault w1.queue (deliverTask L delivery.ID none) with
        | (queue, some err) => ({ w1 with db := db, queue := queue }, .returned (some err))
        | (queue, none) => ({ w1 with db := db, queue := queue }, .returned none)

/-- Result of `handleDeliveryFailure`: the state, the delivery record as the function leaves
it behind its pointer, and how the call ended. -/
structure FailureResult where
  world : World
  delivery : WebhookDelivery
  outcome : Outcome
  deriving DecidableEq, Repr

/-- Index into `RetryDelays` chosen on the retry branch of `handleDeliveryFailure`:
`RetryCount-1` (in `int` arithmetic) when `RetryCount <= len(RetryDelays)`, else
`len(RetryDelays)-1`. -/
def retryDelayIndex (config : Config) (retryCount : Int) : Int :=
  if retryCount ≤ (config.RetryDelays.length : Int) then wrapInt (retryCount - 1)
  else (config.RetryDelays.length : Int) - 1

/-- Method `WebhookService.handleDeliveryFailure`. -/
def WebhookService.handleDeliveryFailure (L : Lib) (config : Config) (env : FailureEnv)
    (w : World) (delivery : WebhookDelivery) (_err : GoError) (_statusCode : Option Int) :
    FailureResult :=
  let delivery := { delivery with RetryCount := wrapInt (delivery.RetryCount + 1) }
  if delivery.RetryCount ≥ delivery.MaxRetries then
    let delivery := { delivery with Status := StatusFailed, NextRetryAt := none }
    match PostgresRepository.UpdateWebhookDelivery env.updateFault w.db delivery with
    | (db, some err) => ⟨{ w with db := db }, delivery, .returned (some err)⟩
    | (db, none) => ⟨{ w with db := db }, delivery, .returned none⟩
  else
    match sliceIndex config.RetryDelays (retryDelayIndex config delivery.RetryCount) with
    | none => ⟨w, delivery, .panicked⟩
    | some delay =>
      let nextRetry := env.now + delay
      let delivery := { delivery with Status := StatusPending, NextRetryAt := some nextRetry }
      match PostgresRepository.UpdateWebhookDelivery env.updateFault w.db delivery with
      | (db, some err) => ⟨{ w with db := db }, delivery, .returned (some err)⟩
      | (db, none) =>
        match clientEnqueue env.enqueueFault w.queue (deliverTask L delivery.ID (some delay)) with
        | (queue, some err) =>
          ⟨{ w with db := db, queue := queue }, delivery, .returned (some err)⟩
        | (queue, none) => ⟨{ w with db := db, queue := queue }, delivery, .returned none⟩

/-- Request preparation of `DeliverWebhook`, from the request `http.NewRequestWithContext`
returned up to the call of `client.Do`. -/
def prepareRequest (L : Lib) (delivery : WebhookDelivery) (subscription : Subscription)
    (req : Request) : Request :=
  let req := { req with Body := NoBody }
  let req := { req with GetBody := some delivery.Payload }
  let req := { req with ContentLength := (delivery.Payload.length : Int) }
  let req := { req with Header := req.Header.set (goStr "Content-Type") (goStr "application/json") }
  let req :=
    match delivery.EventType with
    | some eventType => { req with Header := req.Header.set (goStr "X-Webhook-Event") eventType }
    | none => req
  let req := { req with Header := req.Header.set (goStr "X-Webhook-ID") (L.uuidString delivery.ID) }
  match subscription.SecretKey with
  | some secretKey =>
    if secretKey ≠ [] then
      let signature := goStr "sha256=" ++ hexEncodeToString (L.hmacSha256 secretKey delivery.Payload)
      { req with Header := req.Header.set (goStr "X-Hub-Signature-256") signature }
    else req
  | none => req

/-- Attempt record of `DeliverWebhook` as first constructed (`Status`, `StatusCode` and
`ErrorDetails` still at their zero values). -/
def newAttempt (env : DeliverEnv) (deliveryID : UUID) (delivery : WebhookDelivery) :
    DeliveryAttempt :=
  { ID := env.attemptID
    DeliveryID := deliveryID
    AttemptNumber := wrapInt (delivery.RetryCount + 1)
    Status := []
    StatusCode := none
    ErrorDetails := none
    CreatedAt := env.attemptCreatedAt }

/-- Method `WebhookService.DeliverWebhook`.  A failure of `CreateDeliveryAttempt`, and of the
`UpdateWebhookDelivery` that follows a 2xx response, is logged and otherwise ignored, as in the
source. -/
def WebhookService.DeliverWebhook (L : Lib) (config : Config) (env : DeliverEnv) (w : World)
    (deliveryID : UUID) : World × Outcome :=
  match PostgresRepository.GetWebhookDelivery env.getDeliveryFault w.db deliveryID with
  | .error err => (w, .returned (some err))
  | .ok delivery =>
    let delivery := { delivery with Status := StatusProcessing }
    match PostgresRepository.UpdateWebhookDelivery env.updateProcessingFault w.db delivery with
    | (db, some err) => ({ w with db := db }, .returned (some err))
    | (db, none) =>
      match WebhookService.GetSubscription env.sub { w with db := db } delivery.SubscriptionID with
      | (w1, .error err) => (w1, .returned (some err))
      | (w1, .ok subscription) =>
        match NewRequestWithContext env.newRequestFault (goStr "POST") subscription.TargetURL with
        | .error err =>
          let r := WebhookService.handleDeliveryFailure L config env.failure w1 delivery err none
          (r.world, r.outcome)
        | .ok req =>
          let req := prepareRequest L delivery subscription req
          let w2 := { w1 with sent := w1.sent ++ [req] }
          let attempt := newAttempt env deliveryID delivery
          match env.clientDo req with
          | .error err =>
            let attempt := { attempt with Status := StatusFailed, ErrorDetails := some err.msg }
            let db := (PostgresRepository.CreateDeliveryAttempt env.createAttemptFault w2.db attempt).1
            let r := WebhookService.handleDeliveryFailure L config env.failure
              { w2 with db := db } delivery err none
            (r.world, r.outcome)
          | .ok resp =>
            let attempt := { attempt with StatusCode := some resp.StatusCode }
            if resp.StatusCode ≥ 200 ∧ resp.StatusCode < 300 then
              let attempt := { attempt with Status := StatusSuccess }
              let db :=
                (PostgresRepository.CreateDeliveryAttempt env.createAttemptFault w2.db attempt).1
              let delivery := { delivery with Status := StatusDelivered }
              let db :=
                (PostgresRepository.UpdateWebhookDelivery env.updateDeliveredFault db delivery).1
              ({ w2 with db := db }, .returned none)
            else
              let errDetails := goStr "HTTP " ++ formatInt resp.StatusCode ++ goStr ": " ++ resp.Body
              let attempt := { attempt with Status := StatusFailed, ErrorDetails := some errDetails }
              let db :=
                (PostgresRepository.CreateDeliveryAttempt env.createAttemptFault w2.db attempt).1
              let r := WebhookService.handleDeliveryFailure L config env.failure
                { w2 with db := db } delivery
                ⟨goStr "HTTP " ++ formatInt resp.StatusCode⟩ (some resp.StatusCode)
              (r.world, r.outcome)

/-- Method `WebhookService.CleanupOldLogs`.  The cutoff is
`time.Now().Add(-time.Duration(LogRetentionHours) * time.Hour)`, computed in `int64`. -/
def WebhookService.CleanupOldLogs (config : Config) (now : Time) (fault : Option GoError)
    (w : World) : World × Outcome :=
  let cutoff := now + wrapInt (wrapInt (-config.LogRetentionHours) * Hour)
  match PostgresRepository.DeleteOldDeliveryAttempts fault w.db cutoff with
  | (db, _, some err) => ({ w with db := db }, .returned (some err))
  | (db, _, none) => ({ w with db := db }, .returned none)

/-! ## worker.go -/

/-- Method `Worker.handleWebhookDelivery`; `uuidParse` is `uuid.Parse`, taken as given. -/
def Worker.handleWebhookDelivery (uuidParse : GoString → Except GoError UUID) (L : Lib)
    (config : Config) (env : DeliverEnv) (w : World) (task : Task) : World × Outcome :=
  match uuidParse task.payload with
  | .error err => (w, .returned (some err))
  | .ok deliveryID => WebhookService.DeliverWebhook L config env w deliveryID

/-! ## handlers.go -/

/-- Constant `http.StatusAccepted`. -/
def StatusAccepted : Int := 202

/-- Constant `http.StatusBadRequest`. -/
def StatusBadRequest : Int := 400

/-- Constant `http.StatusNotFound`. -/
def StatusNotFound : Int := 404

/-- Constant `http.StatusInternalServerError`. -/
def StatusInternalServerError : Int := 500

/-- What the handler `IngestWebhook` reads from the `gin.Context`: the path parameter
`subscription_id`, the body, and the headers `X-Event-Type` and `X-Hub-Signature-256`. -/
structure IngestRequest where
  subscriptionID : GoString
  body : Bytes
  eventType : GoString
  signature : GoString
  deriving DecidableEq, Repr

/-- Outcomes of the external calls of the handler `IngestWebhook`: `uuid.Parse`,
`ShouldBindJSON` (giving `reqBody.Payload`), and the calls of the service. -/
structure HandlerEnv where
  uuidParse : GoString → Except GoError UUID
  bindJSON : Bytes → Except GoError Bytes
  ingest : IngestEnv

/-- Method `Handler.IngestWebhook`: the state it leaves and the status of the response it
writes with `c.JSON` (`none` when the service panicked, so that the handler wrote nothing). -/
def Handler.IngestWebhook (L : Lib) (config : Config) (env : HandlerEnv) (w : World)
    (c : IngestRequest) : World × Option Int :=
  match env.uuidParse c.subscriptionID with
  | .error _ => (w, some StatusBadRequest)
  | .ok id =>
    match env.bindJSON c.body with
    | .error _ => (w, some StatusBadRequest)
    | .ok payload =>
      match WebhookService.IngestWebhook L config env.ingest w id c.eventType payload
          c.signature with
      | (w1, .returned (some err)) =>
        if err.msg = goStr "invalid signature" then (w1, some StatusBadRequest)
        else (w1, some StatusInternalServerError)
      | (w1, .returned none) => (w1, some StatusAccepted)
      | (w1, .panicked) => (w1, none)

/-! ## Vocabulary of the properties -/

/-- Effect of the `UPDATE` of `UpdateWebhookDelivery` on one row: the rows with the given id
get the three columns, every other row is left as it is. -/
def setRow (id : UUID) (status : GoString) (next : Option Time) (count : Int)
    (d : WebhookDelivery) : WebhookDelivery :=
  if d.ID = id then { d with Status := status, NextRetryAt := next, RetryCount := count } else d

/-- Attempts stored for a delivery, in insertion order. -/
def attemptsOf (db : DB) (id : UUID) : List DeliveryAttempt :=
  db.attempts.filter (fun a => a.DeliveryID = id)

/-- Request `DeliverWebhook` builds for a loaded delivery and its subscription when
`http.NewRequestWithContext` succeeds. -/
def outboundRequest (L : Lib) (delivery : WebhookDelivery) (subscription : Subscription) :
    Request :=
  prepareRequest L { delivery with Status := StatusProcessing } subscription
    ⟨goStr "POST", subscription.TargetURL, NoBody, none, 0, []⟩

/-- Ways a run of `DeliverWebhook` that got past the `PROCESSING` write can leave the tables:
`extra` is what it appended to the attempts table, `status`, `next` and `count` are the
columns the rows of the delivery end with. -/
def RunEffect (config : Config) (env : DeliverEnv) (delivery : WebhookDelivery)
    (extra : List DeliveryAttempt) (status : GoString) (next : Option Time) (count : Int) :
    Prop :=
  (status = StatusProcessing ∧ next = delivery.NextRetryAt ∧ count = delivery.RetryCount ∧
    (∀ a ∈ extra, a.Status = StatusSuccess ∨ a.Status = StatusFailed) ∧
    ((∃ a ∈ extra, a.Status = StatusSuccess) → env.updateDeliveredFault ≠ none) ∧
    (extra ≠ [] → env.updateDeliveredFault ≠ none ∨ env.failure.updateFault ≠ none ∨
      sliceIndex config.RetryDelays
        (retryDelayIndex config (wrapInt (delivery.RetryCount + 1))) = none)) ∨
  (status = StatusDelivered ∧ next = delivery.NextRetryAt ∧ count = delivery.RetryCount ∧
    (∀ a ∈ extra, a.Status = StatusSuccess) ∧ (env.createAttemptFault = none → extra ≠ [])) ∨
  (status = StatusFailed ∧ next = none ∧ count = wrapInt (delivery.RetryCount + 1) ∧
    wrapInt (delivery.RetryCount + 1) ≥ delivery.MaxRetries ∧
    (∀ a ∈ extra, a.Status = StatusFailed) ∧
    (env.newRequestFault = none → env.createAttemptFault = none → extra ≠ [])) ∨
  (status = StatusPending ∧ (∃ delay, next = some (env.failure.now + delay)) ∧
    count = wrapInt (delivery.RetryCount + 1) ∧
    wrapInt (delivery.RetryCount + 1) < delivery.MaxRetries ∧
    (∀ a ∈ extra, a.Status = StatusFailed) ∧
    (env.newRequestFault = none → env.createAttemptFault = none → extra ≠ []))

/-- States reachable from a store without deliveries and attempts by `IngestWebhook` and
`DeliverWebhook` steps.  Every step takes its own environment, so any external call of a step
may fail or succeed; `uuid.New()` is taken to return an id no stored delivery has; `G` says
which `DeliverWebhook` steps are considered. -/
inductive ReachableBy (L : Lib) (config : Config) (G : World → DeliverEnv → UUID → Prop) :
    World → Prop where
  | init (w : World) (hd : w.db.deliveries = []) (ha : w.db.attempts = []) :
      ReachableBy L config G w
  | ingest (w : World) (env : IngestEnv) (subscriptionID : UUID) (eventType : GoString)
      (payload : Bytes) (signature : GoString) (h : ReachableBy L config G w)
      (hfresh : ∀ d ∈ w.db.deliveries, d.ID ≠ env.newID) :
      ReachableBy L config G
        (WebhookService.IngestWebhook L config env w subscriptionID eventType payload
          signature).1
  | deliver (w : World) (env : DeliverEnv) (deliveryID : UUID) (h : ReachableBy L config G w)
      (hG : G w env deliveryID) :
      ReachableBy L config G (WebhookService.DeliverWebhook L config env w deliveryID).1

/-- Every `DeliverWebhook` step is considered. -/
def AnyRun (_w : World) (_env : DeliverEnv) (_deliveryID : UUID) : Prop := True

/-- Runs of `DeliverWebhook` in which the request is constructed, the insert of the attempt
and the writes of the delivery's new state go through, and the delivery processed is not
already `DELIVERED` (and its retry count is below the largest `int`). -/
def OrderlyRun (w : World) (env : DeliverEnv) (deliveryID : UUID) : Prop :=
  env.newRequestFault = none ∧ env.createAttemptFault = none ∧
  env.updateDeliveredFault = none ∧ env.failure.updateFault = none ∧
  ∀ d ∈ w.db.deliveries, d.ID = deliveryID →
    d.Status ≠ StatusDelivered ∧ d.RetryCount < 2 ^ 63 - 1

/-- Runs of `DeliverWebhook` on a delivery that is neither `DELIVERED` nor `FAILED`, in which
the write that follows a 2xx response goes through. -/
def GuardedRun (w : World) (env : DeliverEnv) (deliveryID : UUID) : Prop :=
  env.updateDeliveredFault = none ∧
  ∀ d ∈ w.db.deliveries, d.ID = deliveryID →
    d.Status ≠ StatusDelivered ∧ d.Status ≠ StatusFailed

/-- Attempt numbers stored for a delivery, in insertion order. -/
def attemptNumbers (db : DB) (id : UUID) : List Int :=
  (attemptsOf db id).map (fun a => a.AttemptNumber)

/-- The numbers `1, 2, ..., n`. -/
def oneTo (n : Nat) : List Int := (List.range' 1 n).map (fun (k : Nat) => (k : Int))

/-- Accounting of attempts: every attempt belongs to a stored delivery, and for every stored
delivery the retry count is not negative, the number of its attempts is its retry count, plus
one when it is `DELIVERED`, and its attempt numbers are `1, 2, ...` in insertion order. -/
def OrderlyInv (w : World) : Prop :=
  (∀ a ∈ w.db.attempts, ∃ d ∈ w.db.deliveries, d.ID = a.DeliveryID) ∧
  ∀ d ∈ w.db.deliveries,
    0 ≤ d.RetryCount ∧
    ((attemptsOf w.db d.ID).length : Int)
      = d.RetryCount + (if d.Status = StatusDelivered then 1 else 0) ∧
    attemptNumbers w.db d.ID = oneTo (attemptsOf w.db d.ID).length

/-- Bookkeeping of terminal states under a retry limit: every attempt belongs to a stored
delivery, a delivery with a `SUCCESS` attempt is `DELIVERED`, every delivery carries the
configured limit, a delivery that is neither `DELIVERED` nor `FAILED` has a retry count in
`0 ≤ r < max_retries`, and a `FAILED` delivery has `retry_count = max_retries`. -/
def GuardedInv (config : Config) (w : World) : Prop :=
  (∀ a ∈ w.db.attempts, ∃ d ∈ w.db.deliveries, d.ID = a.DeliveryID) ∧
  (∀ a ∈ w.db.attempts, a.Status = StatusSuccess →
    ∀ d ∈ w.db.deliveries, d.ID = a.DeliveryID → d.Status = StatusDelivered) ∧
  ∀ d ∈ w.db.deliveries,
    d.MaxRetries = config.RetryLimit ∧
    (d.Status ≠ StatusDelivered → d.Status ≠ StatusFailed →
      0 ≤ d.RetryCount ∧ d.RetryCount < d.MaxRetries) ∧
    (d.Status = StatusFailed → d.RetryCount = d.MaxRetries)

/-- Every store and queue operation of a run of `DeliverWebhook` succeeds and the request is
constructed. -/
def CallsSucceed (env : DeliverEnv) : Prop :=
  env.getDeliveryFault = none ∧ env.updateProcessingFault = none ∧ env.sub.repoFault = none ∧
  env.newRequestFault = none ∧ env.createAttemptFault = none ∧
  env.updateDeliveredFault = none ∧ env.failure.updateFault = none ∧
  env.failure.enqueueFault = none

/-- The destination answers every request with a 2xx status. -/
def DestinationAccepts (env : DeliverEnv) : Prop :=
  ∀ req, ∃ resp, env.clientDo req = .ok resp ∧ 200 ≤ resp.StatusCode ∧ resp.StatusCode < 300

/-- The destination fails on every request: no response, or a status outside 2xx. -/
def DestinationFails (env : DeliverEnv) : Prop :=
  ∀ req, (∃ err, env.clientDo req = .error err) ∨
    ∃ resp, env.clientDo req = .ok resp ∧ ¬ (200 ≤ resp.StatusCode ∧ resp.StatusCode < 300)

/-- Execution model of the scenarios: the worker takes the tasks of the queue one by one, in
order, hands each of them once to `handleWebhookDelivery` (run `k` takes its external outcomes
from `env k`) and goes on with the tasks the runs enqueue.  The result is the final state and
the list of the tasks processed; `fuel` bounds the number of tasks taken. -/
def processQueue (uuidParse : GoString → Except GoError UUID) (L : Lib) (config : Config)
    (env : Nat → DeliverEnv) : Nat → Nat → World → World × List Task
  | 0, _, w => (w, [])
  | fuel + 1, k, w =>
    match w.queue with
    | [] => (w, [])
    | task :: rest =>
      let w1 := (Worker.handleWebhookDelivery uuidParse L config (env k)
        { w with queue := rest } task).1
      ((processQueue uuidParse L config env fuel (k + 1) w1).1,
        task :: (processQueue uuidParse L config env fuel (k + 1) w1).2)

/-- Delay of the retry scheduled after the `i`-th failed attempt: `D[min(i, K) - 1]`. -/
def retryDelay (config : Config) (i : Nat) : Option Duration :=
  config.RetryDelays[min i config.RetryDelays.length - 1]?

/-- Attempt numbers and statuses stored for a delivery, in insertion order. -/
def attemptLog (db : DB) (id : UUID) : List (Int × GoString) :=
  (attemptsOf db id).map (fun a => (a.AttemptNumber, a.Status))

/-! ## Concrete inputs used to exercise the theorems -/

/-- Payload used in the concrete inputs. -/
def demoPayload : Bytes := goStr "\x7b\"k\":\"v\"\x7d"

/-- Library stand-in for concrete evaluation: the MAC is the key followed by the message, a
UUID is rendered as one byte. -/
def demoLib : Lib := ⟨fun key message => key ++ message, fun id => [UInt8.ofNat id]⟩

/-- Configuration with the defaults of `config.Load`. -/
def demoConfig : Config := ⟨5, 72, defaultRetryDelays⟩

/-- Delivery in the state `DeliverWebhook` hands to `handleDeliveryFailure` on a first
attempt. -/
def demoDelivery : WebhookDelivery :=
  { ID := 7
    SubscriptionID := 1
    Payload := demoPayload
    EventType := none
    CreatedAt := 0
    Status := StatusProcessing
    NextRetryAt := none
    RetryCount := 0
    MaxRetries := 5 }

/-- World holding `demoDelivery` and nothing else. -/
def demoWorld : World := ⟨⟨[], [demoDelivery], []⟩, [], [], []⟩

/-- Environment of `handleDeliveryFailure` in which every call succeeds, at time 1000. -/
def okFailureEnv : FailureEnv := ⟨none, 1000, none⟩

/-- Subscription with secret `s` that accepts only the event type `order.created`. -/
def demoSub : Subscription :=
  { ID := 1
    TargetURL := goStr "http://t/"
    SecretKey := some (goStr "s")
    EventTypes := some [goStr "order.created"]
    CreatedAt := 0
    UpdatedAt := 0 }

/-- World holding `demoSub` and nothing else. -/
def subWorld : World := ⟨⟨[demoSub], [], []⟩, [], [], []⟩

/-- Environment of `GetSubscription` in which the repository answers. -/
def okSubEnv : SubEnv := ⟨0, none, 0⟩

/-- Environment of `IngestWebhook` in which every call succeeds; the new delivery gets id 7. -/
def okIngestEnv : IngestEnv := ⟨okSubEnv, 7, 0, none, none⟩

/-- Environment of `IngestWebhook` in which the insert of the delivery fails. -/
def createFailsEnv : IngestEnv := ⟨okSubEnv, 7, 0, some (errorsNew "db down"), none⟩

/-- World holding `demoSub` and a pending delivery for it. -/
def pendingWorld : World :=
  ⟨⟨[demoSub], [{ demoDelivery with Status := StatusPending }], []⟩, [], [], []⟩

/-- Environment of `DeliverWebhook` in which every call succeeds and the destination answers
with the given status code and an empty body. -/
def respondingEnv (code : Int) : DeliverEnv :=
  { getDeliveryFault := none
    updateProcessingFault := none
    sub := okSubEnv
    newRequestFault := none
    clientDo := fun _ => .ok ⟨code, []⟩
    attemptID := 100
    attemptCreatedAt := 50
    createAttemptFault := none
    updateDeliveredFault := none
    failure := okFailureEnv }

/-- World after `IngestWebhook` accepted one event for `demoSub`: delivery 7 is `PENDING`
with five attempts allowed, and one task is queued. -/
def ingestedWorld : World :=
  (WebhookService.IngestWebhook demoLib demoConfig okIngestEnv subWorld 1
    (goStr "order.created") demoPayload []).1

/-- Environment of `DeliverWebhook` in which the destination answers 500 and the insert of
the attempt fails. -/
def insertFailsEnv : DeliverEnv :=
  { respondingEnv 500 with createAttemptFault := some (errorsNew "db down") }

/-- Environment of a second run against a destination that answers 200. -/
def secondRunEnv : DeliverEnv := { respondingEnv 200 with attemptID := 101 }

/-- Configuration loaded with `RETRY_LIMIT=0`. -/
def zeroLimitConfig : Config := ⟨0, 72, defaultRetryDelays⟩

/-- World after one ingest and one run answered with 500: delivery 7 is `PENDING` with
`retry_count = 1` and a retry time. -/
def retriedWorld : World :=
  (WebhookService.DeliverWebhook demoLib demoConfig (respondingEnv 500) ingestedWorld 7).1

/-- World after one ingest and one run answered with 200: delivery 7 is `DELIVERED`. -/
def deliveredWorld : World :=
  (WebhookService.DeliverWebhook demoLib demoConfig (respondingEnv 200) ingestedWorld 7).1

/-- Response body of 2049 bytes. -/
def longBody : Bytes := List.replicate 2049 120

/-- Environment of `DeliverWebhook` in which the destination answers 500 with `longBody`. -/
def longBodyEnv : DeliverEnv :=
  { respondingEnv 500 with clientDo := fun _ => .ok ⟨500, longBody⟩ }

/-- Configuration loaded with `LOG_RETENTION_HOURS=5124096`. -/
def longRetentionConfig : Config := ⟨5, 5124096, defaultRetryDelays⟩

/-- World whose only attempt was created one hour before the instant `10 ^ 18`. -/
def recentAttemptWorld : World :=
  ⟨⟨[demoSub], [demoDelivery],
    [⟨100, 7, 1, StatusFailed, some 500, none, 10 ^ 18 - Hour⟩]⟩, [], [], []⟩

/-- Delivery 7 as `IngestWebhook` stored it in `ingestedWorld`. -/
def ingestedDelivery : WebhookDelivery :=
  { ID := 7
    SubscriptionID := 1
    Payload := demoPayload
    EventType := some (goStr "order.created")
    CreatedAt := 0
    Status := StatusPending
    NextRetryAt := none
    RetryCount := 0
    MaxRetries := 5 }

/-- State inside a run of `DeliverWebhook` on `ingestedWorld`, after the `PROCESSING` write and
the lookup of the subscription. -/
def processingWorld : World :=
  ⟨⟨[demoSub], [{ ingestedDelivery with Status := StatusProcessing }], []⟩,
    cacheSet (cacheSet [] 1 demoSub 0) 1 demoSub 0, [deliverTask demoLib 7 none], []⟩

/-- Stand-in for `uuid.Parse` matching `demoLib.uuidString`. -/
def demoParse : GoString → Except GoError UUID
  | [b] => .ok b.toNat
  | _ => .error (errorsNew "invalid UUID")

/-- Destination that answers 500, 500 and then 200. -/
def threeStrikeEnv (k : Nat) : DeliverEnv :=
  { respondingEnv (if k < 2 then 500 else 200) with attemptID := 100 + k }

/-- Destination that answers 500 to every call. -/
def alwaysFailingEnv (k : Nat) : DeliverEnv :=
  { respondingEnv 500 with attemptID := 100 + k }

/-- Configuration loaded with `RETRY_LIMIT=1`. -/
def oneLimitConfig : Config := ⟨1, 72, defaultRetryDelays⟩

/-- Delivery 7 with one attempt allowed, after its only attempt failed. -/
def failedDelivery : WebhookDelivery :=
  { ingestedDelivery with
    Status := StatusFailed, NextRetryAt := none, RetryCount := 1, MaxRetries := 1 }

/-- Environment of the ingest handler: `demoParse` for `uuid.Parse`, a binding that takes the
whole body as the payload, and a service in which every call succeeds. -/
def demoHandlerEnv : HandlerEnv := ⟨demoParse, fun body => .ok body, okIngestEnv⟩

/-- Request to ingest an event for subscription 9, which `subWorld` does not hold. -/
def unknownSubscriptionRequest : IngestRequest := ⟨[9], demoPayload, [], []⟩

/-- Task whose payload is not the rendering of a UUID. -/
def malformedTask : Task := ⟨goStr "webhook:deliver", goStr "not-a-uuid", none⟩

/-- World holding the pending delivery 7 of subscription 1 and no subscription: the
subscription was deleted after the event was ingested. -/
def orphanWorld : World := ⟨⟨[], [ingestedDelivery], []⟩, [], [deliverTask demoLib 7 none], []⟩

/-- Row of delivery 7 after the `PROCESSING` write. -/
def processingDelivery : WebhookDelivery := { ingestedDelivery with Status := StatusProcessing }

/-- Delivery whose stored retry count is the largest `int`. -/
def saturatedDelivery : WebhookDelivery := { demoDelivery with RetryCount := 2 ^ 63 - 1 }

/-- Event types `a` and `bc`. -/
def demoEventTypes : List GoString := [goStr "a", goStr "bc"]

/-! ## Arithmetic and list helpers -/

theorem sliceIndex_retryDelayIndex (config : Config) (r : Int)
    (hD : config.RetryDelays ≠ []) (h1 : 1 ≤ r) :
    ∃ delay, config.RetryDelays[min r.toNat config.RetryDelays.length - 1]? = some delay ∧
      (r < 2 ^ 63 →
        sliceIndex config.RetryDelays (retryDelayIndex config r) = some delay) := by
  have hK : 0 < config.RetryDelays.length := List.length_pos.mpr hD
  have hlt : min r.toNat config.RetryDelays.length - 1 < config.RetryDelays.length := by omega
  refine ⟨config.RetryDelays[min r.toNat config.RetryDelays.length - 1], ?_, ?_⟩
  · exact List.getElem?_eq_getElem hlt
  · intro hmax
    have hw : wrapInt (r - 1) = r - 1 := by unfold wrapInt; omega
    unfold sliceIndex retryDelayIndex
    rw [hw]
    split_ifs with hle h0 h0
    · have : (r - 1).toNat = min r.toNat config.RetryDelays.length - 1 := by omega
      rw [List.get?_eq_getElem?, this]
      exact List.getElem?_eq_getElem hlt
    · omega
    · have : ((config.RetryDelays.length : Int) - 1).toNat
          = min r.toNat config.RetryDelays.length - 1 := by omega
      rw [List.get?_eq_getElem?, this]
      exact List.getElem?_eq_getElem hlt
    · omega

theorem u8_xor_eq_zero (a b : UInt8) : a ^^^ b = 0 ↔ a = b := by
  constructor
  · intro h
    have h1 : a.toBitVec ^^^ b.toBitVec = 0#8 := by
      have := congrArg UInt8.toBitVec h
      simpa using this
    have h2 : a.toBitVec = b.toBitVec := by
      have h3 : a.toBitVec ^^^ (a.toBitVec ^^^ b.toBitVec) = a.toBitVec ^^^ 0#8 := by rw [h1]
      rw [← BitVec.xor_assoc, BitVec.xor_self, BitVec.xor_zero, BitVec.zero_xor] at h3
      exact h3.symm
    cases a; cases b; simp_all
  · rintro rfl
    cases a with | mk v =>
    show UInt8.mk (v ^^^ v) = 0
    rw [BitVec.xor_self]; rfl

theorem u8_or_eq_zero (a b : UInt8) : a ||| b = 0 ↔ a = 0 ∧ b = 0 := by
  constructor
  · intro h
    have h1 : a.toBitVec ||| b.toBitVec = 0 := by
      have := congrArg UInt8.toBitVec h
      simpa using this
    have ha : a.toBitVec = 0 := by
      apply BitVec.eq_of_getLsbD_eq
      intro i
      have := congrArg (fun v => v.getLsbD i.val) h1
      simp at this
      simp [this.1]
    have hb : b.toBitVec = 0 := by
      apply BitVec.eq_of_getLsbD_eq
      intro i
      have := congrArg (fun v => v.getLsbD i.val) h1
      simp at this
      simp [this.2]
    cases a; cases b; simp_all
  · rintro ⟨rfl, rfl⟩
    rfl

theorem xorFold_eq_zero (x : Bytes) :
    ∀ (v : UInt8) (y : Bytes), x.length = y.length → (xorFold v x y = 0 ↔ v = 0 ∧ x = y) := by
  induction x with
  | nil =>
    intro v y hlen
    cases y with
    | nil => simp [xorFold]
    | cons b ys => simp at hlen
  | cons a xs ih =>
    intro v y hlen
    cases y with
    | nil => simp at hlen
    | cons b ys =>
      have hlen2 : xs.length = ys.length := by simpa using hlen
      rw [xorFold, ih _ _ hlen2, u8_or_eq_zero, u8_xor_eq_zero]
      constructor
      · rintro ⟨⟨hv, hab⟩, hxs⟩
        exact ⟨hv, by rw [hab, hxs]⟩
      · rintro ⟨hv, hcons⟩
        injection hcons with hab hxs
        exact ⟨⟨hv, hab⟩, hxs⟩

theorem hmacEqual_iff (x y : Bytes) : hmacEqual x y = true ↔ x = y := by
  unfold hmacEqual constantTimeCompare
  by_cases hlen : x.length = y.length
  · have h := xorFold_eq_zero x 0 y hlen
    by_cases hf : xorFold 0 x y = 0
    · have hxy : x = y := (h.mp hf).2
      simp [hlen, hf]
      exact hxy
    · have hxy : ¬ x = y := fun hxy => hf (h.mpr ⟨rfl, hxy⟩)
      simp [hlen, hf, hxy]
  · have hxy : ¬ x = y := fun hxy => hlen (by rw [hxy])
    simp [hlen, hxy]

theorem hexEncodeToString_length (bs : Bytes) :
    (hexEncodeToString bs).length = 2 * bs.length := by
  induction bs with
  | nil => rfl
  | cons b bs ih => simp [hexEncodeToString, ih]; omega

theorem hexDigit_lowercase : ∀ n, n < 16 → hexDigit n ∈ goStr "0123456789abcdef" := by
  decide

theorem hexEncodeToString_lowercase (bs : Bytes) :
    ∀ c ∈ hexEncodeToString bs, c ∈ goStr "0123456789abcdef" := by
  induction bs with
  | nil => intro c hc; simp [hexEncodeToString] at hc
  | cons b bs ih =>
    intro c hc
    have hb : b.toNat < 256 := b.toBitVec.isLt
    simp only [hexEncodeToString, List.mem_cons] at hc
    rcases hc with hc | hc | hc
    · rw [hc]; exact hexDigit_lowercase _ (by omega)
    · rw [hc]; exact hexDigit_lowercase _ (by omega)
    · exact ih c hc

theorem Header_get_set (h : Header) (key value : GoString) :
    (Header.set h key value).get key = some value := by
  unfold Header.get Header.set
  have hnone : List.find? (fun kv => kv.1 == key)
      (List.filter (fun kv => !(kv.1 == key)) h) = none := by
    rw [List.find?_eq_none]
    intro kv hkv
    have := (List.mem_filter.mp hkv).2
    simpa using this
  rw [List.find?_append, hnone]
  simp

theorem Header_get_set_ne (h : Header) (key other value : GoString) (hne : other ≠ key) :
    (Header.set h other value).get key = h.get key := by
  unfold Header.get Header.set
  have hb : (other == key) = false := by simpa using hne
  rw [List.find?_append]
  have hlast : List.find? (fun kv : GoString × GoString => kv.1 == key) [(other, value)]
      = none := by
    simp [List.find?, hb]
  rw [hlast]
  have hfilter : ∀ l : List (GoString × GoString),
      List.find? (fun kv => kv.1 == key) (List.filter (fun kv => !(kv.1 == other)) l)
        = List.find? (fun kv => kv.1 == key) l := by
    intro l
    induction l with
    | nil => rfl
    | cons kv rest ih =>
      by_cases h1 : kv.1 = other
      · have h2 : (kv.1 == key) = false := by rw [h1]; exact hb
        have h4 : (kv.1 == other) = true := by simpa using h1
        rw [List.find?_cons, h2]
        simp only [List.filter, h4, Bool.not_true]
        exact ih
      · have h3 : (kv.1 == other) = false := by simpa using h1
        simp only [List.filter, h3, Bool.not_false, List.find?, ih]
  rw [hfilter]
  cases List.find? (fun kv => kv.1 == key) h <;> rfl

theorem prepareRequest_fields (L : Lib) (delivery : WebhookDelivery)
    (subscription : Subscription) (req : Request) :
    (prepareRequest L delivery subscription req).Body = NoBody ∧
    (prepareRequest L delivery subscription req).GetBody = some delivery.Payload ∧
    (prepareRequest L delivery subscription req).ContentLength = (delivery.Payload.length : Int) ∧
    (prepareRequest L delivery subscription req).Header.get (goStr "Content-Type")
      = some (goStr "application/json") := by
  have k1 : goStr "X-Webhook-Event" ≠ goStr "Content-Type" := by decide
  have k2 : goStr "X-Webhook-ID" ≠ goStr "Content-Type" := by decide
  have k3 : goStr "X-Hub-Signature-256" ≠ goStr "Content-Type" := by decide
  unfold prepareRequest
  cases delivery.EventType <;> cases subscription.SecretKey with
  | none => simp [Header_get_set_ne _ _ _ _ k1, Header_get_set_ne _ _ _ _ k2, Header_get_set]
  | some secretKey =>
    by_cases hs : secretKey = [] <;>
      simp [hs, Header_get_set_ne _ _ _ _ k1, Header_get_set_ne _ _ _ _ k2,
        Header_get_set_ne _ _ _ _ k3, Header_get_set]

/-! ## Retry policy (`handleDeliveryFailure`) -/

/-- C1. Retry branch of `handleDeliveryFailure`: for a non-empty delay list `D` of length `K`
and a delivery whose retry count is `r` after the increment, with `1 ≤ r < max_retries`, the
delay `D[min(r, K) - 1]` exists, the delivery record gets `status = PENDING` and
`next_retry_at = now + delay`; the record is written to the store (when the write goes
through, the row of the delivery carries the new status, retry time and retry count and no
other row changes), and then exactly one task for the delivery id is enqueued with that same
delay (when the enqueue goes through, the queue grows by that one task and the call
returns nil). -/
theorem handleDeliveryFailure_retry (L : Lib) (config : Config) (env : FailureEnv) (w : World)
    (delivery : WebhookDelivery) (err : GoError) (statusCode : Option Int) (r : Int)
    (hr : r = wrapInt (delivery.RetryCount + 1))
    (hD : config.RetryDelays ≠ []) (h1 : 1 ≤ r) (h2 : r < delivery.MaxRetries) :
    ∃ delay, config.RetryDelays[min r.toNat config.RetryDelays.length - 1]? = some delay ∧
      (WebhookService.handleDeliveryFailure L config env w delivery err statusCode).delivery =
        { delivery with
          RetryCount := r, Status := StatusPending, NextRetryAt := some (env.now + delay) } ∧
      (env.updateFault = none →
        (WebhookService.handleDeliveryFailure L config env w delivery err statusCode).world.db =
          { w.db with
            deliveries := w.db.deliveries.map (fun d =>
              if d.ID = delivery.ID then
                { d with
                  Status := StatusPending, NextRetryAt := some (env.now + delay), RetryCount := r }
              else d) } ∧
        (env.enqueueFault = none →
          (WebhookService.handleDeliveryFailure L config env w delivery err statusCode).world.queue
            = w.queue ++ [⟨goStr "webhook:deliver", L.uuidString delivery.ID, some delay⟩] ∧
          (WebhookService.handleDeliveryFailure L config env w delivery err statusCode).outcome
            = Outcome.returned none)) := by
  obtain ⟨delay, hget, hidx⟩ := sliceIndex_retryDelayIndex config r hD h1
  replace hidx := hidx (by rw [hr]; unfold wrapInt; omega)
  refine ⟨delay, hget, ?_⟩
  have hnot : ¬ (wrapInt (delivery.RetryCount + 1) ≥ delivery.MaxRetries) := by
    rw [← hr]; omega
  rw [hr] at hidx
  subst hr
  unfold WebhookService.handleDeliveryFailure
  simp only [hnot, if_false, hidx]
  refine ⟨?_, ?_⟩
  · cases hU : env.updateFault <;> cases hQ : env.enqueueFault <;>
      simp [PostgresRepository.UpdateWebhookDelivery, clientEnqueue]
  · intro hU
    refine ⟨?_, ?_⟩
    · cases hQ : env.enqueueFault <;>
        simp [PostgresRepository.UpdateWebhookDelivery, clientEnqueue, hU]
    · intro hQ
      simp [PostgresRepository.UpdateWebhookDelivery, clientEnqueue, hU, hQ, deliverTask]

/-- C1, at a concrete input: first failure of a delivery with five attempts allowed under the
default delays; the retry is scheduled 10 s later. -/
theorem handleDeliveryFailure_retry_witness :
    ((1 : Int) = wrapInt (demoDelivery.RetryCount + 1) ∧ demoConfig.RetryDelays ≠ [] ∧
      (1 : Int) ≤ 1 ∧ (1 : Int) < demoDelivery.MaxRetries) ∧
    ∃ delay, demoConfig.RetryDelays[min (1 : Int).toNat demoConfig.RetryDelays.length - 1]?
        = some delay ∧
      (WebhookService.handleDeliveryFailure demoLib demoConfig okFailureEnv demoWorld
          demoDelivery ⟨[]⟩ none).delivery =
        { demoDelivery with
          RetryCount := 1, Status := StatusPending,
          NextRetryAt := some (okFailureEnv.now + delay) } ∧
      (okFailureEnv.updateFault = none →
        (WebhookService.handleDeliveryFailure demoLib demoConfig okFailureEnv demoWorld
            demoDelivery ⟨[]⟩ none).world.db =
          { demoWorld.db with
            deliveries := demoWorld.db.deliveries.map (fun d =>
              if d.ID = demoDelivery.ID then
                { d with
                  Status := StatusPending, NextRetryAt := some (okFailureEnv.now + delay),
                  RetryCount := 1 }
              else d) } ∧
        (okFailureEnv.enqueueFault = none →
          (WebhookService.handleDeliveryFailure demoLib demoConfig okFailureEnv demoWorld
              demoDelivery ⟨[]⟩ none).world.queue
            = demoWorld.queue ++
              [⟨goStr "webhook:deliver", demoLib.uuidString demoDelivery.ID, some delay⟩] ∧
          (WebhookService.handleDeliveryFailure demoLib demoConfig okFailureEnv demoWorld
              demoDelivery ⟨[]⟩ none).outcome
            = Outcome.returned none)) :=
  ⟨⟨by decide, by decide, by decide, by decide⟩,
    handleDeliveryFailure_retry demoLib demoConfig okFailureEnv demoWorld demoDelivery ⟨[]⟩ none 1
      (by decide) (by decide) (by decide) (by decide)⟩

/-- C2. Terminal branch of `handleDeliveryFailure`: when the failed attempt leaves
`retry_count = r` with `r ≥ max_retries`, the delivery record gets `status = FAILED` and
`next_retry_at = null`, that record is written to the store (when the write goes through, the
row of the delivery carries `FAILED`, a null retry time and the retry count `r`, no other row
changes, and the call returns nil), and no task is enqueued, whatever the store answers. -/
theorem handleDeliveryFailure_terminal (L : Lib) (config : Config) (env : FailureEnv)
    (w : World) (delivery : WebhookDelivery) (err : GoError) (statusCode : Option Int) (r : Int)
    (hr : r = wrapInt (delivery.RetryCount + 1)) (h : r ≥ delivery.MaxRetries) :
    (WebhookService.handleDeliveryFailure L config env w delivery err statusCode).delivery =
      { delivery with RetryCount := r, Status := StatusFailed, NextRetryAt := none } ∧
    (WebhookService.handleDeliveryFailure L config env w delivery err statusCode).world.queue
      = w.queue ∧
    (env.updateFault = none →
      (WebhookService.handleDeliveryFailure L config env w delivery err statusCode).world.db =
        { w.db with
          deliveries := w.db.deliveries.map (fun d =>
            if d.ID = delivery.ID then
              { d with Status := StatusFailed, NextRetryAt := none, RetryCount := r }
            else d) } ∧
      (WebhookService.handleDeliveryFailure L config env w delivery err statusCode).outcome
        = Outcome.returned none) := by
  subst hr
  unfold WebhookService.handleDeliveryFailure
  simp only [h, if_true]
  refine ⟨?_, ?_, ?_⟩
  · cases hU : env.updateFault <;> simp [PostgresRepository.UpdateWebhookDelivery]
  · cases hU : env.updateFault <;> simp [PostgresRepository.UpdateWebhookDelivery]
  · intro hU
    simp [PostgresRepository.UpdateWebhookDelivery, hU]

/-- C2, at a concrete input: a delivery with one attempt allowed fails for the first time. -/
theorem handleDeliveryFailure_terminal_witness :
    ((1 : Int) = wrapInt (demoDelivery.RetryCount + 1) ∧ (1 : Int) ≥ 1) ∧
    (WebhookService.handleDeliveryFailure demoLib demoConfig okFailureEnv demoWorld
        { demoDelivery with MaxRetries := 1 } ⟨[]⟩ none).delivery =
      { demoDelivery with
        MaxRetries := 1, RetryCount := 1, Status := StatusFailed, NextRetryAt := none } ∧
    (WebhookService.handleDeliveryFailure demoLib demoConfig okFailureEnv demoWorld
        { demoDelivery with MaxRetries := 1 } ⟨[]⟩ none).world.queue = demoWorld.queue ∧
    (okFailureEnv.updateFault = none →
      (WebhookService.handleDeliveryFailure demoLib demoConfig okFailureEnv demoWorld
          { demoDelivery with MaxRetries := 1 } ⟨[]⟩ none).world.db =
        { demoWorld.db with
          deliveries := demoWorld.db.deliveries.map (fun d =>
            if d.ID = demoDelivery.ID then
              { d with Status := StatusFailed, NextRetryAt := none, RetryCount := 1 }
            else d) } ∧
      (WebhookService.handleDeliveryFailure demoLib demoConfig okFailureEnv demoWorld
          { demoDelivery with MaxRetries := 1 } ⟨[]⟩ none).outcome
        = Outcome.returned none) :=
  ⟨⟨by decide, by decide⟩,
    handleDeliveryFailure_terminal demoLib demoConfig okFailureEnv demoWorld
      { demoDelivery with MaxRetries := 1 } ⟨[]⟩ none 1 (by decide) (by decide)⟩

/-! ## Ingestion (`IngestWebhook`) -/

theorem eventTypeMatched_iff (l : List GoString) (eventType : GoString) :
    eventTypeMatched l eventType = true ↔ eventType ∈ l := by
  induction l with
  | nil => simp [eventTypeMatched]
  | cons et rest ih =>
    unfold eventTypeMatched
    by_cases h : et = eventType
    · simp [h]
    · have h2 : ¬ eventType = et := fun h3 => h h3.symm
      simp [h, h2, ih]

theorem eventSkipped_iff (sub : Subscription) (eventType : GoString) :
    eventSkipped sub eventType = true ↔
      eventType ≠ [] ∧ sub.EventTypes.elems ≠ [] ∧ eventType ∉ sub.EventTypes.elems := by
  unfold eventSkipped
  have hlen : sub.EventTypes.elems.length > 0 ↔ sub.EventTypes.elems ≠ [] := List.length_pos
  by_cases h1 : eventType = []
  · simp [h1]
  · by_cases h2 : sub.EventTypes.elems = []
    · simp [h2]
    · have hpos : sub.EventTypes.elems.length > 0 := hlen.mpr h2
      have hm := eventTypeMatched_iff sub.EventTypes.elems eventType
      by_cases h3 : eventType ∈ sub.EventTypes.elems
      · simp [h1, h2, hpos, h3, hm.mpr h3]
      · have : eventTypeMatched sub.EventTypes.elems eventType = false := by
          cases hb : eventTypeMatched sub.EventTypes.elems eventType
          · rfl
          · exact absurd (hm.mp hb) h3
        simp [h1, h2, hpos, h3, this]

theorem GetSubscription_frame (env : SubEnv) (w w1 : World) (id : UUID)
    (res : Except GoError Subscription)
    (h : WebhookService.GetSubscription env w id = (w1, res)) :
    w1.db = w.db ∧ w1.queue = w.queue ∧ w1.sent = w.sent := by
  unfold WebhookService.GetSubscription at h
  split at h
  · cases h; exact ⟨rfl, rfl, rfl⟩
  · split at h
    · cases h; exact ⟨rfl, rfl, rfl⟩
    · cases h; exact ⟨rfl, rfl, rfl⟩

/-- C3. Event-type filter of `IngestWebhook`: for a subscription that `GetSubscription`
finds, the call returns nil with the deliveries table and the queue unchanged if and only
if the event type is non-empty, the subscription's `event_types` is non-empty and the event
type is not one of its elements; the secret, the signature and the payload play no part. -/
theorem IngestWebhook_skip_iff (L : Lib) (config : Config) (env : IngestEnv) (w w1 : World)
    (subscriptionID : UUID) (sub : Subscription) (eventType : GoString) (payload : Bytes)
    (signature : GoString)
    (hSub : WebhookService.GetSubscription env.sub w subscriptionID = (w1, .ok sub)) :
    ((WebhookService.IngestWebhook L config env w subscriptionID eventType payload signature).2
        = Outcome.returned none ∧
      (WebhookService.IngestWebhook L config env w subscriptionID eventType payload
        signature).1.db.deliveries = w.db.deliveries ∧
      (WebhookService.IngestWebhook L config env w subscriptionID eventType payload
        signature).1.queue = w.queue) ↔
    (eventType ≠ [] ∧ sub.EventTypes.elems ≠ [] ∧ eventType ∉ sub.EventTypes.elems) := by
  obtain ⟨hdb, hq, _⟩ := GetSubscription_frame _ _ _ _ _ hSub
  rw [← eventSkipped_iff]
  unfold WebhookService.IngestWebhook
  rw [hSub]
  simp only []
  by_cases hs : eventSkipped sub eventType = true
  · simp [hs, hdb, hq]
  · simp only [hs, if_false]
    by_cases hr : signatureRefused L sub payload signature = true
    · simp [hr]
    · simp only [hr, if_false]
      cases hc : env.createFault with
      | some e => simp [PostgresRepository.CreateWebhookDelivery]
      | none =>
        cases he : env.enqueueFault with
        | some e => simp [PostgresRepository.CreateWebhookDelivery, clientEnqueue]
        | none => simp [PostgresRepository.CreateWebhookDelivery, clientEnqueue, hdb]

/-- C3, at a concrete input: `order.cancelled` sent to a subscription that lists only
`order.created`. -/
theorem IngestWebhook_skip_iff_witness :
    ((WebhookService.IngestWebhook demoLib demoConfig okIngestEnv subWorld 1
        (goStr "order.cancelled") demoPayload []).2 = Outcome.returned none ∧
      (WebhookService.IngestWebhook demoLib demoConfig okIngestEnv subWorld 1
        (goStr "order.cancelled") demoPayload []).1.db.deliveries = subWorld.db.deliveries ∧
      (WebhookService.IngestWebhook demoLib demoConfig okIngestEnv subWorld 1
        (goStr "order.cancelled") demoPayload []).1.queue = subWorld.queue) ↔
    (goStr "order.cancelled" ≠ [] ∧ demoSub.EventTypes.elems ≠ [] ∧
      goStr "order.cancelled" ∉ demoSub.EventTypes.elems) :=
  IngestWebhook_skip_iff demoLib demoConfig okIngestEnv subWorld
    ⟨subWorld.db, cacheSet [] 1 demoSub 0, [], []⟩ 1 demoSub
    (goStr "order.cancelled") demoPayload [] rfl

theorem eventSkipped_eq_false (sub : Subscription) (eventType : GoString)
    (h : eventType = [] ∨ sub.EventTypes.elems = [] ∨ eventType ∈ sub.EventTypes.elems) :
    eventSkipped sub eventType = false := by
  cases hb : eventSkipped sub eventType
  · rfl
  · obtain ⟨h1, h2, h3⟩ := (eventSkipped_iff sub eventType).mp hb
    rcases h with h | h | h
    · exact absurd h h1
    · exact absurd h h2
    · exact absurd h h3

/-- C4. Signature check of `IngestWebhook`: for a subscription with a non-empty secret and an
event that passes the event-type filter, a non-empty signature that `VerifySignature`
rejects makes the call return the error `invalid signature`; the database and the queue are
left as they were. -/
theorem IngestWebhook_invalid_signature (L : Lib) (config : Config) (env : IngestEnv)
    (w w1 : World) (subscriptionID : UUID) (sub : Subscription) (secretKey : GoString)
    (eventType : GoString) (payload : Bytes) (signature : GoString)
    (hSub : WebhookService.GetSubscription env.sub w subscriptionID = (w1, .ok sub))
    (hSecret : sub.SecretKey = some secretKey) (hNonEmpty : secretKey ≠ [])
    (hFilter : eventType = [] ∨ sub.EventTypes.elems = [] ∨ eventType ∈ sub.EventTypes.elems)
    (hSig : signature ≠ [])
    (hVerify : WebhookService.VerifySignature L payload signature secretKey = false) :
    (WebhookService.IngestWebhook L config env w subscriptionID eventType payload signature).2
      = Outcome.returned (some (errorsNew "invalid signature")) ∧
    (WebhookService.IngestWebhook L config env w subscriptionID eventType payload
      signature).1.db = w.db ∧
    (WebhookService.IngestWebhook L config env w subscriptionID eventType payload
      signature).1.queue = w.queue := by
  obtain ⟨hdb, hq, _⟩ := GetSubscription_frame _ _ _ _ _ hSub
  have hs := eventSkipped_eq_false sub eventType hFilter
  have hr : signatureRefused L sub payload signature = true := by
    simp [signatureRefused, hSecret, hNonEmpty, hSig, hVerify]
  unfold WebhookService.IngestWebhook
  rw [hSub]
  simp [hs, hr, hdb, hq]

/-- C4, at a concrete input: secret `s`, signature `sha256=0000`. -/
theorem IngestWebhook_invalid_signature_witness :
    (WebhookService.IngestWebhook demoLib demoConfig okIngestEnv subWorld 1
      (goStr "order.created") demoPayload (goStr "sha256=0000")).2
      = Outcome.returned (some (errorsNew "invalid signature")) ∧
    (WebhookService.IngestWebhook demoLib demoConfig okIngestEnv subWorld 1
      (goStr "order.created") demoPayload (goStr "sha256=0000")).1.db = subWorld.db ∧
    (WebhookService.IngestWebhook demoLib demoConfig okIngestEnv subWorld 1
      (goStr "order.created") demoPayload (goStr "sha256=0000")).1.queue = subWorld.queue :=
  IngestWebhook_invalid_signature demoLib demoConfig okIngestEnv subWorld
    ⟨subWorld.db, cacheSet [] 1 demoSub 0, [], []⟩ 1 demoSub (goStr "s")
    (goStr "order.created") demoPayload (goStr "sha256=0000") rfl rfl (by decide)
    (Or.inr (Or.inr (by decide))) (by decide) (by decide)

/-- C5. Permissive policy of `IngestWebhook`: for a subscription with a non-empty secret, a
request with an empty signature that passes the event-type filter is not refused.  The call
returns the error of the insert if the insert fails, else the error of the enqueue if the
enqueue fails, else nil; and when both succeed, exactly one delivery (the record built from
the request) is added to the deliveries table and exactly one immediate task for its id is
added to the queue. -/
theorem IngestWebhook_empty_signature_accepted (L : Lib) (config : Config) (env : IngestEnv)
    (w w1 : World) (subscriptionID : UUID) (sub : Subscription) (secretKey : GoString)
    (eventType : GoString) (payload : Bytes)
    (hSub : WebhookService.GetSubscription env.sub w subscriptionID = (w1, .ok sub))
    (hSecret : sub.SecretKey = some secretKey) (_hNonEmpty : secretKey ≠ [])
    (hFilter : eventType = [] ∨ sub.EventTypes.elems = [] ∨ eventType ∈ sub.EventTypes.elems) :
    (WebhookService.IngestWebhook L config env w subscriptionID eventType payload []).2
      = Outcome.returned (env.createFault <|> env.enqueueFault) ∧
    (env.createFault = none → env.enqueueFault = none →
      (WebhookService.IngestWebhook L config env w subscriptionID eventType payload
        []).1.db.deliveries
        = w.db.deliveries ++ [newDelivery config env subscriptionID eventType payload] ∧
      (WebhookService.IngestWebhook L config env w subscriptionID eventType payload
        []).1.queue
        = w.queue ++ [⟨goStr "webhook:deliver", L.uuidString env.newID, none⟩]) := by
  obtain ⟨hdb, hq, _⟩ := GetSubscription_frame _ _ _ _ _ hSub
  have hs := eventSkipped_eq_false sub eventType hFilter
  have hr : signatureRefused L sub payload [] = false := by
    simp [signatureRefused, hSecret]
  unfold WebhookService.IngestWebhook
  rw [hSub]
  simp only [hs, hr]
  cases hc : env.createFault with
  | some e => simp [PostgresRepository.CreateWebhookDelivery]
  | none =>
    cases he : env.enqueueFault with
    | some e => simp [PostgresRepository.CreateWebhookDelivery, clientEnqueue]
    | none =>
      simp [PostgresRepository.CreateWebhookDelivery, clientEnqueue, hdb, hq, deliverTask,
        newDelivery]

/-- C5, at a concrete input: secret `s`, no signature header, matching event type. -/
theorem IngestWebhook_empty_signature_accepted_witness :
    (WebhookService.IngestWebhook demoLib demoConfig okIngestEnv subWorld 1
      (goStr "order.created") demoPayload []).2
      = Outcome.returned (okIngestEnv.createFault <|> okIngestEnv.enqueueFault) ∧
    (okIngestEnv.createFault = none → okIngestEnv.enqueueFault = none →
      (WebhookService.IngestWebhook demoLib demoConfig okIngestEnv subWorld 1
        (goStr "order.created") demoPayload []).1.db.deliveries
        = subWorld.db.deliveries ++
          [newDelivery demoConfig okIngestEnv 1 (goStr "order.created") demoPayload] ∧
      (WebhookService.IngestWebhook demoLib demoConfig okIngestEnv subWorld 1
        (goStr "order.created") demoPayload []).1.queue
        = subWorld.queue ++
          [⟨goStr "webhook:deliver", demoLib.uuidString okIngestEnv.newID, none⟩]) :=
  IngestWebhook_empty_signature_accepted demoLib demoConfig okIngestEnv subWorld
    ⟨subWorld.db, cacheSet [] 1 demoSub 0, [], []⟩ 1 demoSub (goStr "s")
    (goStr "order.created") demoPayload rfl rfl (by decide) (Or.inr (Or.inr (by decide)))

/-- C7. Shape of the delivery `IngestWebhook` creates: a call adds at most one row to the
deliveries table, and the row it adds has `status = PENDING`, `retry_count = 0`,
`max_retries = config.RetryLimit`, `next_retry_at = null`, the requested subscription id, the
payload passed in, and as event type the given one when it is non-empty and null when it is
empty. -/
theorem IngestWebhook_created_delivery (L : Lib) (config : Config) (env : IngestEnv)
    (w : World) (subscriptionID : UUID) (eventType : GoString) (payload : Bytes)
    (signature : GoString) :
    (WebhookService.IngestWebhook L config env w subscriptionID eventType payload
      signature).1.db.deliveries = w.db.deliveries ∨
    ∃ d : WebhookDelivery,
      (WebhookService.IngestWebhook L config env w subscriptionID eventType payload
        signature).1.db.deliveries = w.db.deliveries ++ [d] ∧
      d.Status = StatusPending ∧ d.RetryCount = 0 ∧ d.MaxRetries = config.RetryLimit ∧
      d.NextRetryAt = none ∧ d.SubscriptionID = subscriptionID ∧ d.Payload = payload ∧
      (eventType ≠ [] → d.EventType = some eventType) ∧
      (eventType = [] → d.EventType = none) := by
  unfold WebhookService.IngestWebhook
  cases hSub : WebhookService.GetSubscription env.sub w subscriptionID with
  | mk w1 res =>
    obtain ⟨hdb, _, _⟩ := GetSubscription_frame _ _ _ _ _ hSub
    cases res with
    | error err => left; simp [hdb]
    | ok sub =>
      simp only []
      by_cases hs : eventSkipped sub eventType = true
      · left; simp [hs, hdb]
      · simp only [hs, if_false]
        by_cases hr : signatureRefused L sub payload signature = true
        · left; simp [hr, hdb]
        · simp only [hr, if_false]
          cases hc : env.createFault with
          | some e => left; simp [PostgresRepository.CreateWebhookDelivery, hdb]
          | none =>
            right
            refine ⟨newDelivery config env subscriptionID eventType payload, ?_, ?_⟩
            · cases he : env.enqueueFault <;>
                simp [PostgresRepository.CreateWebhookDelivery, clientEnqueue, hdb]
            · by_cases h0 : eventType = [] <;> simp [newDelivery, h0]

/-- C8. Failure of the insert in `IngestWebhook`: when `CreateWebhookDelivery` fails with `e`,
no task is enqueued whatever the request is, and a request that reaches the insert (the
subscription is found, the event passes the filter, the signature is not refused) returns
`e` with the database unchanged. -/
theorem IngestWebhook_create_fails (L : Lib) (config : Config) (env : IngestEnv) (w : World)
    (subscriptionID : UUID) (eventType : GoString) (payload : Bytes) (signature : GoString)
    (e : GoError) (hCreate : env.createFault = some e) :
    (WebhookService.IngestWebhook L config env w subscriptionID eventType payload
      signature).1.queue = w.queue ∧
    ∀ (w1 : World) (sub : Subscription),
      WebhookService.GetSubscription env.sub w subscriptionID = (w1, .ok sub) →
      eventSkipped sub eventType = false → signatureRefused L sub payload signature = false →
      (WebhookService.IngestWebhook L config env w subscriptionID eventType payload
        signature).2 = Outcome.returned (some e) ∧
      (WebhookService.IngestWebhook L config env w subscriptionID eventType payload
        signature).1.db = w.db := by
  unfold WebhookService.IngestWebhook
  cases hSub : WebhookService.GetSubscription env.sub w subscriptionID with
  | mk w1 res =>
    obtain ⟨hdb, hq, _⟩ := GetSubscription_frame _ _ _ _ _ hSub
    cases res with
    | error err =>
      refine ⟨by simp [hq], ?_⟩
      intro w2 sub h
      cases h
    | ok sub =>
      refine ⟨?_, ?_⟩
      · simp only []
        by_cases hs : eventSkipped sub eventType = true
        · simp [hs, hq]
        · by_cases hr : signatureRefused L sub payload signature = true
          · simp [hs, hr, hq]
          · simp [hs, hr, hq, hCreate, PostgresRepository.CreateWebhookDelivery]
      · intro w2 sub2 h hs hr
        cases h
        simp [hs, hr, hdb, hCreate, PostgresRepository.CreateWebhookDelivery]

/-- C8, at a concrete input: the insert fails with `db down` for an accepted request. -/
theorem IngestWebhook_create_fails_witness :
    (WebhookService.IngestWebhook demoLib demoConfig createFailsEnv subWorld 1
      (goStr "order.created") demoPayload []).1.queue = subWorld.queue ∧
    (WebhookService.IngestWebhook demoLib demoConfig createFailsEnv subWorld 1
      (goStr "order.created") demoPayload []).2
      = Outcome.returned (some (errorsNew "db down")) ∧
    (WebhookService.IngestWebhook demoLib demoConfig createFailsEnv subWorld 1
      (goStr "order.created") demoPayload []).1.db = subWorld.db :=
  ⟨(IngestWebhook_create_fails demoLib demoConfig createFailsEnv subWorld 1
      (goStr "order.created") demoPayload [] (errorsNew "db down") rfl).1,
    (IngestWebhook_create_fails demoLib demoConfig createFailsEnv subWorld 1
      (goStr "order.created") demoPayload [] (errorsNew "db down") rfl).2
      ⟨subWorld.db, cacheSet [] 1 demoSub 0, [], []⟩ demoSub rfl (by decide) (by decide)⟩

/-! ## Signatures (`VerifySignature`) -/

/-- C6. Contract of `VerifySignature`, with HMAC-SHA256 a given function: the call is total
and returns true exactly when the signature is `sha256=` followed by the hexadecimal
rendering of `HMAC-SHA256(secret, payload)`, whose digits are all among `0123456789abcdef`;
a signature that does not start with
`sha256=`, or whose length is not that of the expected value, is answered with false; and the
`X-Hub-Signature-256` header that `DeliverWebhook` puts on a request for a subscription with
a non-empty secret is accepted for the same payload and secret. -/
theorem VerifySignature_contract (L : Lib) (payload : Bytes) (secretKey signature : GoString) :
    (WebhookService.VerifySignature L payload signature secretKey = true ↔
      signature = goStr "sha256=" ++ hexEncodeToString (L.hmacSha256 secretKey payload)) ∧
    (∀ c ∈ hexEncodeToString (L.hmacSha256 secretKey payload), c ∈ goStr "0123456789abcdef") ∧
    (signature.take 7 ≠ goStr "sha256=" →
      WebhookService.VerifySignature L payload signature secretKey = false) ∧
    (signature.length ≠ 7 + 2 * (L.hmacSha256 secretKey payload).length →
      WebhookService.VerifySignature L payload signature secretKey = false) ∧
    (∀ (delivery : WebhookDelivery) (subscription : Subscription) (req : Request),
      delivery.Payload = payload → subscription.SecretKey = some secretKey → secretKey ≠ [] →
      ∃ v, (prepareRequest L delivery subscription req).Header.get (goStr "X-Hub-Signature-256")
          = some v ∧
        WebhookService.VerifySignature L payload v secretKey = true) := by
  have hiff : WebhookService.VerifySignature L payload signature secretKey = true ↔
      signature = goStr "sha256=" ++ hexEncodeToString (L.hmacSha256 secretKey payload) := by
    unfold WebhookService.VerifySignature
    exact hmacEqual_iff _ _
  refine ⟨hiff, hexEncodeToString_lowercase _, ?_, ?_, ?_⟩
  · intro hp
    cases hb : WebhookService.VerifySignature L payload signature secretKey
    · rfl
    · exfalso
      apply hp
      rw [hiff.mp hb]
      have h7 : (goStr "sha256=").length = 7 := by decide
      rw [List.take_append_of_le_length (by rw [h7]), List.take_of_length_le (by rw [h7])]
  · intro hl
    cases hb : WebhookService.VerifySignature L payload signature secretKey
    · rfl
    · exfalso
      apply hl
      rw [hiff.mp hb, List.length_append, hexEncodeToString_length]
      have h7 : (goStr "sha256=").length = 7 := by decide
      rw [h7]
  · intro delivery subscription req hPayload hSecret hNonEmpty
    refine ⟨goStr "sha256=" ++ hexEncodeToString (L.hmacSha256 secretKey payload), ?_, ?_⟩
    · unfold prepareRequest
      simp only [hSecret, hNonEmpty, ne_eq, not_false_eq_true, if_true, hPayload]
      exact Header_get_set _ _ _
    · unfold WebhookService.VerifySignature
      exact (hmacEqual_iff _ _).mpr rfl

/-- C6, at a concrete input: the header computed for `demoDelivery` under secret `s` is accepted,
and the signature `sha256=0000` is not. -/
theorem VerifySignature_contract_witness :
    (∃ v, (prepareRequest demoLib demoDelivery demoSub
        ⟨goStr "POST", demoSub.TargetURL, NoBody, none, 0, []⟩).Header.get
          (goStr "X-Hub-Signature-256") = some v ∧
      WebhookService.VerifySignature demoLib demoPayload v (goStr "s") = true) ∧
    WebhookService.VerifySignature demoLib demoPayload (goStr "sha256=0000") (goStr "s")
      = false :=
  ⟨(VerifySignature_contract demoLib demoPayload (goStr "s") []).2.2.2.2 demoDelivery demoSub
      ⟨goStr "POST", demoSub.TargetURL, NoBody, none, 0, []⟩ rfl rfl (by decide),
    (VerifySignature_contract demoLib demoPayload (goStr "s") (goStr "sha256=0000")).2.2.2.1
      (by decide)⟩

/-! ## Delivery (`DeliverWebhook`) -/

theorem GetWebhookDelivery_ok (fault : Option GoError) (db : DB) (id : UUID)
    (delivery : WebhookDelivery)
    (h : PostgresRepository.GetWebhookDelivery fault db id = .ok delivery) :
    delivery.ID = id ∧ delivery ∈ db.deliveries := by
  unfold PostgresRepository.GetWebhookDelivery at h
  cases fault with
  | some e => simp at h
  | none =>
    simp only [] at h
    cases hf : db.deliveries.find? (fun d => d.ID == id) with
    | none => rw [hf] at h; simp at h
    | some d =>
      rw [hf] at h
      simp only [Except.ok.injEq] at h
      subst h
      have h1 := List.find?_some hf
      exact ⟨by simpa using h1, List.mem_of_find?_eq_some hf⟩

theorem UpdateWebhookDelivery_status (db : DB) (delivery : WebhookDelivery) :
    ∀ d ∈ (PostgresRepository.UpdateWebhookDelivery none db delivery).1.deliveries,
      d.ID = delivery.ID → d.Status = delivery.Status := by
  intro d hd hid
  simp only [PostgresRepository.UpdateWebhookDelivery, List.mem_map] at hd
  obtain ⟨d0, _, rfl⟩ := hd
  by_cases h0 : d0.ID = delivery.ID
  · simp [h0]
  · simp only [h0, if_false] at hid

theorem UpdateWebhookDelivery_attempts (fault : Option GoError) (db : DB)
    (delivery : WebhookDelivery) :
    (PostgresRepository.UpdateWebhookDelivery fault db delivery).1.attempts = db.attempts := by
  cases fault <;> rfl

theorem CreateDeliveryAttempt_deliveries (fault : Option GoError) (db : DB)
    (attempt : DeliveryAttempt) :
    (PostgresRepository.CreateDeliveryAttempt fault db attempt).1.deliveries = db.deliveries := by
  cases fault <;> rfl

theorem handleDeliveryFailure_attempts (L : Lib) (config : Config) (env : FailureEnv)
    (w : World) (delivery : WebhookDelivery) (err : GoError) (statusCode : Option Int) :
    (WebhookService.handleDeliveryFailure L config env w delivery err statusCode).world.db.attempts
      = w.db.attempts := by
  unfold WebhookService.handleDeliveryFailure
  simp only []
  split_ifs
  · cases env.updateFault <;> simp [PostgresRepository.UpdateWebhookDelivery]
  · cases sliceIndex config.RetryDelays
        (retryDelayIndex config (wrapInt (delivery.RetryCount + 1))) with
    | none => rfl
    | some delay =>
      cases env.updateFault <;> cases env.enqueueFault <;>
        simp [PostgresRepository.UpdateWebhookDelivery, clientEnqueue]

theorem handleDeliveryFailure_rows (L : Lib) (config : Config) (env : FailureEnv)
    (w : World) (delivery : WebhookDelivery) (err : GoError) (statusCode : Option Int) :
    ∀ d ∈ (WebhookService.handleDeliveryFailure L config env w delivery err
        statusCode).world.db.deliveries,
      d ∈ w.db.deliveries ∨ d.Status = StatusFailed ∨ d.Status = StatusPending := by
  have key : ∀ (status : GoString) (next : Option Time) (count : Int) (d : WebhookDelivery),
      d ∈ w.db.deliveries.map (fun d0 =>
        if d0.ID = delivery.ID then
          { d0 with Status := status, NextRetryAt := next, RetryCount := count }
        else d0) →
      d ∈ w.db.deliveries ∨ d.Status = status := by
    intro status next count d hd
    obtain ⟨d0, hd0, rfl⟩ := List.mem_map.mp hd
    by_cases h0 : d0.ID = delivery.ID
    · right; simp [h0]
    · left; simpa [h0] using hd0
  intro d hd
  unfold WebhookService.handleDeliveryFailure at hd
  simp only [] at hd
  split_ifs at hd
  · cases hU : env.updateFault with
    | some e =>
      left; simpa [PostgresRepository.UpdateWebhookDelivery, hU] using hd
    | none =>
      simp only [PostgresRepository.UpdateWebhookDelivery, hU] at hd
      rcases key _ _ _ d hd with h | h
      · exact Or.inl h
      · exact Or.inr (Or.inl h)
  · cases hI : sliceIndex config.RetryDelays
        (retryDelayIndex config (wrapInt (delivery.RetryCount + 1))) with
    | none => left; simpa [hI] using hd
    | some delay =>
      cases hU : env.updateFault with
      | some e =>
        left; simpa [PostgresRepository.UpdateWebhookDelivery, hI, hU] using hd
      | none =>
        have hd2 : d ∈ w.db.deliveries.map (fun d0 =>
            if d0.ID = delivery.ID then
              { d0 with
                Status := StatusPending, NextRetryAt := some (env.now + delay),
                RetryCount := wrapInt (delivery.RetryCount + 1) }
            else d0) := by
          cases hQ : env.enqueueFault <;>
            simpa [PostgresRepository.UpdateWebhookDelivery, clientEnqueue, hI, hU, hQ] using hd
        rcases key _ _ _ d hd2 with h | h
        · exact Or.inl h
        · exact Or.inr (Or.inr h)

/-- C9. Classification of the response in `DeliverWebhook`: in a run that reaches
`client.Do` and gets a response with status code `c`, the attempt record handed to
`CreateDeliveryAttempt` carries the delivery id and the code, and its status is `SUCCESS`
exactly when `200 ≤ c < 300` and `FAILED` exactly otherwise (when the insert goes through it
is the one row added to the attempts table).  A row of the delivery can only read `DELIVERED`
afterwards if `200 ≤ c < 300`, and it does read `DELIVERED` in that case when the update goes
through; the call then returns nil and enqueues nothing.  For every other code the rest of
the run is `handleDeliveryFailure` on the state that follows the insert of the attempt. -/
theorem DeliverWebhook_response (L : Lib) (config : Config) (env : DeliverEnv) (w w1 : World)
    (deliveryID : UUID) (delivery : WebhookDelivery) (subscription : Subscription)
    (resp : Response)
    (hGet : PostgresRepository.GetWebhookDelivery env.getDeliveryFault w.db deliveryID
      = .ok delivery)
    (hUpd : env.updateProcessingFault = none)
    (hSub : WebhookService.GetSubscription env.sub
      { w with
        db := (PostgresRepository.UpdateWebhookDelivery none w.db
          { delivery with Status := StatusProcessing }).1 }
      delivery.SubscriptionID = (w1, .ok subscription))
    (hReq : env.newRequestFault = none)
    (hDo : env.clientDo (prepareRequest L { delivery with Status := StatusProcessing }
      subscription ⟨goStr "POST", subscription.TargetURL, NoBody, none, 0, []⟩) = .ok resp) :
    ∃ attempt : DeliveryAttempt,
      attempt.DeliveryID = deliveryID ∧ attempt.StatusCode = some resp.StatusCode ∧
      (attempt.Status = StatusSuccess ↔ (200 ≤ resp.StatusCode ∧ resp.StatusCode < 300)) ∧
      (attempt.Status = StatusFailed ↔ ¬ (200 ≤ resp.StatusCode ∧ resp.StatusCode < 300)) ∧
      (env.createAttemptFault = none →
        (WebhookService.DeliverWebhook L config env w deliveryID).1.db.attempts
          = w.db.attempts ++ [attempt]) ∧
      (∀ d ∈ (WebhookService.DeliverWebhook L config env w deliveryID).1.db.deliveries,
        d.ID = deliveryID → d.Status = StatusDelivered →
        (200 ≤ resp.StatusCode ∧ resp.StatusCode < 300)) ∧
      ((200 ≤ resp.StatusCode ∧ resp.StatusCode < 300) →
        (WebhookService.DeliverWebhook L config env w deliveryID).2 = Outcome.returned none ∧
        (WebhookService.DeliverWebhook L config env w deliveryID).1.queue = w.queue ∧
        (env.updateDeliveredFault = none →
          ∀ d ∈ (WebhookService.DeliverWebhook L config env w deliveryID).1.db.deliveries,
            d.ID = deliveryID → d.Status = StatusDelivered)) ∧
      (¬ (200 ≤ resp.StatusCode ∧ resp.StatusCode < 300) →
        WebhookService.DeliverWebhook L config env w deliveryID =
          ((WebhookService.handleDeliveryFailure L config env.failure
              { w1 with
                db := (PostgresRepository.CreateDeliveryAttempt env.createAttemptFault w1.db
                  attempt).1
                sent := w1.sent ++ [prepareRequest L { delivery with Status := StatusProcessing }
                  subscription ⟨goStr "POST", subscription.TargetURL, NoBody, none, 0, []⟩] }
              { delivery with Status := StatusProcessing }
              ⟨goStr "HTTP " ++ formatInt resp.StatusCode⟩ (some resp.StatusCode)).world,
            (WebhookService.handleDeliveryFailure L config env.failure
              { w1 with
                db := (PostgresRepository.CreateDeliveryAttempt env.createAttemptFault w1.db
                  attempt).1
                sent := w1.sent ++ [prepareRequest L { delivery with Status := StatusProcessing }
                  subscription ⟨goStr "POST", subscription.TargetURL, NoBody, none, 0, []⟩] }
              { delivery with Status := StatusProcessing }
              ⟨goStr "HTTP " ++ formatInt resp.StatusCode⟩ (some resp.StatusCode)).outcome)) := by
  obtain ⟨hid, _⟩ := GetWebhookDelivery_ok _ _ _ _ hGet
  obtain ⟨hdb, hq, _⟩ := GetSubscription_frame _ _ _ _ _ hSub
  simp only [] at hdb hq
  have hU : PostgresRepository.UpdateWebhookDelivery env.updateProcessingFault w.db
      { delivery with Status := StatusProcessing } =
      ((PostgresRepository.UpdateWebhookDelivery none w.db
        { delivery with Status := StatusProcessing }).1, none) := by
    rw [hUpd]; rfl
  have hN : NewRequestWithContext env.newRequestFault (goStr "POST") subscription.TargetURL
      = .ok ⟨goStr "POST", subscription.TargetURL, NoBody, none, 0, []⟩ := by
    rw [hReq]; rfl
  have hrows : ∀ d ∈ w1.db.deliveries, d.ID = deliveryID → d.Status = StatusProcessing := by
    intro d hd hdid
    rw [hdb] at hd
    exact UpdateWebhookDelivery_status w.db { delivery with Status := StatusProcessing } d hd
      (by rw [hdid]; exact hid.symm)
  have hne1 : StatusProcessing ≠ StatusDelivered := by decide
  have hne2 : StatusFailed ≠ StatusDelivered := by decide
  have hne3 : StatusPending ≠ StatusDelivered := by decide
  have hne4 : StatusSuccess ≠ StatusFailed := by decide
  unfold WebhookService.DeliverWebhook
  rw [hGet]
  simp only []
  rw [hU]
  simp only []
  rw [hSub]
  simp only []
  rw [hN]
  simp only []
  rw [hDo]
  simp only []
  by_cases hc : 200 ≤ resp.StatusCode ∧ resp.StatusCode < 300
  · have hc2 : resp.StatusCode ≥ 200 ∧ resp.StatusCode < 300 := hc
    refine ⟨{ newAttempt env deliveryID { delivery with Status := StatusProcessing } with
      StatusCode := some resp.StatusCode, Status := StatusSuccess }, rfl, rfl, ?_, ?_, ?_, ?_, ?_, ?_⟩
    · simp [hc]
    · simp [hc, hne4]
    · intro hA
      simp [hc2, hA, PostgresRepository.CreateDeliveryAttempt, UpdateWebhookDelivery_attempts, hdb]
    · intro _ _ _ _; exact hc
    · intro _
      simp only [hc2, and_self, if_true]
      refine ⟨trivial, hq, ?_⟩
      intro hD d hd hdid
      rw [hD] at hd
      exact UpdateWebhookDelivery_status _ { delivery with Status := StatusDelivered } d hd
        (by rw [hdid]; exact hid.symm)
    · intro hn; exact absurd hc hn
  · have hc2 : ¬ (resp.StatusCode ≥ 200 ∧ resp.StatusCode < 300) := hc
    refine ⟨{ newAttempt env deliveryID { delivery with Status := StatusProcessing } with
      StatusCode := some resp.StatusCode, Status := StatusFailed,
      ErrorDetails := some (goStr "HTTP " ++ formatInt resp.StatusCode ++ goStr ": " ++ resp.Body) },
      rfl, rfl, ?_, ?_, ?_, ?_, ?_, ?_⟩
    · simp only [hc, iff_false]
      exact fun h => hne4 h.symm
    · simp [hc]
    · intro hA
      simp only [hc2, if_false]
      rw [handleDeliveryFailure_attempts]
      simp [hA, PostgresRepository.CreateDeliveryAttempt, hdb, UpdateWebhookDelivery_attempts]
    · intro d hd hdid hst
      exfalso
      simp only [hc2, if_false] at hd
      rcases handleDeliveryFailure_rows _ _ _ _ _ _ _ d hd with h | h | h
      · simp only [CreateDeliveryAttempt_deliveries] at h
        have := hrows d h hdid
        rw [hst] at this
        exact hne1 this.symm
      · rw [hst] at h; exact hne2 h.symm
      · rw [hst] at h; exact hne3 h.symm
    · intro h; exact absurd h hc
    · intro _
      simp only [hc2, if_false]

/-- C9, at a concrete input: the destination answers 200 to the first attempt of a pending
delivery; one `SUCCESS` attempt is stored and the delivery reads `DELIVERED`. -/
theorem DeliverWebhook_response_witness :
    ∃ attempt : DeliveryAttempt, attempt.Status = StatusSuccess ∧
      (WebhookService.DeliverWebhook demoLib demoConfig (respondingEnv 200) pendingWorld
        7).1.db.attempts = [attempt] ∧
      (WebhookService.DeliverWebhook demoLib demoConfig (respondingEnv 200) pendingWorld
        7).2 = Outcome.returned none ∧
      ∀ d ∈ (WebhookService.DeliverWebhook demoLib demoConfig (respondingEnv 200) pendingWorld
        7).1.db.deliveries, d.ID = 7 → d.Status = StatusDelivered := by
  obtain ⟨attempt, _, _, h3, _, h5, _, h7, _⟩ :=
    DeliverWebhook_response demoLib demoConfig (respondingEnv 200) pendingWorld
      ⟨⟨[demoSub], [demoDelivery], []⟩, cacheSet [] 1 demoSub 0, [], []⟩ 7
      { demoDelivery with Status := StatusPending } demoSub ⟨200, []⟩ rfl rfl rfl rfl rfl
  have h200 : (200 : Int) ≤ 200 ∧ (200 : Int) < 300 := by decide
  exact ⟨attempt, h3.mpr h200, h5 rfl, (h7 h200).1, (h7 h200).2.2 rfl⟩

/-- C10, evaluated on the code: for the delivery with payload `{"k":"v"}` the one request
`DeliverWebhook` hands to `client.Do` has `Content-Type: application/json` and
`ContentLength = 9`, the payload is installed behind `GetBody`, but the body of the request is
`http.NoBody`: it is empty and differs from the payload. -/
theorem DeliverWebhook_request_body_empty :
    ∃ req : Request,
      (WebhookService.DeliverWebhook demoLib demoConfig (respondingEnv 200) pendingWorld
        7).1.sent = [req] ∧
      req.Header.get (goStr "Content-Type") = some (goStr "application/json") ∧
      req.ContentLength = 9 ∧ req.GetBody = some demoPayload ∧
      req.Body = [] ∧ req.Body ≠ demoPayload ∧ demoPayload.length = 9 := by
  refine ⟨prepareRequest demoLib { demoDelivery with Status := StatusProcessing } demoSub
    ⟨goStr "POST", demoSub.TargetURL, NoBody, none, 0, []⟩, rfl, ?_, rfl, rfl, rfl, ?_, ?_⟩
  · exact (prepareRequest_fields _ _ _ _).2.2.2
  · decide
  · decide

/-! ## Outbound request and single runs of `DeliverWebhook` -/

theorem handleDeliveryFailure_sent (L : Lib) (config : Config) (env : FailureEnv)
    (w : World) (delivery : WebhookDelivery) (err : GoError) (statusCode : Option Int) :
    (WebhookService.handleDeliveryFailure L config env w delivery err statusCode).world.sent
      = w.sent := by
  unfold WebhookService.handleDeliveryFailure
  simp only []
  split_ifs
  · cases env.updateFault <;> simp [PostgresRepository.UpdateWebhookDelivery]
  · cases sliceIndex config.RetryDelays
        (retryDelayIndex config (wrapInt (delivery.RetryCount + 1))) with
    | none => rfl
    | some delay =>
      cases env.updateFault <;> cases env.enqueueFault <;>
        simp [PostgresRepository.UpdateWebhookDelivery, clientEnqueue]

theorem DeliverWebhook_sent (L : Lib) (config : Config) (env : DeliverEnv) (w : World)
    (deliveryID : UUID) :
    (WebhookService.DeliverWebhook L config env w deliveryID).1.sent = w.sent ∨
    ∃ (delivery : WebhookDelivery) (subscription : Subscription) (w1 : World),
      PostgresRepository.GetWebhookDelivery env.getDeliveryFault w.db deliveryID = .ok delivery ∧
      WebhookService.GetSubscription env.sub
        { w with
          db := (PostgresRepository.UpdateWebhookDelivery env.updateProcessingFault w.db
            { delivery with Status := StatusProcessing }).1 }
        delivery.SubscriptionID = (w1, .ok subscription) ∧
      (WebhookService.DeliverWebhook L config env w deliveryID).1.sent
        = w.sent ++ [outboundRequest L delivery subscription] := by
  unfold WebhookService.DeliverWebhook
  cases hGet : PostgresRepository.GetWebhookDelivery env.getDeliveryFault w.db deliveryID with
  | error err => left; rfl
  | ok delivery =>
    simp only []
    cases hU : PostgresRepository.UpdateWebhookDelivery env.updateProcessingFault w.db
        { delivery with Status := StatusProcessing } with
    | mk db1 e1 =>
      cases e1 with
      | some err => left; rfl
      | none =>
        simp only []
        cases hSub : WebhookService.GetSubscription env.sub { w with db := db1 }
            delivery.SubscriptionID with
        | mk w1 res =>
          obtain ⟨_, _, hs⟩ := GetSubscription_frame _ _ _ _ _ hSub
          simp only [] at hs
          cases res with
          | error err => left; exact hs
          | ok subscription =>
            simp only []
            cases hN : env.newRequestFault with
            | some e =>
              left
              simp only [NewRequestWithContext]
              rw [handleDeliveryFailure_sent]; exact hs
            | none =>
              right
              refine ⟨delivery, subscription, w1, rfl, by rw [hU]; exact hSub, ?_⟩
              simp only [NewRequestWithContext]
              cases hDo : env.clientDo (prepareRequest L { delivery with Status := StatusProcessing }
                  subscription ⟨goStr "POST", subscription.TargetURL, NoBody, none, 0, []⟩) with
              | error err =>
                simp only []
                rw [handleDeliveryFailure_sent]
                simp [hs, outboundRequest]
              | ok resp =>
                simp only []
                split_ifs
                · simp [hs, outboundRequest]
                · rw [handleDeliveryFailure_sent]
                  simp [hs, outboundRequest]

theorem Header_get_nil (key : GoString) : Header.get [] key = none := rfl

theorem prepareRequest_headers (L : Lib) (delivery : WebhookDelivery)
    (subscription : Subscription) (method url : GoString) :
    (prepareRequest L delivery subscription ⟨method, url, NoBody, none, 0, []⟩).Header.get
        (goStr "X-Webhook-ID") = some (L.uuidString delivery.ID) ∧
    (prepareRequest L delivery subscription ⟨method, url, NoBody, none, 0, []⟩).Header.get
        (goStr "X-Webhook-Event") = delivery.EventType ∧
    (∀ secretKey, subscription.SecretKey = some secretKey → secretKey ≠ [] →
      (prepareRequest L delivery subscription ⟨method, url, NoBody, none, 0, []⟩).Header.get
          (goStr "X-Hub-Signature-256")
        = some (goStr "sha256=" ++ hexEncodeToString (L.hmacSha256 secretKey delivery.Payload))) ∧
    ((subscription.SecretKey = none ∨ subscription.SecretKey = some []) →
      (prepareRequest L delivery subscription ⟨method, url, NoBody, none, 0, []⟩).Header.get
          (goStr "X-Hub-Signature-256") = none) := by
  have k1 : goStr "X-Hub-Signature-256" ≠ goStr "X-Webhook-ID" := by decide
  have k2 : goStr "X-Hub-Signature-256" ≠ goStr "X-Webhook-Event" := by decide
  have k3 : goStr "X-Webhook-ID" ≠ goStr "X-Webhook-Event" := by decide
  have k4 : goStr "Content-Type" ≠ goStr "X-Webhook-Event" := by decide
  have k5 : goStr "X-Webhook-ID" ≠ goStr "X-Hub-Signature-256" := by decide
  have k6 : goStr "X-Webhook-Event" ≠ goStr "X-Hub-Signature-256" := by decide
  have k7 : goStr "Content-Type" ≠ goStr "X-Hub-Signature-256" := by decide
  unfold prepareRequest
  refine ⟨?_, ?_, ?_, ?_⟩
  · cases delivery.EventType <;> cases subscription.SecretKey with
    | none => simp [Header_get_set]
    | some secretKey =>
      by_cases hs : secretKey = [] <;>
        simp [hs, Header_get_set, Header_get_set_ne _ _ _ _ k1]
  · cases delivery.EventType <;> cases subscription.SecretKey with
    | none =>
      simp [Header_get_set, Header_get_set_ne _ _ _ _ k3, Header_get_set_ne _ _ _ _ k4,
        Header_get_nil]
    | some secretKey =>
      by_cases hs : secretKey = [] <;>
        simp [hs, Header_get_set, Header_get_set_ne _ _ _ _ k2, Header_get_set_ne _ _ _ _ k3,
          Header_get_set_ne _ _ _ _ k4, Header_get_nil]
  · intro secretKey hk hne
    cases delivery.EventType <;> simp [hk, hne, Header_get_set]
  · intro hk
    rcases hk with hk | hk <;> cases delivery.EventType <;>
      simp [hk, Header_get_set_ne _ _ _ _ k5, Header_get_set_ne _ _ _ _ k6,
        Header_get_set_ne _ _ _ _ k7, Header_get_nil]

/-- C11. Headers of the outbound request: a run of `DeliverWebhook` hands at most one request
to `client.Do`, built for the loaded delivery and its subscription; that request carries
`X-Webhook-ID` with the rendering of the delivery id, carries `X-Webhook-Event` exactly when
the delivery's event type is non-null, with that event type as value, and carries
`X-Hub-Signature-256` exactly when the subscription's secret is present and non-empty, with
value `sha256=` followed by the hexadecimal HMAC-SHA256 of the delivery's payload under the
secret. -/
theorem DeliverWebhook_request_headers (L : Lib) (config : Config) (env : DeliverEnv)
    (w : World) (deliveryID : UUID) :
    (WebhookService.DeliverWebhook L config env w deliveryID).1.sent = w.sent ∨
    ∃ (delivery : WebhookDelivery) (subscription : Subscription) (w1 : World) (req : Request),
      PostgresRepository.GetWebhookDelivery env.getDeliveryFault w.db deliveryID = .ok delivery ∧
      WebhookService.GetSubscription env.sub
        { w with
          db := (PostgresRepository.UpdateWebhookDelivery env.updateProcessingFault w.db
            { delivery with Status := StatusProcessing }).1 }
        delivery.SubscriptionID = (w1, .ok subscription) ∧
      (WebhookService.DeliverWebhook L config env w deliveryID).1.sent = w.sent ++ [req] ∧
      req.Header.get (goStr "X-Webhook-ID") = some (L.uuidString deliveryID) ∧
      req.Header.get (goStr "X-Webhook-Event") = delivery.EventType ∧
      (∀ secretKey, subscription.SecretKey = some secretKey → secretKey ≠ [] →
        req.Header.get (goStr "X-Hub-Signature-256")
          = some (goStr "sha256=" ++
              hexEncodeToString (L.hmacSha256 secretKey delivery.Payload))) ∧
      ((subscription.SecretKey = none ∨ subscription.SecretKey = some []) →
        req.Header.get (goStr "X-Hub-Signature-256") = none) := by
  rcases DeliverWebhook_sent L config env w deliveryID with h | ⟨delivery, subscription, w1, hGet, hSub, hSent⟩
  · exact Or.inl h
  · right
    obtain ⟨hid, _⟩ := GetWebhookDelivery_ok _ _ _ _ hGet
    obtain ⟨h1, h2, h3, h4⟩ := prepareRequest_headers L { delivery with Status := StatusProcessing }
      subscription (goStr "POST") subscription.TargetURL
    refine ⟨delivery, subscription, w1, outboundRequest L delivery subscription, hGet, hSub,
      hSent, ?_, h2, h3, h4⟩
    rw [← hid]; exact h1

/-- C11, at a concrete input: the request sent for `demoDelivery` (no event type) under
`demoSub` (secret `s`) carries the id header and the signature header and no event header. -/
theorem DeliverWebhook_request_headers_witness :
    ∃ req : Request,
      (WebhookService.DeliverWebhook demoLib demoConfig (respondingEnv 200) pendingWorld
        7).1.sent = [req] ∧
      req.Header.get (goStr "X-Webhook-ID") = some (demoLib.uuidString 7) ∧
      req.Header.get (goStr "X-Webhook-Event") = none ∧
      req.Header.get (goStr "X-Hub-Signature-256")
        = some (goStr "sha256=" ++
            hexEncodeToString (demoLib.hmacSha256 (goStr "s") demoPayload)) := by
  have hs : (WebhookService.DeliverWebhook demoLib demoConfig (respondingEnv 200) pendingWorld
      7).1.sent = [outboundRequest demoLib { demoDelivery with Status := StatusPending }
        demoSub] := rfl
  rcases DeliverWebhook_request_headers demoLib demoConfig (respondingEnv 200) pendingWorld 7
    with h | ⟨delivery, subscription, w1, req, hGet, hSub, hSent, hID, hEv, hSig, _⟩
  · rw [hs] at h
    exact absurd h (by simp [pendingWorld])
  · have hd : delivery = { demoDelivery with Status := StatusPending } := by
      have : PostgresRepository.GetWebhookDelivery (respondingEnv 200).getDeliveryFault
          pendingWorld.db 7 = .ok { demoDelivery with Status := StatusPending } := rfl
      rw [this] at hGet
      exact (Except.ok.inj hGet).symm
    subst hd
    have hsub : subscription = demoSub := by
      have : WebhookService.GetSubscription (respondingEnv 200).sub
          { pendingWorld with
            db := (PostgresRepository.UpdateWebhookDelivery
              (respondingEnv 200).updateProcessingFault pendingWorld.db
              { ({ demoDelivery with Status := StatusPending } : WebhookDelivery) with
                Status := StatusProcessing }).1 }
          ({ demoDelivery with Status := StatusPending } : WebhookDelivery).SubscriptionID
          = (⟨⟨[demoSub], [demoDelivery], []⟩, cacheSet [] 1 demoSub 0, [], []⟩,
              .ok demoSub) := rfl
      rw [this] at hSub
      have h2 := (Prod.mk.inj hSub).2
      exact (Except.ok.inj h2).symm
    subst hsub
    refine ⟨req, by simpa [pendingWorld] using hSent, hID, hEv, hSig (goStr "s") rfl (by decide)⟩

/-! ## Effect of one run of `DeliverWebhook` on the tables -/

theorem setRow_id (id : UUID) (s : GoString) (n : Option Time) (c : Int) (d : WebhookDelivery) :
    (setRow id s n c d).ID = d.ID := by
  unfold setRow; split_ifs <;> rfl

theorem setRow_maxRetries (id : UUID) (s : GoString) (n : Option Time) (c : Int)
    (d : WebhookDelivery) : (setRow id s n c d).MaxRetries = d.MaxRetries := by
  unfold setRow; split_ifs <;> rfl

theorem setRow_of_ne (id : UUID) (s : GoString) (n : Option Time) (c : Int)
    (d : WebhookDelivery) (h : d.ID ≠ id) : setRow id s n c d = d := by
  unfold setRow; simp [h]

theorem setRow_of_eq (id : UUID) (s : GoString) (n : Option Time) (c : Int)
    (d : WebhookDelivery) (h : d.ID = id) :
    setRow id s n c d = { d with Status := s, NextRetryAt := n, RetryCount := c } := by
  unfold setRow; simp [h]

theorem map_setRow_setRow (id : UUID) (s1 s2 : GoString) (n1 n2 : Option Time) (c1 c2 : Int)
    (l : List WebhookDelivery) :
    (l.map (setRow id s1 n1 c1)).map (setRow id s2 n2 c2) = l.map (setRow id s2 n2 c2) := by
  rw [List.map_map]
  apply List.map_congr_left
  intro d _
  by_cases h : d.ID = id
  · simp [setRow, h]
  · simp [setRow, h]

theorem UpdateWebhookDelivery_none (db : DB) (delivery : WebhookDelivery) :
    (PostgresRepository.UpdateWebhookDelivery none db delivery).1 =
      ⟨db.subscriptions,
        db.deliveries.map (setRow delivery.ID delivery.Status delivery.NextRetryAt
          delivery.RetryCount),
        db.attempts⟩ := rfl

theorem UpdateWebhookDelivery_none_pair (db : DB) (delivery : WebhookDelivery) :
    PostgresRepository.UpdateWebhookDelivery none db delivery =
      (⟨db.subscriptions,
        db.deliveries.map (setRow delivery.ID delivery.Status delivery.NextRetryAt
          delivery.RetryCount),
        db.attempts⟩, none) := rfl

theorem handleDeliveryFailure_db_cases (L : Lib) (config : Config) (env : FailureEnv)
    (w : World) (delivery : WebhookDelivery) (err : GoError) (statusCode : Option Int) :
    ((WebhookService.handleDeliveryFailure L config env w delivery err statusCode).world.db
        = w.db ∧
      (env.updateFault ≠ none ∨
        (wrapInt (delivery.RetryCount + 1) < delivery.MaxRetries ∧
          sliceIndex config.RetryDelays
            (retryDelayIndex config (wrapInt (delivery.RetryCount + 1))) = none))) ∨
    (wrapInt (delivery.RetryCount + 1) ≥ delivery.MaxRetries ∧ env.updateFault = none ∧
      (WebhookService.handleDeliveryFailure L config env w delivery err statusCode).world.db =
        ⟨w.db.subscriptions,
          w.db.deliveries.map (setRow delivery.ID StatusFailed none
            (wrapInt (delivery.RetryCount + 1))),
          w.db.attempts⟩) ∨
    (wrapInt (delivery.RetryCount + 1) < delivery.MaxRetries ∧ env.updateFault = none ∧
      ∃ delay,
        sliceIndex config.RetryDelays
          (retryDelayIndex config (wrapInt (delivery.RetryCount + 1))) = some delay ∧
        (WebhookService.handleDeliveryFailure L config env w delivery err statusCode).world.db =
          ⟨w.db.subscriptions,
            w.db.deliveries.map (setRow delivery.ID StatusPending (some (env.now + delay))
              (wrapInt (delivery.RetryCount + 1))),
            w.db.attempts⟩) := by
  unfold WebhookService.handleDeliveryFailure
  simp only []
  by_cases hr : wrapInt (delivery.RetryCount + 1) ≥ delivery.MaxRetries
  · simp only [hr, if_true]
    cases hU : env.updateFault with
    | some e => left; simp [PostgresRepository.UpdateWebhookDelivery]
    | none =>
      right; left
      exact ⟨trivial, rfl, rfl⟩
  · have hlt : wrapInt (delivery.RetryCount + 1) < delivery.MaxRetries := by omega
    simp only [hr, if_false]
    cases hI : sliceIndex config.RetryDelays
        (retryDelayIndex config (wrapInt (delivery.RetryCount + 1))) with
    | none => left; exact ⟨rfl, Or.inr ⟨hlt, rfl⟩⟩
    | some delay =>
      cases hU : env.updateFault with
      | some e => left; simp [PostgresRepository.UpdateWebhookDelivery]
      | none =>
        right; right
        refine ⟨hlt, rfl, delay, rfl, ?_⟩
        cases hQ : env.enqueueFault <;>
          simp [PostgresRepository.UpdateWebhookDelivery, clientEnqueue, setRow]

theorem failure_tail (L : Lib) (config : Config) (envF : FailureEnv) (w : World)
    (delivery : WebhookDelivery) (err : GoError) (statusCode : Option Int)
    (subs : List Subscription) (dels : List WebhookDelivery) (atts : List DeliveryAttempt)
    (nr : Option Time) (rc : Int)
    (hdb : w.db = ⟨subs, dels.map (setRow delivery.ID StatusProcessing nr rc), atts⟩) :
    ∃ (s : GoString) (n : Option Time) (c : Int),
      (WebhookService.handleDeliveryFailure L config envF w delivery err statusCode).world.db
        = ⟨subs, dels.map (setRow delivery.ID s n c), atts⟩ ∧
      ((s = StatusProcessing ∧ n = nr ∧ c = rc ∧
          (envF.updateFault ≠ none ∨
            sliceIndex config.RetryDelays
              (retryDelayIndex config (wrapInt (delivery.RetryCount + 1))) = none)) ∨
        (s = StatusFailed ∧ n = none ∧ c = wrapInt (delivery.RetryCount + 1) ∧
          wrapInt (delivery.RetryCount + 1) ≥ delivery.MaxRetries) ∨
        (s = StatusPending ∧ (∃ delay, n = some (envF.now + delay)) ∧
          c = wrapInt (delivery.RetryCount + 1) ∧
          wrapInt (delivery.RetryCount + 1) < delivery.MaxRetries)) := by
  rcases handleDeliveryFailure_db_cases L config envF w delivery err statusCode with
    ⟨h, hc⟩ | ⟨hr, _, h⟩ | ⟨hr, _, delay, _, h⟩
  · refine ⟨StatusProcessing, nr, rc, by rw [h, hdb], Or.inl ⟨rfl, rfl, rfl, ?_⟩⟩
    rcases hc with hc | ⟨_, hc⟩
    · exact Or.inl hc
    · exact Or.inr hc
  · refine ⟨StatusFailed, none, wrapInt (delivery.RetryCount + 1), ?_,
      Or.inr (Or.inl ⟨rfl, rfl, rfl, hr⟩)⟩
    rw [h, hdb]
    simp only [map_setRow_setRow]
  · refine ⟨StatusPending, some (envF.now + delay), wrapInt (delivery.RetryCount + 1), ?_,
      Or.inr (Or.inr ⟨rfl, ⟨delay, rfl⟩, rfl, hr⟩)⟩
    rw [h, hdb]
    simp only [map_setRow_setRow]

theorem DeliverWebhook_db_cases (L : Lib) (config : Config) (env : DeliverEnv) (w : World)
    (deliveryID : UUID) :
    (WebhookService.DeliverWebhook L config env w deliveryID).1.db = w.db ∨
    ∃ delivery : WebhookDelivery,
      PostgresRepository.GetWebhookDelivery env.getDeliveryFault w.db deliveryID = .ok delivery ∧
      ∃ (extra : List DeliveryAttempt) (s : GoString) (n : Option Time) (c : Int),
        (WebhookService.DeliverWebhook L config env w deliveryID).1.db =
          ⟨w.db.subscriptions, w.db.deliveries.map (setRow deliveryID s n c),
            w.db.attempts ++ extra⟩ ∧
        extra.length ≤ 1 ∧
        (∀ a ∈ extra, a.DeliveryID = deliveryID ∧
          a.AttemptNumber = wrapInt (delivery.RetryCount + 1)) ∧
        RunEffect config env delivery extra s n c := by
  unfold WebhookService.DeliverWebhook
  cases hGet : PostgresRepository.GetWebhookDelivery env.getDeliveryFault w.db deliveryID with
  | error err => left; rfl
  | ok delivery =>
    obtain ⟨hid, _⟩ := GetWebhookDelivery_ok _ _ _ _ hGet
    subst hid
    simp only []
    cases hUf : env.updateProcessingFault with
    | some e => left; simp [PostgresRepository.UpdateWebhookDelivery]
    | none =>
      right
      refine ⟨delivery, rfl, ?_⟩
      have hU : PostgresRepository.UpdateWebhookDelivery none w.db
          { delivery with Status := StatusProcessing } =
          (⟨w.db.subscriptions,
            w.db.deliveries.map (setRow delivery.ID StatusProcessing delivery.NextRetryAt
              delivery.RetryCount), w.db.attempts⟩, none) := by
        rfl
      rw [hU]
      simp only []
      cases hSub : WebhookService.GetSubscription env.sub
          { w with
            db := ⟨w.db.subscriptions,
              w.db.deliveries.map (setRow delivery.ID StatusProcessing delivery.NextRetryAt
                delivery.RetryCount), w.db.attempts⟩ }
          delivery.SubscriptionID with
      | mk w1 res =>
        obtain ⟨hdb, _, _⟩ := GetSubscription_frame _ _ _ _ _ hSub
        simp only [] at hdb
        cases res with
        | error err =>
          refine ⟨[], StatusProcessing, delivery.NextRetryAt, delivery.RetryCount, ?_, by simp,
            by simp, Or.inl ⟨rfl, rfl, rfl, by simp, by simp, by simp⟩⟩
          simp [hdb]
        | ok subscription =>
          simp only []
          cases hN : env.newRequestFault with
          | some e =>
            simp only [NewRequestWithContext]
            obtain ⟨s, n, c, hres, hcase⟩ := failure_tail L config env.failure w1
              { delivery with Status := StatusProcessing } e none w.db.subscriptions
              w.db.deliveries (w.db.attempts ++ []) delivery.NextRetryAt delivery.RetryCount
              (by rw [hdb]; simp)
            refine ⟨[], s, n, c, hres, by simp, by simp, ?_⟩
            rcases hcase with ⟨h1, h2, h3, _⟩ | ⟨h1, h2, h3, h4⟩ | ⟨h1, h2, h3, h4⟩
            · exact Or.inl ⟨h1, h2, h3, by simp, by simp, by simp⟩
            · exact Or.inr (Or.inr (Or.inl ⟨h1, h2, h3, h4, by simp, by simp [hN]⟩))
            · exact Or.inr (Or.inr (Or.inr ⟨h1, h2, h3, h4, by simp, by simp [hN]⟩))
          | none =>
            simp only [NewRequestWithContext]
            have hextra : ∀ (a : DeliveryAttempt),
                ∃ extra : List DeliveryAttempt,
                  (PostgresRepository.CreateDeliveryAttempt env.createAttemptFault w1.db a).1 =
                    ⟨w.db.subscriptions,
                      w.db.deliveries.map (setRow delivery.ID StatusProcessing
                        delivery.NextRetryAt delivery.RetryCount),
                      w.db.attempts ++ extra⟩ ∧
                  (extra = [] ∨ extra = [a]) ∧
                  (env.createAttemptFault = none → extra = [a]) := by
              intro a
              cases hC : env.createAttemptFault with
              | some e =>
                exact ⟨[], by simp [PostgresRepository.CreateDeliveryAttempt, hdb], Or.inl rfl,
                  by simp⟩
              | none =>
                exact ⟨[a], by simp [PostgresRepository.CreateDeliveryAttempt, hdb], Or.inr rfl,
                  by simp⟩
            have htail : ∀ (a : DeliveryAttempt) (err : GoError) (sc : Option Int) (snt : List Request),
                a.DeliveryID = delivery.ID →
                a.AttemptNumber = wrapInt (delivery.RetryCount + 1) →
                a.Status = StatusFailed →
                ∃ (extra : List DeliveryAttempt) (s : GoString) (n : Option Time) (c : Int),
                  (WebhookService.handleDeliveryFailure L config env.failure
                    { w1 with
                      db := (PostgresRepository.CreateDeliveryAttempt env.createAttemptFault
                        w1.db a).1
                      sent := snt }
                    { delivery with Status := StatusProcessing } err sc).world.db =
                    ⟨w.db.subscriptions, w.db.deliveries.map (setRow delivery.ID s n c),
                      w.db.attempts ++ extra⟩ ∧
                  extra.length ≤ 1 ∧
                  (∀ a ∈ extra, a.DeliveryID = delivery.ID ∧
                    a.AttemptNumber = wrapInt (delivery.RetryCount + 1)) ∧
                  RunEffect config env delivery extra s n c := by
              intro a err sc snt ha1 ha2 ha3
              obtain ⟨extra, hE, hE2, hE3⟩ := hextra a
              obtain ⟨s, n, c, hres, hcase⟩ := failure_tail L config env.failure
                { w1 with
                  db := (PostgresRepository.CreateDeliveryAttempt env.createAttemptFault
                    w1.db a).1
                  sent := snt }
                { delivery with Status := StatusProcessing } err sc w.db.subscriptions
                w.db.deliveries (w.db.attempts ++ extra) delivery.NextRetryAt delivery.RetryCount
                (by simp only [hE])
              have hmem : ∀ b ∈ extra, b = a := by
                intro b hb
                rcases hE2 with h | h
                · rw [h] at hb; simp at hb
                · rw [h] at hb; simpa using hb
              have hst : ∀ b ∈ extra, b.Status = StatusFailed := by
                intro b hb; rw [hmem b hb]; exact ha3
              have hne : env.newRequestFault = none → env.createAttemptFault = none →
                  extra ≠ [] := by
                intro _ hC; rw [hE3 hC]; simp
              refine ⟨extra, s, n, c, hres, ?_, ?_, ?_⟩
              · rcases hE2 with h | h <;> simp [h]
              · intro b hb; rw [hmem b hb]; exact ⟨ha1, ha2⟩
              · rcases hcase with ⟨h1, h2, h3, h4⟩ | ⟨h1, h2, h3, h4⟩ | ⟨h1, h2, h3, h4⟩
                · refine Or.inl ⟨h1, h2, h3, fun b hb => Or.inr (hst b hb), ?_, ?_⟩
                  · rintro ⟨b, hb, hbs⟩
                    have := hst b hb
                    rw [hbs] at this
                    exact absurd this (by decide)
                  · intro _
                    rcases h4 with h4 | h4
                    · exact Or.inr (Or.inl h4)
                    · exact Or.inr (Or.inr h4)
                · exact Or.inr (Or.inr (Or.inl ⟨h1, h2, h3, h4, hst, hne⟩))
                · exact Or.inr (Or.inr (Or.inr ⟨h1, h2, h3, h4, hst, hne⟩))
            cases hDo : env.clientDo (prepareRequest L { delivery with Status := StatusProcessing }
                subscription ⟨goStr "POST", subscription.TargetURL, NoBody, none, 0, []⟩) with
            | error err =>
              simp only []
              exact htail _ err none _ rfl rfl rfl
            | ok resp =>
              simp only []
              by_cases hc : resp.StatusCode ≥ 200 ∧ resp.StatusCode < 300
              · simp only [hc, and_self, if_true]
                obtain ⟨extra, hE, hE2, hE3⟩ := hextra
                  { newAttempt env delivery.ID { delivery with Status := StatusProcessing } with
                    StatusCode := some resp.StatusCode, Status := StatusSuccess }
                have hmem : ∀ b ∈ extra, b =
                    { newAttempt env delivery.ID { delivery with Status := StatusProcessing } with
                      StatusCode := some resp.StatusCode, Status := StatusSuccess } := by
                  intro b hb
                  rcases hE2 with h | h
                  · rw [h] at hb; simp at hb
                  · rw [h] at hb; simpa using hb
                have hlen : extra.length ≤ 1 := by rcases hE2 with h | h <;> simp [h]
                have hshape : ∀ b ∈ extra, b.DeliveryID = delivery.ID ∧
                    b.AttemptNumber = wrapInt (delivery.RetryCount + 1) := by
                  intro b hb; rw [hmem b hb]; exact ⟨rfl, rfl⟩
                have hsucc : ∀ b ∈ extra, b.Status = StatusSuccess := by
                  intro b hb; rw [hmem b hb]
                cases hD : env.updateDeliveredFault with
                | some e =>
                  refine ⟨extra, StatusProcessing, delivery.NextRetryAt, delivery.RetryCount, ?_,
                    hlen, hshape, Or.inl ⟨rfl, rfl, rfl, fun b hb => Or.inl (hsucc b hb),
                      fun _ => by simp [hD], fun _ => Or.inl (by simp [hD])⟩⟩
                  simp only [newAttempt] at hE
                  simp [PostgresRepository.UpdateWebhookDelivery, newAttempt, hE]
                | none =>
                  refine ⟨extra, StatusDelivered, delivery.NextRetryAt, delivery.RetryCount, ?_,
                    hlen, hshape, Or.inr (Or.inl ⟨rfl, rfl, rfl, hsucc, ?_⟩)⟩
                  · simp only [newAttempt] at hE
                    simp only [newAttempt, hE, UpdateWebhookDelivery_none,
                      map_setRow_setRow]
                  · intro hC; rw [hE3 hC]; simp
              · simp only [hc, if_false]
                exact htail _ _ _ _ rfl rfl rfl

/-! ## Reachable states: accounting of attempts -/

theorem wrapInt_of_range (x : Int) (h1 : -2 ^ 63 ≤ x) (h2 : x < 2 ^ 63) : wrapInt x = x := by
  unfold wrapInt
  omega

theorem oneTo_succ (n : Nat) : oneTo (n + 1) = oneTo n ++ [((n : Int) + 1)] := by
  unfold oneTo
  rw [List.range'_concat]
  simp [add_comm]

theorem IngestWebhook_db_cases (L : Lib) (config : Config) (env : IngestEnv) (w : World)
    (subscriptionID : UUID) (eventType : GoString) (payload : Bytes) (signature : GoString) :
    (WebhookService.IngestWebhook L config env w subscriptionID eventType payload
      signature).1.db = w.db ∨
    (WebhookService.IngestWebhook L config env w subscriptionID eventType payload
      signature).1.db =
        ⟨w.db.subscriptions,
          w.db.deliveries ++ [newDelivery config env subscriptionID eventType payload],
          w.db.attempts⟩ := by
  unfold WebhookService.IngestWebhook
  cases hSub : WebhookService.GetSubscription env.sub w subscriptionID with
  | mk w1 res =>
    obtain ⟨hdb, _, _⟩ := GetSubscription_frame _ _ _ _ _ hSub
    cases res with
    | error err => left; exact hdb
    | ok sub =>
      simp only []
      by_cases hs : eventSkipped sub eventType = true
      · left; simp [hs, hdb]
      · simp only [hs, if_false]
        by_cases hr : signatureRefused L sub payload signature = true
        · left; simp [hr, hdb]
        · simp only [hr, if_false]
          cases hc : env.createFault with
          | some e => left; simp [PostgresRepository.CreateWebhookDelivery, hdb]
          | none =>
            right
            cases he : env.enqueueFault <;>
              simp [PostgresRepository.CreateWebhookDelivery, clientEnqueue, hdb]

theorem attemptsOf_append (subs : List Subscription) (dels : List WebhookDelivery)
    (atts extra : List DeliveryAttempt) (id target : UUID)
    (hshape : ∀ a ∈ extra, a.DeliveryID = id) :
    attemptsOf ⟨subs, dels, atts ++ extra⟩ target =
      (atts.filter (fun a => a.DeliveryID = target)) ++ (if target = id then extra else []) := by
  unfold attemptsOf
  simp only [List.filter_append]
  congr 1
  by_cases h : target = id
  · simp only [h, if_true]
    rw [List.filter_eq_self]
    intro a ha
    simpa using hshape a ha
  · simp only [h, if_false]
    rw [List.filter_eq_nil_iff]
    intro a ha
    have := hshape a ha
    simp only [decide_eq_true_eq]
    intro h2
    exact h (by rw [← h2, this])

theorem OrderlyInv_update (w w' : World) (id : UUID) (delivery : WebhookDelivery)
    (extra : List DeliveryAttempt) (s : GoString) (n : Option Time) (c : Int)
    (hinv : OrderlyInv w)
    (hmem : delivery ∈ w.db.deliveries) (hid : delivery.ID = id)
    (hdb : w'.db = ⟨w.db.subscriptions, w.db.deliveries.map (setRow id s n c),
      w.db.attempts ++ extra⟩)
    (hnot : ∀ d ∈ w.db.deliveries, d.ID = id → d.Status ≠ StatusDelivered)
    (hshape : ∀ a ∈ extra, a.DeliveryID = id)
    (hc0 : 0 ≤ c)
    (hcount : (extra.length : Int) + delivery.RetryCount
      = c + (if s = StatusDelivered then 1 else 0))
    (hnum : extra = [] ∨ ∃ a, extra = [a] ∧ a.AttemptNumber = delivery.RetryCount + 1) :
    OrderlyInv w' := by
  obtain ⟨hA, hR⟩ := hinv
  have hdel := hR delivery hmem
  rw [hid] at hdel
  have hdel2 : ((attemptsOf w.db id).length : Int) = delivery.RetryCount := by
    have := hdel.2.1
    simpa [hnot delivery hmem hid] using this
  unfold OrderlyInv
  rw [hdb]
  refine ⟨?_, ?_⟩
  · intro a ha
    simp only [List.mem_append] at ha
    rcases ha with ha | ha
    · obtain ⟨d, hd, hda⟩ := hA a ha
      exact ⟨setRow id s n c d, List.mem_map_of_mem _ hd, by rw [setRow_id]; exact hda⟩
    · exact ⟨setRow id s n c delivery, List.mem_map_of_mem _ hmem,
        by rw [setRow_id, hid, hshape a ha]⟩
  · intro d' hd'
    simp only [List.mem_map] at hd'
    obtain ⟨d0, hd0, rfl⟩ := hd'
    have h0 := hR d0 hd0
    by_cases hd0id : d0.ID = id
    · have hrc : d0.RetryCount = delivery.RetryCount := by
        have := h0.2.1
        rw [hd0id] at this
        simp only [hnot d0 hd0 hd0id, if_false, add_zero] at this
        rw [← this, hdel2]
      rw [setRow_of_eq _ _ _ _ _ hd0id]
      simp only [hd0id]
      unfold attemptNumbers
      rw [attemptsOf_append _ _ _ _ id id hshape]
      simp only [if_true, List.length_append, List.map_append]
      have hold : (List.filter (fun a => decide (a.DeliveryID = id)) w.db.attempts)
          = attemptsOf w.db id := rfl
      rw [hold]
      refine ⟨hc0, ?_, ?_⟩
      · push_cast
        rw [hdel2]
        omega
      · have hnums : List.map (fun a => a.AttemptNumber) (attemptsOf w.db id)
            = oneTo (attemptsOf w.db id).length := hdel.2.2
        rw [hnums]
        rcases hnum with h | ⟨a, h, ha⟩
        · simp [h]
        · rw [h]
          simp only [List.map_cons, List.map_nil, List.length_singleton]
          rw [oneTo_succ, ha, hdel2]
    · rw [setRow_of_ne _ _ _ _ _ hd0id]
      unfold attemptNumbers
      rw [attemptsOf_append _ _ _ _ id d0.ID hshape]
      simp only [hd0id, if_false, List.append_nil]
      exact h0

theorem OrderlyInv_of_db_eq (w w' : World) (h : w'.db = w.db) (hinv : OrderlyInv w) :
    OrderlyInv w' := by
  unfold OrderlyInv at *
  rw [h]
  exact hinv

theorem OrderlyInv_deliver (L : Lib) (config : Config) (env : DeliverEnv) (w : World)
    (deliveryID : UUID) (hD : config.RetryDelays ≠ []) (hinv : OrderlyInv w)
    (hG : OrderlyRun w env deliveryID) :
    OrderlyInv (WebhookService.DeliverWebhook L config env w deliveryID).1 := by
  obtain ⟨hReq, hCre, hDel, hUpd, hrows⟩ := hG
  rcases DeliverWebhook_db_cases L config env w deliveryID with
    h | ⟨delivery, hGet, extra, s, n, c, hdb, hlen, hshape, heff⟩
  · exact OrderlyInv_of_db_eq _ _ h hinv
  · obtain ⟨hid, hmem⟩ := GetWebhookDelivery_ok _ _ _ _ hGet
    have hrc0 : 0 ≤ delivery.RetryCount := (hinv.2 delivery hmem).1
    have hrcmax : delivery.RetryCount < 2 ^ 63 - 1 := (hrows delivery hmem hid).2
    have hwrap : wrapInt (delivery.RetryCount + 1) = delivery.RetryCount + 1 :=
      wrapInt_of_range _ (by omega) (by omega)
    obtain ⟨delay, _, hslice⟩ := sliceIndex_retryDelayIndex config (delivery.RetryCount + 1) hD
      (by omega)
    replace hslice := hslice (by omega)
    have hextra : extra = [] ∨ ∃ a, extra = [a] ∧ a.AttemptNumber = delivery.RetryCount + 1 := by
      cases extra with
      | nil => exact Or.inl rfl
      | cons a rest =>
        cases rest with
        | nil =>
          refine Or.inr ⟨a, rfl, ?_⟩
          rw [(hshape a (by simp)).2, hwrap]
        | cons b rest2 => simp at hlen
    have hne1 : StatusProcessing ≠ StatusDelivered := by decide
    have hne2 : StatusFailed ≠ StatusDelivered := by decide
    have hne3 : StatusPending ≠ StatusDelivered := by decide
    refine OrderlyInv_update w _ deliveryID delivery extra s n c hinv hmem hid hdb
      (fun d hd hdid => (hrows d hd hdid).1) (fun a ha => (hshape a ha).1) ?_ ?_ hextra
    · rcases heff with ⟨_, _, h3, _⟩ | ⟨_, _, h3, _⟩ | ⟨_, _, h3, _⟩ | ⟨_, _, h3, _⟩
      · rw [h3]; exact hrc0
      · rw [h3]; exact hrc0
      · rw [h3, hwrap]; omega
      · rw [h3, hwrap]; omega
    · rcases heff with ⟨h1, _, h3, _, _, h6⟩ | ⟨h1, _, h3, _, h5⟩ | ⟨h1, _, h3, _, _, h6⟩ |
        ⟨h1, _, h3, _, _, h6⟩
      · have hnil : extra = [] := by
          by_contra hne
          rcases h6 hne with h | h | h
          · exact h hDel
          · exact h hUpd
          · rw [hwrap, hslice] at h; simp at h
        simp [hnil, h1, h3, hne1]
      · have hne := h5 hCre
        rcases hextra with h | ⟨a, h, _⟩
        · exact absurd h hne
        · simp [h, h1, h3]; omega
      · have hne := h6 hReq hCre
        rcases hextra with h | ⟨a, h, _⟩
        · exact absurd h hne
        · simp [h, h1, h3, hne2, hwrap]; omega
      · have hne := h6 hReq hCre
        rcases hextra with h | ⟨a, h, _⟩
        · exact absurd h hne
        · simp [h, h1, h3, hne3, hwrap]; omega

theorem OrderlyInv_ingest (L : Lib) (config : Config) (env : IngestEnv) (w : World)
    (subscriptionID : UUID) (eventType : GoString) (payload : Bytes) (signature : GoString)
    (hinv : OrderlyInv w) (hfresh : ∀ d ∈ w.db.deliveries, d.ID ≠ env.newID) :
    OrderlyInv (WebhookService.IngestWebhook L config env w subscriptionID eventType payload
      signature).1 := by
  rcases IngestWebhook_db_cases L config env w subscriptionID eventType payload signature with
    h | h
  · exact OrderlyInv_of_db_eq _ _ h hinv
  · obtain ⟨hA, hR⟩ := hinv
    have hnone : attemptsOf w.db env.newID = [] := by
      unfold attemptsOf
      rw [List.filter_eq_nil_iff]
      intro a ha
      simp only [decide_eq_true_eq]
      intro hid
      obtain ⟨d, hd, hda⟩ := hA a ha
      exact hfresh d hd (by rw [hda, hid])
    unfold OrderlyInv
    rw [h]
    refine ⟨?_, ?_⟩
    · intro a ha
      obtain ⟨d, hd, hda⟩ := hA a ha
      exact ⟨d, List.mem_append_left _ hd, hda⟩
    · intro d hd
      simp only [List.mem_append, List.mem_singleton] at hd
      rcases hd with hd | hd
      · exact hR d hd
      · subst hd
        have hne : StatusPending ≠ StatusDelivered := by decide
        have hat : attemptsOf ⟨w.db.subscriptions,
            w.db.deliveries ++ [newDelivery config env subscriptionID eventType payload],
            w.db.attempts⟩ env.newID = [] := hnone
        have hid : (newDelivery config env subscriptionID eventType payload).ID = env.newID :=
          rfl
        have hst : (newDelivery config env subscriptionID eventType payload).Status
            = StatusPending := rfl
        have hrc : (newDelivery config env subscriptionID eventType payload).RetryCount = 0 :=
          rfl
        rw [hid, hst, hrc]
        unfold attemptNumbers
        rw [hat]
        simp [hne, oneTo]

theorem orderly_reachable_inv (L : Lib) (config : Config) (hD : config.RetryDelays ≠ [])
    (w : World) (h : ReachableBy L config OrderlyRun w) : OrderlyInv w := by
  induction h with
  | init w hd ha =>
    unfold OrderlyInv
    rw [hd, ha]
    exact ⟨by simp, by simp⟩
  | ingest w env sid et payload sig _ hfresh ih =>
    exact OrderlyInv_ingest L config env w sid et payload sig ih hfresh
  | deliver w env id _ hG ih =>
    exact OrderlyInv_deliver L config env w id hD ih hG

theorem ingestedWorld_reachable (G : World → DeliverEnv → UUID → Prop) :
    ReachableBy demoLib demoConfig G ingestedWorld :=
  ReachableBy.ingest subWorld okIngestEnv 1 (goStr "order.created") demoPayload []
    (ReachableBy.init subWorld rfl rfl) (by intro d hd; simp [subWorld] at hd)

/-- C14 as stated fails: after one ingest and one run of `DeliverWebhook` in which the
destination answers 500 and the insert of the attempt fails (the failure is logged and the run
goes on), delivery 7 has `retry_count = 1` and status `PENDING` but no persisted attempt. -/
theorem attempt_count_invariant_fails :
    ∃ w, ReachableBy demoLib demoConfig AnyRun w ∧
      ∃ d ∈ w.db.deliveries, d.RetryCount = 1 ∧ d.Status = StatusPending ∧
        attemptsOf w.db d.ID = [] ∧
        ((attemptsOf w.db d.ID).length : Int)
          ≠ d.RetryCount + (if d.Status = StatusDelivered then 1 else 0) := by
  refine ⟨(WebhookService.DeliverWebhook demoLib demoConfig insertFailsEnv ingestedWorld 7).1,
    ReachableBy.deliver _ insertFailsEnv 7 (ingestedWorld_reachable AnyRun) trivial,
    { ID := 7, SubscriptionID := 1, Payload := demoPayload, EventType := some (goStr "order.created"),
      CreatedAt := 0, Status := StatusPending, NextRetryAt := some (1000 + 10 * Second),
      RetryCount := 1, MaxRetries := 5 }, ?_, rfl, rfl, rfl, ?_⟩
  · decide
  · decide

/-- C14, amended. In every state reachable from a store without deliveries and attempts by
`IngestWebhook` steps and by `DeliverWebhook` steps in which the request is constructed, the
insert of the attempt and the writes of the delivery's new state go through and the delivery
processed is not already `DELIVERED`, with a non-empty delay list, every delivery has as many
persisted attempts as its retry count, plus one when its status is `DELIVERED`. -/
theorem attempt_count_invariant (L : Lib) (config : Config) (hD : config.RetryDelays ≠ [])
    (w : World) (h : ReachableBy L config OrderlyRun w) :
    ∀ d ∈ w.db.deliveries,
      ((attemptsOf w.db d.ID).length : Int)
        = d.RetryCount + (if d.Status = StatusDelivered then 1 else 0) :=
  fun d hd => ((orderly_reachable_inv L config hD w h).2 d hd).2.1

/-- C14 amended, at a concrete input: one ingest, then one run answered with 200; delivery 7
is `DELIVERED` with `retry_count = 0` and has one attempt. -/
theorem attempt_count_invariant_witness :
    ((attemptsOf deliveredWorld.db 7).length : Int)
      = 0 + (if StatusDelivered = StatusDelivered then 1 else 0) :=
  attempt_count_invariant demoLib demoConfig (by decide) deliveredWorld
    (ReachableBy.deliver _ (respondingEnv 200) 7 (ingestedWorld_reachable OrderlyRun)
      ⟨rfl, rfl, rfl, rfl, by decide⟩)
    { ingestedDelivery with Status := StatusDelivered } (by decide)

/-- C16 as stated fails: when the task of delivery 7 is processed twice against a destination
that answers 200, both runs store an attempt numbered 1. -/
theorem attempt_numbers_fail :
    ∃ w, ReachableBy demoLib demoConfig AnyRun w ∧
      (∃ d ∈ w.db.deliveries, d.ID = 7) ∧ attemptNumbers w.db 7 = [1, 1] ∧
      attemptNumbers w.db 7 ≠ oneTo (attemptsOf w.db 7).length := by
  refine ⟨(WebhookService.DeliverWebhook demoLib demoConfig secondRunEnv
      (WebhookService.DeliverWebhook demoLib demoConfig (respondingEnv 200) ingestedWorld 7).1
      7).1,
    ReachableBy.deliver _ secondRunEnv 7
      (ReachableBy.deliver _ (respondingEnv 200) 7 (ingestedWorld_reachable AnyRun) trivial)
      trivial, ?_, ?_, ?_⟩
  · decide
  · decide
  · decide

/-- C16, amended. In every state reachable from a store without deliveries and attempts by
`IngestWebhook` steps and by `DeliverWebhook` steps in which the request is constructed, the
insert of the attempt and the writes of the delivery's new state go through and the delivery
processed is not already `DELIVERED` (a task may otherwise be processed any number of times),
with a non-empty delay list, the attempt numbers persisted for each delivery are exactly
`1, ..., N` in insertion order, `N` being the number of its persisted attempts. -/
theorem attempt_numbers_contiguous (L : Lib) (config : Config) (hD : config.RetryDelays ≠ [])
    (w : World) (h : ReachableBy L config OrderlyRun w) :
    ∀ d ∈ w.db.deliveries,
      attemptNumbers w.db d.ID = oneTo (attemptsOf w.db d.ID).length :=
  fun d hd => ((orderly_reachable_inv L config hD w h).2 d hd).2.2

/-- C16 amended, at a concrete input: one ingest, then a run answered with 500 and a run
answered with 200; the attempts of delivery 7 are numbered 1, 2. -/
theorem attempt_numbers_contiguous_witness :
    attemptNumbers (WebhookService.DeliverWebhook demoLib demoConfig secondRunEnv retriedWorld
        7).1.db 7
      = oneTo (attemptsOf (WebhookService.DeliverWebhook demoLib demoConfig secondRunEnv
          retriedWorld 7).1.db 7).length :=
  attempt_numbers_contiguous demoLib demoConfig (by decide)
    (WebhookService.DeliverWebhook demoLib demoConfig secondRunEnv retriedWorld 7).1
    (ReachableBy.deliver _ secondRunEnv 7
      (ReachableBy.deliver _ (respondingEnv 500) 7 (ingestedWorld_reachable OrderlyRun)
        ⟨rfl, rfl, rfl, rfl, by decide⟩)
      ⟨rfl, rfl, rfl, rfl, by decide⟩)
    { ingestedDelivery with
      Status := StatusDelivered, NextRetryAt := some (1000 + 10 * Second), RetryCount := 1 }
    (by decide)

/-! ## Reachable states: terminal failure -/

theorem GuardedInv_of_db_eq (config : Config) (w w' : World) (h : w'.db = w.db)
    (hinv : GuardedInv config w) : GuardedInv config w' := by
  unfold GuardedInv at *
  rw [h]
  exact hinv

theorem GuardedInv_deliver (L : Lib) (config : Config) (env : DeliverEnv) (w : World)
    (deliveryID : UUID) (hlim : config.RetryLimit < 2 ^ 63) (hinv : GuardedInv config w)
    (hG : GuardedRun w env deliveryID) :
    GuardedInv config (WebhookService.DeliverWebhook L config env w deliveryID).1 := by
  obtain ⟨hDel, hrows⟩ := hG
  obtain ⟨hA, hS, hR⟩ := hinv
  rcases DeliverWebhook_db_cases L config env w deliveryID with
    h | ⟨delivery, hGet, extra, s, n, c, hdb, hlen, hshape, heff⟩
  · exact GuardedInv_of_db_eq _ _ _ h ⟨hA, hS, hR⟩
  · obtain ⟨hid, hmem⟩ := GetWebhookDelivery_ok _ _ _ _ hGet
    obtain ⟨hmax, hbound, _⟩ := hR delivery hmem
    obtain ⟨hrc0, hrclt⟩ := hbound (hrows delivery hmem hid).1 (hrows delivery hmem hid).2
    have hwrap : wrapInt (delivery.RetryCount + 1) = delivery.RetryCount + 1 :=
      wrapInt_of_range _ (by omega) (by omega)
    have hne1 : StatusProcessing ≠ StatusDelivered := by decide
    have hne2 : StatusProcessing ≠ StatusFailed := by decide
    have hne3 : StatusPending ≠ StatusFailed := by decide
    have hne4 : StatusDelivered ≠ StatusFailed := by decide
    have hne5 : StatusFailed ≠ StatusSuccess := by decide
    unfold GuardedInv
    rw [hdb]
    refine ⟨?_, ?_, ?_⟩
    · intro a ha
      simp only [List.mem_append] at ha
      rcases ha with ha | ha
      · obtain ⟨d, hd, hda⟩ := hA a ha
        exact ⟨setRow deliveryID s n c d, List.mem_map_of_mem _ hd, by rw [setRow_id]; exact hda⟩
      · exact ⟨setRow deliveryID s n c delivery, List.mem_map_of_mem _ hmem,
          by rw [setRow_id, hid, (hshape a ha).1]⟩
    · intro a ha hsucc d' hd' hd'id
      simp only [List.mem_map] at hd'
      obtain ⟨d0, hd0, rfl⟩ := hd'
      rw [setRow_id] at hd'id
      simp only [List.mem_append] at ha
      rcases ha with ha | ha
      · have hold := hS a ha hsucc d0 hd0 hd'id
        by_cases hd0id : d0.ID = deliveryID
        · exact absurd hold (hrows d0 hd0 hd0id).1
        · rw [setRow_of_ne _ _ _ _ _ hd0id]; exact hold
      · have hd0id : d0.ID = deliveryID := by rw [hd'id, (hshape a ha).1]
        rw [setRow_of_eq _ _ _ _ _ hd0id]
        rcases heff with ⟨_, _, _, _, h5, _⟩ | ⟨h1, _⟩ | ⟨_, _, _, _, h5, _⟩ | ⟨_, _, _, _, h5, _⟩
        · exact absurd hDel (h5 ⟨a, ha, hsucc⟩)
        · exact h1
        · have := h5 a ha; rw [hsucc] at this; exact absurd this.symm hne5
        · have := h5 a ha; rw [hsucc] at this; exact absurd this.symm hne5
    · intro d' hd'
      simp only [List.mem_map] at hd'
      obtain ⟨d0, hd0, rfl⟩ := hd'
      have h0 := hR d0 hd0
      by_cases hd0id : d0.ID = deliveryID
      · rw [setRow_of_eq _ _ _ _ _ hd0id]
        have hm0 : d0.MaxRetries = delivery.MaxRetries := by rw [h0.1, hmax]
        refine ⟨h0.1, ?_, ?_⟩
        · intro hnd hnf
          simp only [] at hnd hnf ⊢
          rcases heff with ⟨_, _, h3, _⟩ | ⟨h1, _⟩ | ⟨h1, _⟩ | ⟨_, _, h3, h4, _⟩
          · rw [h3, hm0]; exact ⟨hrc0, hrclt⟩
          · exact absurd h1 hnd
          · exact absurd h1 hnf
          · rw [h3, hwrap, hm0]; rw [hwrap] at h4; exact ⟨by omega, h4⟩
        · intro hf
          simp only [] at hf ⊢
          rcases heff with ⟨h1, _⟩ | ⟨h1, _⟩ | ⟨_, _, h3, h4, _⟩ | ⟨h1, _⟩
          · rw [h1] at hf; exact absurd hf hne2
          · rw [h1] at hf; exact absurd hf hne4
          · rw [h3, hwrap, hm0]; rw [hwrap] at h4; omega
          · rw [h1] at hf; exact absurd hf hne3
      · rw [setRow_of_ne _ _ _ _ _ hd0id]; exact h0

theorem GuardedInv_ingest (L : Lib) (config : Config) (env : IngestEnv) (w : World)
    (subscriptionID : UUID) (eventType : GoString) (payload : Bytes) (signature : GoString)
    (hlim : 1 ≤ config.RetryLimit) (hinv : GuardedInv config w)
    (hfresh : ∀ d ∈ w.db.deliveries, d.ID ≠ env.newID) :
    GuardedInv config (WebhookService.IngestWebhook L config env w subscriptionID eventType
      payload signature).1 := by
  rcases IngestWebhook_db_cases L config env w subscriptionID eventType payload signature with
    h | h
  · exact GuardedInv_of_db_eq _ _ _ h hinv
  · obtain ⟨hA, hS, hR⟩ := hinv
    have hne : StatusPending ≠ StatusFailed := by decide
    unfold GuardedInv
    rw [h]
    refine ⟨?_, ?_, ?_⟩
    · intro a ha
      obtain ⟨d, hd, hda⟩ := hA a ha
      exact ⟨d, List.mem_append_left _ hd, hda⟩
    · intro a ha hsucc d hd hdid
      simp only [List.mem_append, List.mem_singleton] at hd
      rcases hd with hd | hd
      · exact hS a ha hsucc d hd hdid
      · subst hd
        obtain ⟨d0, hd0, hd0a⟩ := hA a ha
        exact absurd (by rw [hd0a, ← hdid]; rfl) (hfresh d0 hd0)
    · intro d hd
      simp only [List.mem_append, List.mem_singleton] at hd
      rcases hd with hd | hd
      · exact hR d hd
      · subst hd
        refine ⟨rfl, fun _ _ => ⟨le_refl _, hlim⟩, fun hf => absurd hf hne⟩

theorem guarded_reachable_inv (L : Lib) (config : Config) (h1 : 1 ≤ config.RetryLimit)
    (h2 : config.RetryLimit < 2 ^ 63) (w : World) (h : ReachableBy L config GuardedRun w) :
    GuardedInv config w := by
  induction h with
  | init w hd ha =>
    unfold GuardedInv
    rw [hd, ha]
    exact ⟨by simp, by simp, by simp⟩
  | ingest w env sid et payload sig _ hfresh ih =>
    exact GuardedInv_ingest L config env w sid et payload sig h1 ih hfresh
  | deliver w env id _ hG ih =>
    exact GuardedInv_deliver L config env w id h2 ih hG

/-- C15 as stated fails: with the retry limit configured as 0, one ingest and one run answered
with 500 leave delivery 7 `FAILED` with `retry_count = 1` and `max_retries = 0`. -/
theorem failed_retry_count_fails :
    ∃ w, ReachableBy demoLib zeroLimitConfig AnyRun w ∧
      ∃ d ∈ w.db.deliveries, d.Status = StatusFailed ∧ d.RetryCount = 1 ∧ d.MaxRetries = 0 ∧
        d.RetryCount ≠ d.MaxRetries := by
  refine ⟨(WebhookService.DeliverWebhook demoLib zeroLimitConfig (respondingEnv 500)
      (WebhookService.IngestWebhook demoLib zeroLimitConfig okIngestEnv subWorld 1
        (goStr "order.created") demoPayload []).1 7).1,
    ReachableBy.deliver _ (respondingEnv 500) 7
      (ReachableBy.ingest subWorld okIngestEnv 1 (goStr "order.created") demoPayload []
        (ReachableBy.init subWorld rfl rfl) (by intro d hd; simp [subWorld] at hd))
      trivial,
    { ID := 7, SubscriptionID := 1, Payload := demoPayload,
      EventType := some (goStr "order.created"), CreatedAt := 0, Status := StatusFailed,
      NextRetryAt := none, RetryCount := 1, MaxRetries := 0 }, ?_, rfl, rfl, rfl, ?_⟩
  · decide
  · decide

/-- C15, amended. For every configured retry limit of at least 1, in every state reachable
from a store without deliveries and attempts by `IngestWebhook` steps and by `DeliverWebhook`
steps taken on deliveries that are neither `DELIVERED` nor `FAILED` and in which the write that
follows a 2xx response goes through, every delivery with status `FAILED` has
`retry_count = max_retries` and no attempt with status `SUCCESS`. -/
theorem failed_retry_count (L : Lib) (config : Config) (h1 : 1 ≤ config.RetryLimit)
    (h2 : config.RetryLimit < 2 ^ 63) (w : World) (h : ReachableBy L config GuardedRun w) :
    ∀ d ∈ w.db.deliveries, d.Status = StatusFailed →
      d.RetryCount = d.MaxRetries ∧ ∀ a ∈ attemptsOf w.db d.ID, a.Status ≠ StatusSuccess := by
  obtain ⟨_, hS, hR⟩ := guarded_reachable_inv L config h1 h2 w h
  intro d hd hf
  refine ⟨(hR d hd).2.2 hf, ?_⟩
  intro a ha hsucc
  unfold attemptsOf at ha
  obtain ⟨ha1, ha2⟩ := List.mem_filter.mp ha
  have hda : d.ID = a.DeliveryID := by
    have : a.DeliveryID = d.ID := by simpa using ha2
    exact this.symm
  have := hS a ha1 hsucc d hd hda
  rw [hf] at this
  exact absurd this (by decide)

/-- C15 amended, at a concrete input: a delivery with one attempt allowed, one run answered
with 500; it is `FAILED` with `retry_count = max_retries = 1` and has no `SUCCESS` attempt. -/
theorem failed_retry_count_witness :
    failedDelivery.RetryCount = failedDelivery.MaxRetries ∧
    ∀ a ∈ attemptsOf (WebhookService.DeliverWebhook demoLib oneLimitConfig (respondingEnv 500)
        (WebhookService.IngestWebhook demoLib oneLimitConfig okIngestEnv subWorld 1
          (goStr "order.created") demoPayload []).1 7).1.db failedDelivery.ID,
      a.Status ≠ StatusSuccess :=
  failed_retry_count demoLib oneLimitConfig (by decide) (by decide)
    (WebhookService.DeliverWebhook demoLib oneLimitConfig (respondingEnv 500)
      (WebhookService.IngestWebhook demoLib oneLimitConfig okIngestEnv subWorld 1
        (goStr "order.created") demoPayload []).1 7).1
    (ReachableBy.deliver _ (respondingEnv 500) 7
      (ReachableBy.ingest subWorld okIngestEnv 1 (goStr "order.created") demoPayload []
        (ReachableBy.init subWorld rfl rfl) (by intro d hd; simp [subWorld] at hd))
      ⟨rfl, by decide⟩)
    failedDelivery (by decide) rfl

/-! ## Runs in which every call succeeds -/

theorem GetSubscription_ok (env : SubEnv) (w : World) (id : UUID) (hf : env.repoFault = none)
    (hex : ∃ s ∈ w.db.subscriptions, s.ID = id) :
    ∃ (w1 : World) (sub : Subscription),
      WebhookService.GetSubscription env w id = (w1, .ok sub) ∧ w1.db = w.db ∧
      w1.queue = w.queue ∧ w1.sent = w.sent := by
  unfold WebhookService.GetSubscription
  cases hc : cacheGet w.cache id env.cacheGetNow with
  | some cached => exact ⟨w, cached, rfl, rfl, rfl, rfl⟩
  | none =>
    simp only [PostgresRepository.GetSubscription, hf]
    cases hfind : w.db.subscriptions.find? (fun s => s.ID == id) with
    | none =>
      exfalso
      obtain ⟨s, hs, hsid⟩ := hex
      have := List.find?_eq_none.mp hfind s hs
      simp [hsid] at this
    | some sub => exact ⟨_, sub, rfl, rfl, rfl, rfl⟩

theorem GetWebhookDelivery_setRow (subs : List Subscription) (dels : List WebhookDelivery)
    (atts atts' : List DeliveryAttempt) (id : UUID) (delivery : WebhookDelivery)
    (s : GoString) (n : Option Time) (c : Int)
    (h : PostgresRepository.GetWebhookDelivery none ⟨subs, dels, atts⟩ id = .ok delivery) :
    PostgresRepository.GetWebhookDelivery none ⟨subs, dels.map (setRow id s n c), atts'⟩ id
      = .ok { delivery with Status := s, NextRetryAt := n, RetryCount := c } := by
  obtain ⟨hid, _⟩ := GetWebhookDelivery_ok _ _ _ _ h
  unfold PostgresRepository.GetWebhookDelivery at h ⊢
  simp only [] at h ⊢
  rw [List.find?_map]
  have hfun : ((fun d : WebhookDelivery => d.ID == id) ∘ setRow id s n c)
      = (fun d : WebhookDelivery => d.ID == id) := by
    funext d
    simp [Function.comp, setRow_id]
  rw [hfun]
  cases hf : dels.find? (fun d => d.ID == id) with
  | none => rw [hf] at h; simp at h
  | some d =>
    rw [hf] at h
    simp only [Except.ok.injEq] at h
    subst h
    simp [setRow, hid]

theorem DeliverWebhook_run_success (L : Lib) (config : Config) (env : DeliverEnv) (w : World)
    (deliveryID : UUID) (delivery : WebhookDelivery) (hC : CallsSucceed env)
    (hGet : PostgresRepository.GetWebhookDelivery none w.db deliveryID = .ok delivery)
    (hSubEx : ∃ s ∈ w.db.subscriptions, s.ID = delivery.SubscriptionID)
    (hDo : DestinationAccepts env) :
    ∃ (code : Int) (req : Request) (cache : List CacheItem),
      200 ≤ code ∧ code < 300 ∧
      WebhookService.DeliverWebhook L config env w deliveryID =
        (⟨⟨w.db.subscriptions,
            w.db.deliveries.map (setRow deliveryID StatusDelivered delivery.NextRetryAt
              delivery.RetryCount),
            w.db.attempts ++ [⟨env.attemptID, deliveryID, wrapInt (delivery.RetryCount + 1),
              StatusSuccess, some code, none, env.attemptCreatedAt⟩]⟩,
          cache, w.queue, w.sent ++ [req]⟩, Outcome.returned none) := by
  obtain ⟨h1, h2, h3, h4, h5, h6, _, _⟩ := hC
  obtain ⟨hid, _⟩ := GetWebhookDelivery_ok _ _ _ _ hGet
  subst hid
  obtain ⟨w1, subscription, hSub, hdb, hq, hs⟩ := GetSubscription_ok env.sub
    { w with
      db := ⟨w.db.subscriptions,
        w.db.deliveries.map (setRow delivery.ID StatusProcessing delivery.NextRetryAt
          delivery.RetryCount), w.db.attempts⟩ }
    delivery.SubscriptionID h3 hSubEx
  simp only [] at hdb hq hs
  obtain ⟨resp, hresp, hc1, hc2⟩ := hDo (prepareRequest L
    { delivery with Status := StatusProcessing } subscription
    ⟨goStr "POST", subscription.TargetURL, NoBody, none, 0, []⟩)
  have hc : resp.StatusCode ≥ 200 ∧ resp.StatusCode < 300 := ⟨hc1, hc2⟩
  refine ⟨resp.StatusCode, (outboundRequest L delivery subscription), w1.cache, hc1, hc2, ?_⟩
  unfold outboundRequest
  unfold WebhookService.DeliverWebhook
  rw [h1, hGet]
  simp only []
  rw [h2]
  have hU : PostgresRepository.UpdateWebhookDelivery none w.db
      { delivery with Status := StatusProcessing } =
      (⟨w.db.subscriptions,
        w.db.deliveries.map (setRow delivery.ID StatusProcessing delivery.NextRetryAt
          delivery.RetryCount), w.db.attempts⟩, none) := rfl
  rw [hU]
  simp only []
  rw [hSub]
  simp only [h4, NewRequestWithContext]
  rw [hresp]
  simp only [hc, and_self, if_true, h5, h6, PostgresRepository.CreateDeliveryAttempt,
    UpdateWebhookDelivery_none, hdb, map_setRow_setRow, newAttempt, hq, hs]

theorem DeliverWebhook_run_failure (L : Lib) (config : Config) (env : DeliverEnv) (w : World)
    (deliveryID : UUID) (delivery : WebhookDelivery) (hC : CallsSucceed env)
    (hGet : PostgresRepository.GetWebhookDelivery none w.db deliveryID = .ok delivery)
    (hSubEx : ∃ s ∈ w.db.subscriptions, s.ID = delivery.SubscriptionID)
    (hDo : DestinationFails env) :
    ∃ (a : DeliveryAttempt) (req : Request) (cache : List CacheItem),
      a.DeliveryID = deliveryID ∧ a.AttemptNumber = wrapInt (delivery.RetryCount + 1) ∧
      a.Status = StatusFailed ∧
      ((wrapInt (delivery.RetryCount + 1) ≥ delivery.MaxRetries ∧
        WebhookService.DeliverWebhook L config env w deliveryID =
          (⟨⟨w.db.subscriptions,
              w.db.deliveries.map (setRow deliveryID StatusFailed none
                (wrapInt (delivery.RetryCount + 1))),
              w.db.attempts ++ [a]⟩,
            cache, w.queue, w.sent ++ [req]⟩, Outcome.returned none)) ∨
      (wrapInt (delivery.RetryCount + 1) < delivery.MaxRetries ∧
        sliceIndex config.RetryDelays
          (retryDelayIndex config (wrapInt (delivery.RetryCount + 1))) = none ∧
        (WebhookService.DeliverWebhook L config env w deliveryID).2 = Outcome.panicked) ∨
      (wrapInt (delivery.RetryCount + 1) < delivery.MaxRetries ∧
        ∃ delay,
          sliceIndex config.RetryDelays
            (retryDelayIndex config (wrapInt (delivery.RetryCount + 1))) = some delay ∧
          WebhookService.DeliverWebhook L config env w deliveryID =
            (⟨⟨w.db.subscriptions,
                w.db.deliveries.map (setRow deliveryID StatusPending
                  (some (env.failure.now + delay)) (wrapInt (delivery.RetryCount + 1))),
                w.db.attempts ++ [a]⟩,
              cache, w.queue ++ [deliverTask L deliveryID (some delay)], w.sent ++ [req]⟩,
              Outcome.returned none))) := by
  obtain ⟨h1, h2, h3, h4, h5, _, h7, h8⟩ := hC
  obtain ⟨hid, _⟩ := GetWebhookDelivery_ok _ _ _ _ hGet
  subst hid
  obtain ⟨w1, subscription, hSub, hdb, hq, hs⟩ := GetSubscription_ok env.sub
    { w with
      db := ⟨w.db.subscriptions,
        w.db.deliveries.map (setRow delivery.ID StatusProcessing delivery.NextRetryAt
          delivery.RetryCount), w.db.attempts⟩ }
    delivery.SubscriptionID h3 hSubEx
  simp only [] at hdb hq hs
  have hU : PostgresRepository.UpdateWebhookDelivery none w.db
      { delivery with Status := StatusProcessing } =
      (⟨w.db.subscriptions,
        w.db.deliveries.map (setRow delivery.ID StatusProcessing delivery.NextRetryAt
          delivery.RetryCount), w.db.attempts⟩, none) := rfl
  have tail : ∀ (a : DeliveryAttempt) (err : GoError) (sc : Option Int),
      (wrapInt (delivery.RetryCount + 1) ≥ delivery.MaxRetries ∧
        ((WebhookService.handleDeliveryFailure L config env.failure
            { w1 with
              db := (PostgresRepository.CreateDeliveryAttempt env.createAttemptFault w1.db a).1
              sent := w1.sent ++ [prepareRequest L { delivery with Status := StatusProcessing }
                subscription ⟨goStr "POST", subscription.TargetURL, NoBody, none, 0, []⟩] }
            { delivery with Status := StatusProcessing } err sc).world,
          (WebhookService.handleDeliveryFailure L config env.failure
            { w1 with
              db := (PostgresRepository.CreateDeliveryAttempt env.createAttemptFault w1.db a).1
              sent := w1.sent ++ [prepareRequest L { delivery with Status := StatusProcessing }
                subscription ⟨goStr "POST", subscription.TargetURL, NoBody, none, 0, []⟩] }
            { delivery with Status := StatusProcessing } err sc).outcome) =
          (⟨⟨w.db.subscriptions,
              w.db.deliveries.map (setRow delivery.ID StatusFailed none
                (wrapInt (delivery.RetryCount + 1))),
              w.db.attempts ++ [a]⟩,
            w1.cache, w.queue, w.sent ++ [prepareRequest L
              { delivery with Status := StatusProcessing }
              subscription ⟨goStr "POST", subscription.TargetURL, NoBody, none, 0, []⟩]⟩,
            Outcome.returned none)) ∨
      (wrapInt (delivery.RetryCount + 1) < delivery.MaxRetries ∧
        sliceIndex config.RetryDelays
          (retryDelayIndex config (wrapInt (delivery.RetryCount + 1))) = none ∧
        (WebhookService.handleDeliveryFailure L config env.failure
            { w1 with
              db := (PostgresRepository.CreateDeliveryAttempt env.createAttemptFault w1.db a).1
              sent := w1.sent ++ [prepareRequest L { delivery with Status := StatusProcessing }
                subscription ⟨goStr "POST", subscription.TargetURL, NoBody, none, 0, []⟩] }
            { delivery with Status := StatusProcessing } err sc).outcome = Outcome.panicked) ∨
      (wrapInt (delivery.RetryCount + 1) < delivery.MaxRetries ∧
        ∃ delay,
          sliceIndex config.RetryDelays
            (retryDelayIndex config (wrapInt (delivery.RetryCount + 1))) = some delay ∧
          ((WebhookService.handleDeliveryFailure L config env.failure
              { w1 with
                db := (PostgresRepository.CreateDeliveryAttempt env.createAttemptFault w1.db a).1
                sent := w1.sent ++ [prepareRequest L { delivery with Status := StatusProcessing }
                  subscription ⟨goStr "POST", subscription.TargetURL, NoBody, none, 0, []⟩] }
              { delivery with Status := StatusProcessing } err sc).world,
            (WebhookService.handleDeliveryFailure L config env.failure
              { w1 with
                db := (PostgresRepository.CreateDeliveryAttempt env.createAttemptFault w1.db a).1
                sent := w1.sent ++ [prepareRequest L { delivery with Status := StatusProcessing }
                  subscription ⟨goStr "POST", subscription.TargetURL, NoBody, none, 0, []⟩] }
              { delivery with Status := StatusProcessing } err sc).outcome) =
            (⟨⟨w.db.subscriptions,
                w.db.deliveries.map (setRow delivery.ID StatusPending
                  (some (env.failure.now + delay)) (wrapInt (delivery.RetryCount + 1))),
                w.db.attempts ++ [a]⟩,
              w1.cache, w.queue ++ [deliverTask L delivery.ID (some delay)],
              w.sent ++ [prepareRequest L { delivery with Status := StatusProcessing }
                subscription ⟨goStr "POST", subscription.TargetURL, NoBody, none, 0, []⟩]⟩,
              Outcome.returned none)) := by
    intro a err sc
    unfold WebhookService.handleDeliveryFailure
    simp only []
    by_cases hr : wrapInt (delivery.RetryCount + 1) ≥ delivery.MaxRetries
    · left
      refine ⟨hr, ?_⟩
      simp only [hr, if_true, h7, h5, PostgresRepository.CreateDeliveryAttempt,
        UpdateWebhookDelivery_none_pair, hdb, map_setRow_setRow, hq, hs]
    · have hlt : wrapInt (delivery.RetryCount + 1) < delivery.MaxRetries := by omega
      right
      simp only [hr, if_false]
      cases hI : sliceIndex config.RetryDelays
          (retryDelayIndex config (wrapInt (delivery.RetryCount + 1))) with
      | none => left; exact ⟨hlt, rfl, rfl⟩
      | some delay =>
        right
        refine ⟨hlt, delay, rfl, ?_⟩
        simp only [h7, h8, h5, PostgresRepository.CreateDeliveryAttempt,
          UpdateWebhookDelivery_none_pair, clientEnqueue, hdb, map_setRow_setRow, hq, hs]
  unfold WebhookService.DeliverWebhook
  rw [h1, hGet]
  simp only []
  rw [h2, hU]
  simp only []
  rw [hSub]
  simp only [h4, NewRequestWithContext]
  rcases hDo (prepareRequest L { delivery with Status := StatusProcessing } subscription
    ⟨goStr "POST", subscription.TargetURL, NoBody, none, 0, []⟩) with
    ⟨err, herr⟩ | ⟨resp, hresp, hc⟩
  · rw [herr]
    simp only []
    refine ⟨{ newAttempt env delivery.ID { delivery with Status := StatusProcessing } with
      Status := StatusFailed, ErrorDetails := some err.msg }, (outboundRequest L delivery subscription), w1.cache, rfl, rfl,
      rfl, ?_⟩
    unfold outboundRequest
    rcases tail { newAttempt env delivery.ID { delivery with Status := StatusProcessing } with
      Status := StatusFailed, ErrorDetails := some err.msg } err none with
      ⟨hr, h⟩ | ⟨hr, hI, h⟩ | ⟨hr, delay, hI, h⟩
    · exact Or.inl ⟨hr, h⟩
    · exact Or.inr (Or.inl ⟨hr, hI, h⟩)
    · exact Or.inr (Or.inr ⟨hr, delay, hI, h⟩)
  · rw [hresp]
    have hc' : ¬ (resp.StatusCode ≥ 200 ∧ resp.StatusCode < 300) := hc
    simp only [hc', if_false]
    refine ⟨{ newAttempt env delivery.ID { delivery with Status := StatusProcessing } with
      StatusCode := some resp.StatusCode, Status := StatusFailed,
      ErrorDetails := some (goStr "HTTP " ++ formatInt resp.StatusCode ++ goStr ": " ++ resp.Body) },
      (outboundRequest L delivery subscription), w1.cache, rfl, rfl, rfl, ?_⟩
    unfold outboundRequest
    rcases tail { newAttempt env delivery.ID { delivery with Status := StatusProcessing } with
      StatusCode := some resp.StatusCode, Status := StatusFailed,
      ErrorDetails := some (goStr "HTTP " ++ formatInt resp.StatusCode ++ goStr ": " ++ resp.Body) }
      ⟨goStr "HTTP " ++ formatInt resp.StatusCode⟩ (some resp.StatusCode) with
      ⟨hr, h⟩ | ⟨hr, hI, h⟩ | ⟨hr, delay, hI, h⟩
    · exact Or.inl ⟨hr, h⟩
    · exact Or.inr (Or.inl ⟨hr, hI, h⟩)
    · exact Or.inr (Or.inr ⟨hr, delay, hI, h⟩)

/-! ## Terminal deliveries, success, error details -/

/-- C12 as stated fails: delivery 7 is stored as `DELIVERED`, and a further run of
`DeliverWebhook` on it, answered with 200, sends one more request and appends one more
attempt; the delivery then has two `SUCCESS` attempts. -/
theorem DeliverWebhook_terminal_not_skipped :
    (∃ d ∈ deliveredWorld.db.deliveries, d.ID = 7 ∧ d.Status = StatusDelivered) ∧
    (WebhookService.DeliverWebhook demoLib demoConfig secondRunEnv deliveredWorld 7).1.sent.length
      = deliveredWorld.sent.length + 1 ∧
    (WebhookService.DeliverWebhook demoLib demoConfig secondRunEnv deliveredWorld
      7).1.db.attempts.length = deliveredWorld.db.attempts.length + 1 ∧
    ((attemptsOf (WebhookService.DeliverWebhook demoLib demoConfig secondRunEnv deliveredWorld
      7).1.db 7).filter (fun a => a.Status = StatusSuccess)).length = 2 := by
  decide

/-- C12, amended. `DeliverWebhook` has no guard on the stored status: for every stored
delivery, also one whose status is `DELIVERED` or `FAILED`, a run in which every store call
succeeds and the destination answers 2xx sends one HTTP request, appends one `SUCCESS` attempt
numbered `retry_count + 1`, enqueues nothing and leaves the delivery `DELIVERED`; consequently
processing the same task twice against a destination that returns 200 leaves two `SUCCESS`
attempts, which carry the same attempt number. -/
theorem DeliverWebhook_no_status_guard (L : Lib) (config : Config) (env env2 : DeliverEnv)
    (w : World) (deliveryID : UUID) (delivery : WebhookDelivery)
    (hC : CallsSucceed env) (hC2 : CallsSucceed env2)
    (hGet : PostgresRepository.GetWebhookDelivery none w.db deliveryID = .ok delivery)
    (hSubEx : ∃ s ∈ w.db.subscriptions, s.ID = delivery.SubscriptionID)
    (hAcc : DestinationAccepts env) (hAcc2 : DestinationAccepts env2) :
    (∃ (req : Request) (a : DeliveryAttempt),
      (WebhookService.DeliverWebhook L config env w deliveryID).1.sent = w.sent ++ [req] ∧
      (WebhookService.DeliverWebhook L config env w deliveryID).1.db.attempts
        = w.db.attempts ++ [a] ∧
      a.DeliveryID = deliveryID ∧ a.Status = StatusSuccess ∧
      a.AttemptNumber = wrapInt (delivery.RetryCount + 1) ∧
      (WebhookService.DeliverWebhook L config env w deliveryID).1.queue = w.queue ∧
      PostgresRepository.GetWebhookDelivery none
        (WebhookService.DeliverWebhook L config env w deliveryID).1.db deliveryID
        = .ok { delivery with Status := StatusDelivered }) ∧
    ∃ a1 a2 : DeliveryAttempt,
      (WebhookService.DeliverWebhook L config env2
        (WebhookService.DeliverWebhook L config env w deliveryID).1 deliveryID).1.db.attempts
        = w.db.attempts ++ [a1, a2] ∧
      a1.DeliveryID = deliveryID ∧ a2.DeliveryID = deliveryID ∧
      a1.Status = StatusSuccess ∧ a2.Status = StatusSuccess ∧
      a1.AttemptNumber = a2.AttemptNumber := by
  obtain ⟨code, req, cache, _, _, hrun⟩ :=
    DeliverWebhook_run_success L config env w deliveryID delivery hC hGet hSubEx hAcc
  have hGet2 : PostgresRepository.GetWebhookDelivery none
      (WebhookService.DeliverWebhook L config env w deliveryID).1.db deliveryID
      = .ok { delivery with Status := StatusDelivered } := by
    rw [hrun]
    exact GetWebhookDelivery_setRow w.db.subscriptions w.db.deliveries w.db.attempts _
      deliveryID delivery StatusDelivered delivery.NextRetryAt delivery.RetryCount hGet
  refine ⟨⟨req, ⟨env.attemptID, deliveryID, wrapInt (delivery.RetryCount + 1), StatusSuccess,
    some code, none, env.attemptCreatedAt⟩, by rw [hrun], by rw [hrun], rfl, rfl, rfl,
    by rw [hrun], hGet2⟩, ?_⟩
  obtain ⟨code2, req2, cache2, _, _, hrun2⟩ :=
    DeliverWebhook_run_success L config env2
      (WebhookService.DeliverWebhook L config env w deliveryID).1 deliveryID
      { delivery with Status := StatusDelivered } hC2 hGet2 (by rw [hrun]; exact hSubEx) hAcc2
  refine ⟨⟨env.attemptID, deliveryID, wrapInt (delivery.RetryCount + 1), StatusSuccess,
      some code, none, env.attemptCreatedAt⟩,
    ⟨env2.attemptID, deliveryID, wrapInt (delivery.RetryCount + 1), StatusSuccess,
      some code2, none, env2.attemptCreatedAt⟩, ?_, rfl, rfl, rfl, rfl, rfl⟩
  rw [hrun2, hrun]
  simp

/-- C12 amended, at a concrete input: the task of delivery 7 is processed twice against a
destination that answers 200. -/
theorem DeliverWebhook_no_status_guard_witness :
    ∃ a1 a2 : DeliveryAttempt,
      (WebhookService.DeliverWebhook demoLib demoConfig secondRunEnv
        (WebhookService.DeliverWebhook demoLib demoConfig (respondingEnv 200) ingestedWorld
          7).1 7).1.db.attempts
        = ingestedWorld.db.attempts ++ [a1, a2] ∧
      a1.DeliveryID = 7 ∧ a2.DeliveryID = 7 ∧
      a1.Status = StatusSuccess ∧ a2.Status = StatusSuccess ∧
      a1.AttemptNumber = a2.AttemptNumber :=
  (DeliverWebhook_no_status_guard demoLib demoConfig (respondingEnv 200) secondRunEnv
    ingestedWorld 7
    { ID := 7, SubscriptionID := 1, Payload := demoPayload,
      EventType := some (goStr "order.created"), CreatedAt := 0, Status := StatusPending,
      NextRetryAt := none, RetryCount := 0, MaxRetries := 5 }
    ⟨rfl, rfl, rfl, rfl, rfl, rfl, rfl, rfl⟩ ⟨rfl, rfl, rfl, rfl, rfl, rfl, rfl, rfl⟩ rfl
    ⟨demoSub, by decide, rfl⟩
    (fun _ => ⟨⟨200, []⟩, rfl, by decide, by decide⟩)
    (fun _ => ⟨⟨200, []⟩, rfl, by decide, by decide⟩)).2

/-- C13, evaluated on the code: delivery 7 carries the retry time `1000 + 10 s` left by a
failed first attempt; after the next run receives 200 the stored row reads `DELIVERED` and
still carries that retry time, not null. -/
theorem DeliverWebhook_success_keeps_next_retry :
    (∃ d ∈ retriedWorld.db.deliveries, d.ID = 7 ∧ d.Status = StatusPending ∧
      d.NextRetryAt = some (1000 + 10 * Second)) ∧
    (WebhookService.DeliverWebhook demoLib demoConfig secondRunEnv retriedWorld
      7).1.db.deliveries =
      [{ ID := 7, SubscriptionID := 1, Payload := demoPayload,
         EventType := some (goStr "order.created"), CreatedAt := 0, Status := StatusDelivered,
         NextRetryAt := some (1000 + 10 * Second), RetryCount := 1, MaxRetries := 5 }] ∧
    ∀ d ∈ (WebhookService.DeliverWebhook demoLib demoConfig secondRunEnv retriedWorld
      7).1.db.deliveries, d.NextRetryAt ≠ none := by
  decide

/-- C19 as stated fails: a 500 response with a body of 2049 bytes is stored on the attempt
with the whole body after `HTTP 500: `, not with its first 2048 bytes. -/
theorem error_details_not_truncated :
    ∃ a : DeliveryAttempt,
      (WebhookService.DeliverWebhook demoLib demoConfig longBodyEnv ingestedWorld
        7).1.db.attempts = [a] ∧
      a.ErrorDetails = some (goStr "HTTP 500: " ++ longBody) ∧ longBody.length = 2049 ∧
      a.ErrorDetails ≠ some (goStr "HTTP 500: " ++ longBody.take 2048) := by
  refine ⟨⟨100, 7, 1, StatusFailed, some 500, some (goStr "HTTP 500: " ++ longBody), 50⟩,
    rfl, rfl, List.length_replicate _ _, ?_⟩
  intro h
  have hlen : longBody.length = 2049 := List.length_replicate _ _
  have h2 := List.append_cancel_left (Option.some.inj h)
  have h3 := congrArg List.length h2
  rw [List.length_take, hlen] at h3
  omega

/-- C19, amended. For every non-2xx response with body `b`, read in full by `io.ReadAll`, the
`error_details` that `DeliverWebhook` puts on the attempt is `HTTP <code>: ` followed by the
whole of `b`, whatever its length; when the insert goes through, that attempt is the one row
added to the attempts table. -/
theorem DeliverWebhook_error_details (L : Lib) (config : Config) (env : DeliverEnv)
    (w w1 : World) (deliveryID : UUID) (delivery : WebhookDelivery)
    (subscription : Subscription) (resp : Response)
    (hGet : PostgresRepository.GetWebhookDelivery env.getDeliveryFault w.db deliveryID
      = .ok delivery)
    (hUpd : env.updateProcessingFault = none)
    (hSub : WebhookService.GetSubscription env.sub
      { w with
        db := (PostgresRepository.UpdateWebhookDelivery none w.db
          { delivery with Status := StatusProcessing }).1 }
      delivery.SubscriptionID = (w1, .ok subscription))
    (hReq : env.newRequestFault = none)
    (hDo : env.clientDo (outboundRequest L delivery subscription) = .ok resp)
    (hc : ¬ (200 ≤ resp.StatusCode ∧ resp.StatusCode < 300))
    (hCreate : env.createAttemptFault = none) :
    ∃ a : DeliveryAttempt,
      (WebhookService.DeliverWebhook L config env w deliveryID).1.db.attempts
        = w.db.attempts ++ [a] ∧
      a.DeliveryID = deliveryID ∧ a.Status = StatusFailed ∧
      a.StatusCode = some resp.StatusCode ∧
      a.ErrorDetails
        = some (goStr "HTTP " ++ formatInt resp.StatusCode ++ goStr ": " ++ resp.Body) := by
  obtain ⟨hdb, _, _⟩ := GetSubscription_frame _ _ _ _ _ hSub
  simp only [] at hdb
  have hU : PostgresRepository.UpdateWebhookDelivery env.updateProcessingFault w.db
      { delivery with Status := StatusProcessing } =
      ((PostgresRepository.UpdateWebhookDelivery none w.db
        { delivery with Status := StatusProcessing }).1, none) := by
    rw [hUpd]; rfl
  have hN : NewRequestWithContext env.newRequestFault (goStr "POST") subscription.TargetURL
      = .ok ⟨goStr "POST", subscription.TargetURL, NoBody, none, 0, []⟩ := by
    rw [hReq]; rfl
  have hc2 : ¬ (resp.StatusCode ≥ 200 ∧ resp.StatusCode < 300) := hc
  unfold outboundRequest at hDo
  refine ⟨{ newAttempt env deliveryID { delivery with Status := StatusProcessing } with
    StatusCode := some resp.StatusCode, Status := StatusFailed,
    ErrorDetails := some (goStr "HTTP " ++ formatInt resp.StatusCode ++ goStr ": " ++ resp.Body) },
    ?_, rfl, rfl, rfl, rfl⟩
  unfold WebhookService.DeliverWebhook
  rw [hGet]
  simp only []
  rw [hU]
  simp only []
  rw [hSub]
  simp only []
  rw [hN]
  simp only []
  rw [hDo]
  simp only [hc2, if_false]
  rw [handleDeliveryFailure_attempts]
  simp [hCreate, PostgresRepository.CreateDeliveryAttempt, hdb, UpdateWebhookDelivery_attempts]

/-- C19 amended, at a concrete input: the 2049-byte body of a 500 response. -/
theorem DeliverWebhook_error_details_witness :
    ∃ a : DeliveryAttempt,
      (WebhookService.DeliverWebhook demoLib demoConfig longBodyEnv ingestedWorld
        7).1.db.attempts = ingestedWorld.db.attempts ++ [a] ∧
      a.DeliveryID = 7 ∧ a.Status = StatusFailed ∧ a.StatusCode = some 500 ∧
      a.ErrorDetails = some (goStr "HTTP " ++ formatInt 500 ++ goStr ": " ++ longBody) :=
  DeliverWebhook_error_details demoLib demoConfig longBodyEnv ingestedWorld
    processingWorld 7 ingestedDelivery demoSub ⟨500, longBody⟩ rfl rfl rfl rfl rfl (by decide) rfl

/-! ## Retention (`CleanupOldLogs`) -/

/-- C20 as stated fails: with a retention of 5124096 hours the product
`-Duration(h) * time.Hour` wraps around in `int64` to about minus 25 minutes, so an attempt
created one hour before `now` is deleted although it is not older than `now` minus `h`
hours. -/
theorem CleanupOldLogs_wraps :
    (WebhookService.CleanupOldLogs longRetentionConfig (10 ^ 18) none
      recentAttemptWorld).1.db.attempts = [] ∧
    (∀ a ∈ recentAttemptWorld.db.attempts,
      ¬ (a.CreatedAt < 10 ^ 18 - longRetentionConfig.LogRetentionHours * Hour)) ∧
    recentAttemptWorld.db.attempts ≠ [] := by
  decide

/-- C20, amended. For every store state, time `now` and configured retention of `h` hours
with `|h| ≤ 2562047` (so that `h` hours fit a 64-bit `Duration`), `CleanupOldLogs` leaves the
deliveries, the subscriptions, the cache, the queue and the request log unchanged; when the
`DELETE` goes through it returns nil and the attempts that remain are exactly the stored
attempts whose `created_at` is not earlier than `now` minus `h` hours, and when the `DELETE`
fails nothing is deleted and the error is returned. -/
theorem CleanupOldLogs_effect (config : Config) (now : Time) (fault : Option GoError)
    (w : World) (h1 : -2562047 ≤ config.LogRetentionHours)
    (h2 : config.LogRetentionHours ≤ 2562047) :
    (WebhookService.CleanupOldLogs config now fault w).1.db.deliveries = w.db.deliveries ∧
    (WebhookService.CleanupOldLogs config now fault w).1.db.subscriptions
      = w.db.subscriptions ∧
    (WebhookService.CleanupOldLogs config now fault w).1.cache = w.cache ∧
    (WebhookService.CleanupOldLogs config now fault w).1.queue = w.queue ∧
    (WebhookService.CleanupOldLogs config now fault w).1.sent = w.sent ∧
    (fault = none →
      (WebhookService.CleanupOldLogs config now fault w).2 = Outcome.returned none ∧
      (WebhookService.CleanupOldLogs config now fault w).1.db.attempts =
        w.db.attempts.filter
          (fun a => !(decide (a.CreatedAt < now - config.LogRetentionHours * Hour)))) ∧
    (∀ e, fault = some e →
      (WebhookService.CleanupOldLogs config now fault w).2 = Outcome.returned (some e) ∧
      (WebhookService.CleanupOldLogs config now fault w).1.db.attempts = w.db.attempts) := by
  have hcut : now + wrapInt (wrapInt (-config.LogRetentionHours) * Hour)
      = now - config.LogRetentionHours * Hour := by
    have hH : Hour = 3600000000000 := by decide
    rw [wrapInt_of_range (-config.LogRetentionHours) (by omega) (by omega), hH,
      wrapInt_of_range _ (by omega) (by omega)]
    ring
  unfold WebhookService.CleanupOldLogs
  simp only [hcut]
  cases fault with
  | some e => simp [PostgresRepository.DeleteOldDeliveryAttempts]
  | none => simp [PostgresRepository.DeleteOldDeliveryAttempts]

/-- C20 amended, at a concrete input: the default retention of 72 hours at the instant
`10 ^ 18`; the attempt created one hour earlier stays. -/
theorem CleanupOldLogs_effect_witness :
    (WebhookService.CleanupOldLogs demoConfig (10 ^ 18) none recentAttemptWorld).1.db.attempts
      = recentAttemptWorld.db.attempts ∧
    (WebhookService.CleanupOldLogs demoConfig (10 ^ 18) none recentAttemptWorld).1.db.deliveries
      = recentAttemptWorld.db.deliveries := by
  have h := CleanupOldLogs_effect demoConfig (10 ^ 18) none recentAttemptWorld (by decide)
    (by decide)
  refine ⟨?_, h.1⟩
  rw [(h.2.2.2.2.2.1 rfl).2]
  decide

/-! ## Scenarios: every task processed once -/

theorem processQueue_step (uuidParse : GoString → Except GoError UUID) (L : Lib)
    (config : Config) (env : Nat → DeliverEnv) (fuel k : Nat) (w : World) (id : UUID)
    (t : Task) (rest : List Task) (hParse : uuidParse (L.uuidString id) = .ok id)
    (hQ : w.queue = t :: rest) (ht : t.payload = L.uuidString id) :
    processQueue uuidParse L config env (fuel + 1) k w =
      ((processQueue uuidParse L config env fuel (k + 1)
          (WebhookService.DeliverWebhook L config (env k) { w with queue := rest } id).1).1,
        t :: (processQueue uuidParse L config env fuel (k + 1)
          (WebhookService.DeliverWebhook L config (env k) { w with queue := rest } id).1).2) := by
  rw [processQueue]
  simp only [hQ, Worker.handleWebhookDelivery, ht, hParse]

theorem processQueue_empty (uuidParse : GoString → Except GoError UUID) (L : Lib)
    (config : Config) (env : Nat → DeliverEnv) (fuel k : Nat) (w : World)
    (hQ : w.queue = []) :
    processQueue uuidParse L config env fuel k w = (w, []) := by
  cases fuel with
  | zero => rfl
  | succ n => rw [processQueue]; simp only [hQ]

theorem retry_delay_exists (config : Config) (rc : Int) (hD : config.RetryDelays ≠ [])
    (h0 : 0 ≤ rc) :
    ∃ delay, retryDelay config (rc.toNat + 1) = some delay ∧
      (rc + 1 < 2 ^ 63 →
        sliceIndex config.RetryDelays (retryDelayIndex config (rc + 1)) = some delay) := by
  obtain ⟨delay, h1, h2⟩ := sliceIndex_retryDelayIndex config (rc + 1) hD (by omega)
  refine ⟨delay, ?_, h2⟩
  unfold retryDelay
  have : (rc + 1).toNat = rc.toNat + 1 := by omega
  rw [← this]; exact h1

theorem failing_loop (uuidParse : GoString → Except GoError UUID) (L : Lib) (config : Config)
    (env : Nat → DeliverEnv) (id : UUID) (hParse : uuidParse (L.uuidString id) = .ok id)
    (hD : config.RetryDelays ≠ [])
    (hEnv : ∀ j, CallsSucceed (env j) ∧ DestinationFails (env j)) :
    ∀ (m k fuel : Nat) (w : World) (d : WebhookDelivery) (t : Task) (c : Nat),
      m + 1 ≤ fuel →
      PostgresRepository.GetWebhookDelivery none w.db id = .ok d →
      d.RetryCount = (c : Int) → d.MaxRetries = ((c + (m + 1) : Nat) : Int) →
      ((c + (m + 1) : Nat) : Int) < 2 ^ 63 →
      (∃ s ∈ w.db.subscriptions, s.ID = d.SubscriptionID) →
      w.queue = [t] → t.payload = L.uuidString id →
      (processQueue uuidParse L config env fuel k w).1.queue = [] ∧
      (processQueue uuidParse L config env fuel k w).2.map (fun x => x.processIn)
        = t.processIn :: (List.range' (c + 1) m).map (retryDelay config) ∧
      PostgresRepository.GetWebhookDelivery none
        (processQueue uuidParse L config env fuel k w).1.db id
        = .ok { d with
            Status := StatusFailed, NextRetryAt := none,
            RetryCount := ((c + (m + 1) : Nat) : Int) } ∧
      ∃ as : List DeliveryAttempt,
        (processQueue uuidParse L config env fuel k w).1.db.attempts = w.db.attempts ++ as ∧
        (∀ a ∈ as, a.DeliveryID = id) ∧
        as.map (fun a => (a.AttemptNumber, a.Status))
          = (List.range' (c + 1) (m + 1)).map (fun (i : Nat) => ((i : Int), StatusFailed)) := by
  intro m
  induction m with
  | zero =>
    intro k fuel w d t c hfuel hGet hrc hmax hbound hSubEx hQ ht
    obtain ⟨fuel', rfl⟩ : ∃ f, fuel = f + 1 := ⟨fuel - 1, by omega⟩
    rw [processQueue_step uuidParse L config env fuel' k w id t [] hParse hQ ht]
    have hwrap : wrapInt (d.RetryCount + 1) = d.RetryCount + 1 :=
      wrapInt_of_range _ (by omega) (by push_cast at hbound; omega)
    obtain ⟨a, req, cache, ha1, ha2, ha3, hcase⟩ :=
      DeliverWebhook_run_failure L config (env k) { w with queue := [] } id d (hEnv k).1 hGet
        hSubEx (hEnv k).2
    rw [hwrap] at hcase ha2
    rcases hcase with ⟨_, hrun⟩ | ⟨hlt, _⟩ | ⟨hlt, _⟩
    · rw [hrun]
      simp only []
      rw [processQueue_empty _ _ _ _ _ _ _ rfl]
      refine ⟨rfl, by simp, ?_, [a], rfl, ?_, ?_⟩
      · have := GetWebhookDelivery_setRow w.db.subscriptions w.db.deliveries w.db.attempts
          (w.db.attempts ++ [a]) id d StatusFailed none (d.RetryCount + 1) hGet
        rw [this, hrc]
        push_cast
        rfl
      · intro b hb
        rw [List.mem_singleton.mp hb]; exact ha1
      · simp [ha2, ha3, hrc]
    · rw [hmax, hrc] at hlt; push_cast at hlt; omega
    · rw [hmax, hrc] at hlt; push_cast at hlt; omega
  | succ m ih =>
    intro k fuel w d t c hfuel hGet hrc hmax hbound hSubEx hQ ht
    obtain ⟨fuel', rfl⟩ : ∃ f, fuel = f + 1 := ⟨fuel - 1, by omega⟩
    rw [processQueue_step uuidParse L config env fuel' k w id t [] hParse hQ ht]
    have hwrap : wrapInt (d.RetryCount + 1) = d.RetryCount + 1 :=
      wrapInt_of_range _ (by omega) (by push_cast at hbound; omega)
    obtain ⟨delay, hdelay, hslice⟩ := retry_delay_exists config d.RetryCount hD (by omega)
    replace hslice := hslice (by push_cast at *; omega)
    obtain ⟨a, req, cache, ha1, ha2, ha3, hcase⟩ :=
      DeliverWebhook_run_failure L config (env k) { w with queue := [] } id d (hEnv k).1 hGet
        hSubEx (hEnv k).2
    rw [hwrap] at hcase ha2
    rcases hcase with ⟨hge, _⟩ | ⟨_, hnone, _⟩ | ⟨_, delay2, hslice2, hrun⟩
    · rw [hmax, hrc] at hge; push_cast at hge; omega
    · rw [hslice] at hnone; simp at hnone
    · rw [hslice] at hslice2
      have hd2 : delay2 = delay := (Option.some.inj hslice2).symm
      subst hd2
      rw [hrun]
      simp only [List.nil_append]
      have hGet' := GetWebhookDelivery_setRow w.db.subscriptions w.db.deliveries w.db.attempts
          (w.db.attempts ++ [a]) id d StatusPending (some ((env k).failure.now + delay2))
          (d.RetryCount + 1) hGet
      obtain ⟨h1, h2, h3, as, h4, h5, h6⟩ := ih (k + 1) fuel'
        ⟨⟨w.db.subscriptions,
            w.db.deliveries.map (setRow id StatusPending (some ((env k).failure.now + delay2))
              (d.RetryCount + 1)),
            w.db.attempts ++ [a]⟩, cache, [deliverTask L id (some delay2)], w.sent ++ [req]⟩
        { d with
          Status := StatusPending, NextRetryAt := some ((env k).failure.now + delay2),
          RetryCount := d.RetryCount + 1 }
        (deliverTask L id (some delay2)) (c + 1) (by omega) hGet'
        (by simp only [hrc]; push_cast; ring) (by rw [hmax]; push_cast; ring)
        (by push_cast at hbound ⊢; omega) hSubEx rfl rfl
      have hdel : retryDelay config (c + 1) = some delay2 := by
        have : d.RetryCount.toNat = c := by rw [hrc]; simp
        rw [← this]; exact hdelay
      refine ⟨h1, ?_, ?_, a :: as, ?_, ?_, ?_⟩
      · simp only [List.map_cons, h2]
        rw [List.range'_succ (c + 1) (m)]
        simp only [List.map_cons, hdel, deliverTask]
      · rw [h3]
        congr 1
        have : ((c + 1 + (m + 1) : Nat) : Int) = ((c + (m + 1 + 1) : Nat) : Int) := by
          push_cast; ring
        simp only [this]
      · rw [h4]; simp
      · intro b hb
        rcases List.mem_cons.mp hb with hb | hb
        · rw [hb]; exact ha1
        · exact h5 b hb
      · simp only [List.map_cons, h6, ha2, ha3, hrc]
        rw [List.range'_succ (c + 1) (m + 1)]
        simp

theorem succeeding_loop (uuidParse : GoString → Except GoError UUID) (L : Lib)
    (config : Config) (env : Nat → DeliverEnv) (id : UUID)
    (hParse : uuidParse (L.uuidString id) = .ok id) :
    ∀ (j k fuel : Nat) (w : World) (d : WebhookDelivery) (t : Task) (c : Nat),
      (1 ≤ j → config.RetryDelays ≠ []) →
      j + 1 ≤ fuel →
      PostgresRepository.GetWebhookDelivery none w.db id = .ok d →
      d.RetryCount = (c : Int) → ((c + j : Nat) : Int) < d.MaxRetries →
      d.MaxRetries < 2 ^ 63 →
      (∃ s ∈ w.db.subscriptions, s.ID = d.SubscriptionID) →
      w.queue = [t] → t.payload = L.uuidString id →
      (∀ i, i < j → CallsSucceed (env (k + i)) ∧ DestinationFails (env (k + i))) →
      CallsSucceed (env (k + j)) → DestinationAccepts (env (k + j)) →
      (processQueue uuidParse L config env fuel k w).1.queue = [] ∧
      (processQueue uuidParse L config env fuel k w).2.map (fun x => x.processIn)
        = t.processIn :: (List.range' (c + 1) j).map (retryDelay config) ∧
      (∃ d' : WebhookDelivery,
        PostgresRepository.GetWebhookDelivery none
          (processQueue uuidParse L config env fuel k w).1.db id = .ok d' ∧
        d'.Status = StatusDelivered ∧ d'.RetryCount = ((c + j : Nat) : Int) ∧
        d'.MaxRetries = d.MaxRetries) ∧
      ∃ as : List DeliveryAttempt,
        (processQueue uuidParse L config env fuel k w).1.db.attempts = w.db.attempts ++ as ∧
        (∀ a ∈ as, a.DeliveryID = id) ∧
        as.map (fun a => (a.AttemptNumber, a.Status))
          = (List.range' (c + 1) j).map (fun (i : Nat) => ((i : Int), StatusFailed))
            ++ [(((c + j + 1 : Nat) : Int), StatusSuccess)] := by
  intro j
  induction j with
  | zero =>
    intro k fuel w d t c _ hfuel hGet hrc hlt hbound hSubEx hQ ht _ hC hAcc
    obtain ⟨fuel', rfl⟩ : ∃ f, fuel = f + 1 := ⟨fuel - 1, by omega⟩
    rw [processQueue_step uuidParse L config env fuel' k w id t [] hParse hQ ht]
    have hwrap : wrapInt (d.RetryCount + 1) = d.RetryCount + 1 :=
      wrapInt_of_range _ (by omega) (by push_cast at hlt; omega)
    obtain ⟨code, req, cache, _, _, hrun⟩ :=
      DeliverWebhook_run_success L config (env k) { w with queue := [] } id d hC hGet hSubEx
        hAcc
    rw [hwrap] at hrun
    rw [hrun]
    simp only []
    rw [processQueue_empty _ _ _ _ _ _ _ rfl]
    refine ⟨rfl, by simp, ⟨_, GetWebhookDelivery_setRow w.db.subscriptions w.db.deliveries
      w.db.attempts _ id d StatusDelivered d.NextRetryAt d.RetryCount hGet, rfl,
      by simp [hrc], rfl⟩, _, rfl, ?_, ?_⟩
    · intro b hb
      rw [List.mem_singleton.mp hb]
    · simp [hrc]
  | succ j ih =>
    intro k fuel w d t c hD' hfuel hGet hrc hlt hbound hSubEx hQ ht hFail hC hAcc
    have hD : config.RetryDelays ≠ [] := hD' (by omega)
    obtain ⟨fuel', rfl⟩ : ∃ f, fuel = f + 1 := ⟨fuel - 1, by omega⟩
    rw [processQueue_step uuidParse L config env fuel' k w id t [] hParse hQ ht]
    have hwrap : wrapInt (d.RetryCount + 1) = d.RetryCount + 1 :=
      wrapInt_of_range _ (by omega) (by push_cast at hlt; omega)
    obtain ⟨delay, hdelay, hslice⟩ := retry_delay_exists config d.RetryCount hD (by omega)
    replace hslice := hslice (by push_cast at *; omega)
    have hk := hFail 0 (by omega)
    simp only [Nat.add_zero] at hk
    obtain ⟨a, req, cache, ha1, ha2, ha3, hcase⟩ :=
      DeliverWebhook_run_failure L config (env k) { w with queue := [] } id d hk.1 hGet
        hSubEx hk.2
    rw [hwrap] at hcase ha2
    rcases hcase with ⟨hge, _⟩ | ⟨_, hnone, _⟩ | ⟨_, delay2, hslice2, hrun⟩
    · rw [hrc] at hge; push_cast at hlt; omega
    · rw [hslice] at hnone; simp at hnone
    · rw [hslice] at hslice2
      have hd2 : delay2 = delay := (Option.some.inj hslice2).symm
      subst hd2
      rw [hrun]
      simp only [List.nil_append]
      have hGet' := GetWebhookDelivery_setRow w.db.subscriptions w.db.deliveries w.db.attempts
          (w.db.attempts ++ [a]) id d StatusPending (some ((env k).failure.now + delay2))
          (d.RetryCount + 1) hGet
      have hshift : k + 1 + j = k + (j + 1) := by omega
      obtain ⟨h1, h2, ⟨d', hd1, hd2, hd3, hd4⟩, as, h4, h5, h6⟩ := ih (k + 1) fuel'
        ⟨⟨w.db.subscriptions,
            w.db.deliveries.map (setRow id StatusPending (some ((env k).failure.now + delay2))
              (d.RetryCount + 1)),
            w.db.attempts ++ [a]⟩, cache, [deliverTask L id (some delay2)], w.sent ++ [req]⟩
        { d with
          Status := StatusPending, NextRetryAt := some ((env k).failure.now + delay2),
          RetryCount := d.RetryCount + 1 }
        (deliverTask L id (some delay2)) (c + 1) (fun _ => hD) (by omega) hGet'
        (by simp only [hrc]; push_cast; ring)
        (by simp only []; push_cast at hlt ⊢; omega) hbound hSubEx rfl rfl
        (fun i hi => by
          have := hFail (i + 1) (by omega)
          rw [show k + 1 + i = k + (i + 1) by omega]; exact this)
        (by rw [hshift]; exact hC) (by rw [hshift]; exact hAcc)
      have hdel : retryDelay config (c + 1) = some delay2 := by
        have : d.RetryCount.toNat = c := by rw [hrc]; simp
        rw [← this]; exact hdelay
      refine ⟨h1, ?_, ⟨d', hd1, hd2, ?_, hd4⟩, a :: as, ?_, ?_, ?_⟩
      · simp only [List.map_cons, h2]
        rw [List.range'_succ (c + 1) j]
        simp only [List.map_cons, hdel, deliverTask]
      · rw [hd3]; push_cast; ring
      · rw [h4]; simp
      · intro b hb
        rcases List.mem_cons.mp hb with hb | hb
        · rw [hb]; exact ha1
        · exact h5 b hb
      · simp only [List.map_cons, h6, ha2, ha3, hrc]
        rw [List.range'_succ (c + 1) j]
        have : ((c + 1 + j + 1 : Nat) : Int) = ((c + (j + 1) + 1 : Nat) : Int) := by
          push_cast; ring
        simp [this]

theorem oneTo_map (n : Nat) (s : GoString) :
    (oneTo n).map (fun i => (i, s)) = (List.range' 1 n).map (fun (i : Nat) => ((i : Int), s)) := by
  unfold oneTo
  rw [List.map_map]
  rfl

/-- C17. Exhausted retries: for `max_retries = N ≥ 1` and a non-empty delay list, when the
destination fails on every call, every store and queue operation succeeds and the worker
processes each enqueued task once, starting from the pending delivery with its one task in the
queue, exactly `N` tasks are processed and the queue ends empty (nothing is enqueued after the
`N`-th attempt); the run appends exactly `N` attempts, all of this delivery, numbered
`1, ..., N` and all `FAILED`, and the delivery ends with status `FAILED`, `retry_count = N`
and `next_retry_at = null`.  For `N = 1` and a destination that answers 2xx the single run
appends one `SUCCESS` attempt numbered 1 and the delivery ends `DELIVERED` with nothing
queued. -/
theorem exhausted_retries_scenario (uuidParse : GoString → Except GoError UUID) (L : Lib)
    (config : Config) (env : Nat → DeliverEnv) (id : UUID) (w : World)
    (delivery : WebhookDelivery) (N fuel : Nat)
    (hParse : uuidParse (L.uuidString id) = .ok id)
    (hN : 1 ≤ N) (hD : config.RetryDelays ≠ [])
    (hGet : PostgresRepository.GetWebhookDelivery none w.db id = .ok delivery)
    (hrc : delivery.RetryCount = 0) (hmax : delivery.MaxRetries = (N : Int))
    (hbound : (N : Int) < 2 ^ 63)
    (hSubEx : ∃ s ∈ w.db.subscriptions, s.ID = delivery.SubscriptionID)
    (hQ : w.queue = [deliverTask L id none]) (hfuel : N ≤ fuel)
    (hCalls : ∀ k, CallsSucceed (env k)) :
    ((∀ k, DestinationFails (env k)) →
      (processQueue uuidParse L config env fuel 0 w).1.queue = [] ∧
      (processQueue uuidParse L config env fuel 0 w).2.length = N ∧
      PostgresRepository.GetWebhookDelivery none
        (processQueue uuidParse L config env fuel 0 w).1.db id
        = .ok { delivery with
            Status := StatusFailed, NextRetryAt := none, RetryCount := (N : Int) } ∧
      ∃ as : List DeliveryAttempt,
        (processQueue uuidParse L config env fuel 0 w).1.db.attempts = w.db.attempts ++ as ∧
        as.length = N ∧ (∀ a ∈ as, a.DeliveryID = id) ∧
        as.map (fun a => (a.AttemptNumber, a.Status))
          = (oneTo N).map (fun i => (i, StatusFailed))) ∧
    (N = 1 → DestinationAccepts (env 0) →
      (processQueue uuidParse L config env fuel 0 w).1.queue = [] ∧
      (processQueue uuidParse L config env fuel 0 w).2.length = 1 ∧
      (∃ d' : WebhookDelivery,
        PostgresRepository.GetWebhookDelivery none
          (processQueue uuidParse L config env fuel 0 w).1.db id = .ok d' ∧
        d'.Status = StatusDelivered ∧ d'.RetryCount = 0) ∧
      ∃ a : DeliveryAttempt,
        (processQueue uuidParse L config env fuel 0 w).1.db.attempts = w.db.attempts ++ [a] ∧
        a.DeliveryID = id ∧ a.AttemptNumber = 1 ∧ a.Status = StatusSuccess) := by
  obtain ⟨m, rfl⟩ : ∃ m, N = m + 1 := ⟨N - 1, by omega⟩
  refine ⟨?_, ?_⟩
  · intro hF
    obtain ⟨h1, h2, h3, as, h4, h5, h6⟩ := failing_loop uuidParse L config env id hParse hD
      (fun j => ⟨hCalls j, hF j⟩) m 0 fuel w delivery (deliverTask L id none) 0 hfuel hGet
      (by simpa using hrc) (by rw [hmax]; push_cast; ring) (by push_cast at hbound ⊢; omega)
      hSubEx hQ rfl
    simp only [Nat.zero_add] at h2 h3 h6
    refine ⟨h1, ?_, h3, as, h4, ?_, h5, ?_⟩
    · have := congrArg List.length h2
      simpa using this
    · have := congrArg List.length h6
      simpa using this
    · rw [h6, oneTo_map]
  · intro hN1 hAcc
    have hm : m = 0 := by omega
    subst hm
    obtain ⟨h1, h2, ⟨d', hd1, hd2, hd3, _⟩, as, h4, h5, h6⟩ :=
      succeeding_loop uuidParse L config env id hParse 0 0 fuel w delivery
        (deliverTask L id none) 0 (fun _ => hD) hfuel hGet (by simpa using hrc) (by rw [hmax]; simp)
        (by rw [hmax]; exact hbound) hSubEx hQ rfl (fun i hi => absurd hi (by omega))
        (hCalls 0) hAcc
    refine ⟨h1, ?_, ⟨d', hd1, hd2, by simpa using hd3⟩, ?_⟩
    · have := congrArg List.length h2
      simpa using this
    · simp only [List.range'_zero, List.map_nil, List.nil_append] at h6
      cases as with
      | nil => simp at h6
      | cons a rest =>
        cases rest with
        | cons b rest2 => simp at h6
        | nil =>
          simp only [List.map_cons, List.map_nil, List.cons.injEq, Prod.mk.injEq,
            and_true] at h6
          exact ⟨a, h4, h5 a (by simp), by simpa using h6.1, h6.2⟩

/-- C17, at a concrete input: delivery 7 with five attempts allowed under the default delays,
against a destination that always answers 500. -/
theorem exhausted_retries_scenario_witness :
    (processQueue demoParse demoLib demoConfig alwaysFailingEnv 5 0 ingestedWorld).1.queue = [] ∧
    (processQueue demoParse demoLib demoConfig alwaysFailingEnv 5 0 ingestedWorld).2.length = 5 ∧
    PostgresRepository.GetWebhookDelivery none
      (processQueue demoParse demoLib demoConfig alwaysFailingEnv 5 0 ingestedWorld).1.db 7
      = .ok { ingestedDelivery with
          Status := StatusFailed, NextRetryAt := none, RetryCount := ((5 : Nat) : Int) } ∧
    ∃ as : List DeliveryAttempt,
      (processQueue demoParse demoLib demoConfig alwaysFailingEnv 5 0
        ingestedWorld).1.db.attempts = ingestedWorld.db.attempts ++ as ∧
      as.length = 5 ∧ (∀ a ∈ as, a.DeliveryID = 7) ∧
      as.map (fun a => (a.AttemptNumber, a.Status))
        = (oneTo 5).map (fun i => (i, StatusFailed)) :=
  (exhausted_retries_scenario demoParse demoLib demoConfig alwaysFailingEnv 7 ingestedWorld
    ingestedDelivery 5 5 rfl (by decide) (by decide) rfl rfl rfl (by decide)
    ⟨demoSub, by decide, rfl⟩ rfl (by decide)
    (fun _ => ⟨rfl, rfl, rfl, rfl, rfl, rfl, rfl, rfl⟩)).1
    (fun _ _ => Or.inr ⟨⟨500, []⟩, rfl, by decide⟩)

/-- C18. Failures followed by a success: for `0 ≤ k < max_retries`, when the destination fails
on its first `k` calls and then answers 2xx, every store and queue operation succeeds and the
worker processes each enqueued task once, starting from the pending delivery with its one
task in the queue, the queue ends empty, the tasks processed are the initial one and `k`
retries, the `i`-th of them enqueued with delay `D[min(i, K) - 1]`; the run appends exactly
`k + 1` attempts, all of this delivery, numbered `1, ..., k + 1`, the first `k` `FAILED` and
the last `SUCCESS`, and the delivery ends `DELIVERED` with `retry_count = k`.  (The delay list
has to be non-empty as soon as there is a retry, `k ≥ 1`.) -/
theorem retries_then_success_scenario (uuidParse : GoString → Except GoError UUID) (L : Lib)
    (config : Config) (env : Nat → DeliverEnv) (id : UUID) (w : World)
    (delivery : WebhookDelivery) (k fuel : Nat)
    (hParse : uuidParse (L.uuidString id) = .ok id)
    (hD : 1 ≤ k → config.RetryDelays ≠ [])
    (hGet : PostgresRepository.GetWebhookDelivery none w.db id = .ok delivery)
    (hrc : delivery.RetryCount = 0) (hk : (k : Int) < delivery.MaxRetries)
    (hbound : delivery.MaxRetries < 2 ^ 63)
    (hSubEx : ∃ s ∈ w.db.subscriptions, s.ID = delivery.SubscriptionID)
    (hQ : w.queue = [deliverTask L id none]) (hfuel : k + 1 ≤ fuel)
    (hCalls : ∀ i, i ≤ k → CallsSucceed (env i))
    (hFail : ∀ i, i < k → DestinationFails (env i)) (hAcc : DestinationAccepts (env k)) :
    (processQueue uuidParse L config env fuel 0 w).1.queue = [] ∧
    (processQueue uuidParse L config env fuel 0 w).2.map (fun x => x.processIn)
      = none :: (List.range' 1 k).map (retryDelay config) ∧
    (∀ i, 1 ≤ i → i ≤ k → ∃ delay, retryDelay config i = some delay) ∧
    (∃ d' : WebhookDelivery,
      PostgresRepository.GetWebhookDelivery none
        (processQueue uuidParse L config env fuel 0 w).1.db id = .ok d' ∧
      d'.Status = StatusDelivered ∧ d'.RetryCount = (k : Int)) ∧
    ∃ as : List DeliveryAttempt,
      (processQueue uuidParse L config env fuel 0 w).1.db.attempts = w.db.attempts ++ as ∧
      as.length = k + 1 ∧ (∀ a ∈ as, a.DeliveryID = id) ∧
      as.map (fun a => (a.AttemptNumber, a.Status))
        = (oneTo k).map (fun i => (i, StatusFailed)) ++ [((k : Int) + 1, StatusSuccess)] := by
  obtain ⟨h1, h2, ⟨d', hd1, hd2, hd3, _⟩, as, h4, h5, h6⟩ :=
    succeeding_loop uuidParse L config env id hParse k 0 fuel w delivery
      (deliverTask L id none) 0 hD hfuel hGet (by simpa using hrc) (by simpa using hk) hbound
      hSubEx hQ rfl
      (fun i hi => by
        rw [Nat.zero_add]; exact ⟨hCalls i (by omega), hFail i hi⟩)
      (by rw [Nat.zero_add]; exact hCalls k (le_refl _)) (by rw [Nat.zero_add]; exact hAcc)
  simp only [Nat.zero_add] at h2 hd3 h6
  refine ⟨h1, h2, ?_, ⟨d', hd1, hd2, hd3⟩, as, h4, ?_, h5, ?_⟩
  · intro i hi1 hik
    obtain ⟨delay, hdel, _⟩ := retry_delay_exists config ((i : Int) - 1) (hD (by omega))
      (by omega)
    refine ⟨delay, ?_⟩
    have : ((i : Int) - 1).toNat + 1 = i := by omega
    rw [this] at hdel
    exact hdel
  · have := congrArg List.length h6
    simpa using this
  · rw [h6, oneTo_map]
    push_cast
    rfl

/-- C18, at a concrete input: default delays, destination answering 500, 500, 200.  The two
retries are enqueued with 10 s and 30 s, the attempts are numbered 1, 2, 3 with statuses
`FAILED`, `FAILED`, `SUCCESS`, and the delivery ends `DELIVERED` with `retry_count = 2`. -/
theorem retries_then_success_scenario_witness :
    ((processQueue demoParse demoLib demoConfig threeStrikeEnv 3 0 ingestedWorld).1.queue = [] ∧
      (processQueue demoParse demoLib demoConfig threeStrikeEnv 3 0 ingestedWorld).2.map
          (fun x => x.processIn)
        = none :: (List.range' 1 2).map (retryDelay demoConfig)) ∧
    (processQueue demoParse demoLib demoConfig threeStrikeEnv 3 0 ingestedWorld).2.map
        (fun x => x.processIn) = [none, some (10 * Second), some (30 * Second)] ∧
    attemptLog (processQueue demoParse demoLib demoConfig threeStrikeEnv 3 0
        ingestedWorld).1.db 7
      = [(1, StatusFailed), (2, StatusFailed), (3, StatusSuccess)] ∧
    PostgresRepository.GetWebhookDelivery none
      (processQueue demoParse demoLib demoConfig threeStrikeEnv 3 0 ingestedWorld).1.db 7
      = .ok { ingestedDelivery with
          Status := StatusDelivered, NextRetryAt := some (1000 + 30 * Second),
          RetryCount := 2 } := by
  have h := retries_then_success_scenario demoParse demoLib demoConfig threeStrikeEnv 7
    ingestedWorld ingestedDelivery 2 3 rfl (fun _ => by decide) rfl rfl (by decide) (by decide)
    ⟨demoSub, by decide, rfl⟩ rfl (by decide)
    (fun _ _ => ⟨rfl, rfl, rfl, rfl, rfl, rfl, rfl, rfl⟩)
    (fun i hi _ => Or.inr ⟨⟨500, []⟩, by simp [threeStrikeEnv, respondingEnv, hi],
      by decide⟩)
    (fun _ => ⟨⟨200, []⟩, rfl, by decide, by decide⟩)
  exact ⟨⟨h.1, h.2.1⟩, by decide, by decide, by rfl⟩

/-! ## The ingest handler and the worker's task handler -/

theorem Handler_IngestWebhook_status (L : Lib) (config : Config) (env : HandlerEnv)
    (w : World) (c : IngestRequest) :
    (Handler.IngestWebhook L config env w c).2 = none ∨
    (Handler.IngestWebhook L config env w c).2 = some StatusBadRequest ∨
    (Handler.IngestWebhook L config env w c).2 = some StatusInternalServerError ∨
    (Handler.IngestWebhook L config env w c).2 = some StatusAccepted := by
  unfold Handler.IngestWebhook
  cases env.uuidParse c.subscriptionID with
  | error e => right; left; rfl
  | ok id =>
    simp only []
    cases env.bindJSON c.body with
    | error e => right; left; rfl
    | ok payload =>
      simp only []
      cases WebhookService.IngestWebhook L config env.ingest w id c.eventType payload
          c.signature with
      | mk w1 out =>
        cases out with
        | panicked => left; rfl
        | returned err =>
          cases err with
          | none => right; right; right; rfl
          | some e =>
            simp only []
            by_cases h : e.msg = goStr "invalid signature"
            · right; left; simp [h]
            · right; right; left; simp [h]

/-- C21: a request to the ingest handler with a well-formed id and body for a subscription
that does not exist (the store answers `sql: no rows in result set`) is answered with 500,
and no request at all is answered with 404, although the annotation of the handler lists
`@Failure 404` and the handlers `GetSubscription`, `UpdateSubscription` and
`GetDeliveryStatus` answer 404 when the service finds nothing. -/
theorem Handler_IngestWebhook_unknown_subscription :
    demoHandlerEnv.uuidParse unknownSubscriptionRequest.subscriptionID = .ok 9 ∧
    PostgresRepository.GetSubscription none subWorld.db 9 = .error sqlErrNoRows ∧
    (Handler.IngestWebhook demoLib demoConfig demoHandlerEnv subWorld
      unknownSubscriptionRequest).2 = some StatusInternalServerError ∧
    ∀ (L : Lib) (config : Config) (env : HandlerEnv) (w : World) (c : IngestRequest),
      (Handler.IngestWebhook L config env w c).2 ≠ some StatusNotFound := by
  refine ⟨rfl, rfl, by decide, ?_⟩
  intro L config env w c
  rcases Handler_IngestWebhook_status L config env w c with h | h | h | h <;>
    rw [h] <;> decide

/-- C24 as stated fails: for a task whose payload is not a UUID, `handleWebhookDelivery`
returns the error of `uuid.Parse`, not nil. -/
theorem handleWebhookDelivery_returns_parse_error :
    demoParse malformedTask.payload = .error (errorsNew "invalid UUID") ∧
    (Worker.handleWebhookDelivery demoParse demoLib demoConfig (respondingEnv 200)
      ingestedWorld malformedTask).2 = Outcome.returned (some (errorsNew "invalid UUID")) ∧
    (Worker.handleWebhookDelivery demoParse demoLib demoConfig (respondingEnv 200)
      ingestedWorld malformedTask).2 ≠ Outcome.returned none := by
  refine ⟨rfl, by decide, by decide⟩

/-- C24, amended. For every task whose payload `uuid.Parse` rejects with an error `err`, the
worker's `handleWebhookDelivery` returns `err` (not nil: the queue is told that the task
failed) and leaves the state as it was: no delivery, attempt, queue entry or cache entry is
touched and no request is sent. -/
theorem handleWebhookDelivery_malformed (uuidParse : GoString → Except GoError UUID)
    (L : Lib) (config : Config) (env : DeliverEnv) (w : World) (task : Task) (err : GoError)
    (hParse : uuidParse task.payload = .error err) :
    Worker.handleWebhookDelivery uuidParse L config env w task
      = (w, Outcome.returned (some err)) := by
  unfold Worker.handleWebhookDelivery
  rw [hParse]

/-- C24 amended, at a concrete input: the payload `not-a-uuid`. -/
theorem handleWebhookDelivery_malformed_witness :
    Worker.handleWebhookDelivery demoParse demoLib demoConfig (respondingEnv 200)
      ingestedWorld malformedTask
      = (ingestedWorld, Outcome.returned (some (errorsNew "invalid UUID"))) :=
  handleWebhookDelivery_malformed demoParse demoLib demoConfig (respondingEnv 200)
    ingestedWorld malformedTask (errorsNew "invalid UUID") rfl

/-! ## Deliveries whose subscription is gone -/

theorem GetSubscription_missing (env : SubEnv) (w : World) (id : UUID)
    (hCache : cacheGet w.cache id env.cacheGetNow = none) (hf : env.repoFault = none)
    (hGone : ∀ s ∈ w.db.subscriptions, s.ID ≠ id) :
    WebhookService.GetSubscription env w id = (w, .error sqlErrNoRows) := by
  unfold WebhookService.GetSubscription
  rw [hCache]
  simp only [PostgresRepository.GetSubscription, hf]
  have hfind : w.db.subscriptions.find? (fun s => s.ID == id) = none := by
    rw [List.find?_eq_none]
    intro s hs
    simpa using hGone s hs
  rw [hfind]

theorem GetWebhookDelivery_fault_none (fault : Option GoError) (db : DB) (id : UUID)
    (delivery : WebhookDelivery)
    (h : PostgresRepository.GetWebhookDelivery fault db id = .ok delivery) :
    PostgresRepository.GetWebhookDelivery none db id = .ok delivery := by
  cases fault with
  | none => exact h
  | some e => simp [PostgresRepository.GetWebhookDelivery] at h

/-- C25 as stated fails: delivery 7 belongs to subscription 1, which is neither stored nor
cached; the run returns `sql: no rows in result set`, records no attempt, enqueues nothing and
leaves the row `PROCESSING` with `retry_count` still 0 and no retry time. -/
theorem DeliverWebhook_orphan_left_processing :
    (WebhookService.DeliverWebhook demoLib demoConfig (respondingEnv 500) orphanWorld 7).2
      = Outcome.returned (some sqlErrNoRows) ∧
    (WebhookService.DeliverWebhook demoLib demoConfig (respondingEnv 500) orphanWorld
      7).1.db.attempts = [] ∧
    (WebhookService.DeliverWebhook demoLib demoConfig (respondingEnv 500) orphanWorld
      7).1.db.deliveries = [processingDelivery] ∧
    processingDelivery.Status = StatusProcessing ∧ processingDelivery.RetryCount = 0 ∧
    processingDelivery.NextRetryAt = none ∧
    (WebhookService.DeliverWebhook demoLib demoConfig (respondingEnv 500) orphanWorld
      7).1.queue = orphanWorld.queue := by
  decide

/-- C25, amended. For every delivery that the store returns and marks `PROCESSING`, and whose
subscription no longer exists (it is neither cached nor stored, and the store answers the
lookup), `DeliverWebhook` returns the error `sql: no rows in result set` of the lookup and
does nothing more: no request is sent, no attempt is recorded, nothing is enqueued,
`retry_count` and `next_retry_at` stay as loaded, and the delivery is left in `PROCESSING`. -/
theorem DeliverWebhook_subscription_missing (L : Lib) (config : Config) (env : DeliverEnv)
    (w : World) (deliveryID : UUID) (delivery : WebhookDelivery)
    (hGet : PostgresRepository.GetWebhookDelivery env.getDeliveryFault w.db deliveryID
      = .ok delivery)
    (hUpd : env.updateProcessingFault = none)
    (hCache : cacheGet w.cache delivery.SubscriptionID env.sub.cacheGetNow = none)
    (hRepo : env.sub.repoFault = none)
    (hGone : ∀ s ∈ w.db.subscriptions, s.ID ≠ delivery.SubscriptionID) :
    WebhookService.DeliverWebhook L config env w deliveryID =
      ({ w with
          db := ⟨w.db.subscriptions,
            w.db.deliveries.map (setRow deliveryID StatusProcessing delivery.NextRetryAt
              delivery.RetryCount),
            w.db.attempts⟩ },
        Outcome.returned (some sqlErrNoRows)) ∧
    PostgresRepository.GetWebhookDelivery none
      (WebhookService.DeliverWebhook L config env w deliveryID).1.db deliveryID
      = .ok { delivery with Status := StatusProcessing } := by
  have hrun : WebhookService.DeliverWebhook L config env w deliveryID =
      ({ w with
          db := ⟨w.db.subscriptions,
            w.db.deliveries.map (setRow deliveryID StatusProcessing delivery.NextRetryAt
              delivery.RetryCount),
            w.db.attempts⟩ },
        Outcome.returned (some sqlErrNoRows)) := by
    obtain ⟨hid, _⟩ := GetWebhookDelivery_ok _ _ _ _ hGet
    subst hid
    have hU : PostgresRepository.UpdateWebhookDelivery env.updateProcessingFault w.db
        { delivery with Status := StatusProcessing } =
        (⟨w.db.subscriptions,
          w.db.deliveries.map (setRow delivery.ID StatusProcessing delivery.NextRetryAt
            delivery.RetryCount), w.db.attempts⟩, none) := by
      rw [hUpd]; rfl
    unfold WebhookService.DeliverWebhook
    rw [hGet]
    simp only []
    rw [hU]
    simp only []
    rw [GetSubscription_missing env.sub
      { w with
        db := ⟨w.db.subscriptions,
          w.db.deliveries.map (setRow delivery.ID StatusProcessing delivery.NextRetryAt
            delivery.RetryCount), w.db.attempts⟩ }
      delivery.SubscriptionID hCache hRepo hGone]
  refine ⟨hrun, ?_⟩
  rw [hrun]
  exact GetWebhookDelivery_setRow w.db.subscriptions w.db.deliveries w.db.attempts
    w.db.attempts deliveryID delivery StatusProcessing delivery.NextRetryAt delivery.RetryCount
    (GetWebhookDelivery_fault_none _ _ _ _ hGet)

/-- C25 amended, at a concrete input: delivery 7 of the deleted subscription 1. -/
theorem DeliverWebhook_subscription_missing_witness :
    WebhookService.DeliverWebhook demoLib demoConfig (respondingEnv 500) orphanWorld 7 =
      ({ orphanWorld with
          db := ⟨orphanWorld.db.subscriptions,
            orphanWorld.db.deliveries.map (setRow 7 StatusProcessing
              ingestedDelivery.NextRetryAt ingestedDelivery.RetryCount),
            orphanWorld.db.attempts⟩ },
        Outcome.returned (some sqlErrNoRows)) ∧
    PostgresRepository.GetWebhookDelivery none
      (WebhookService.DeliverWebhook demoLib demoConfig (respondingEnv 500) orphanWorld
        7).1.db 7
      = .ok { ingestedDelivery with Status := StatusProcessing } :=
  DeliverWebhook_subscription_missing demoLib demoConfig (respondingEnv 500) orphanWorld 7
    ingestedDelivery rfl rfl rfl rfl (by decide)

/-! ## What a nil return of `DeliverWebhook` guarantees -/

theorem handleDeliveryFailure_outcome_indep (L : Lib) (config : Config) (env : FailureEnv)
    (w w' : World) (delivery : WebhookDelivery) (err err' : GoError)
    (statusCode statusCode' : Option Int) :
    (WebhookService.handleDeliveryFailure L config env w delivery err statusCode).outcome
      = (WebhookService.handleDeliveryFailure L config env w' delivery err'
          statusCode').outcome := by
  unfold WebhookService.handleDeliveryFailure
  simp only []
  split_ifs
  · cases env.updateFault <;> simp [PostgresRepository.UpdateWebhookDelivery]
  · cases sliceIndex config.RetryDelays
        (retryDelayIndex config (wrapInt (delivery.RetryCount + 1))) with
    | none => rfl
    | some delay =>
      cases env.updateFault <;> cases env.enqueueFault <;>
        simp [PostgresRepository.UpdateWebhookDelivery, clientEnqueue]

theorem handleDeliveryFailure_nil (L : Lib) (config : Config) (env : FailureEnv)
    (w : World) (delivery : WebhookDelivery) (err : GoError) (statusCode : Option Int)
    (h : (WebhookService.handleDeliveryFailure L config env w delivery err statusCode).outcome
      = Outcome.returned none) :
    env.updateFault = none ∧
    ((wrapInt (delivery.RetryCount + 1) ≥ delivery.MaxRetries ∧
      (WebhookService.handleDeliveryFailure L config env w delivery err
        statusCode).world.db.deliveries =
          w.db.deliveries.map (setRow delivery.ID StatusFailed none
            (wrapInt (delivery.RetryCount + 1))) ∧
      (WebhookService.handleDeliveryFailure L config env w delivery err
        statusCode).world.queue = w.queue) ∨
    (wrapInt (delivery.RetryCount + 1) < delivery.MaxRetries ∧ env.enqueueFault = none ∧
      ∃ delay,
        sliceIndex config.RetryDelays
          (retryDelayIndex config (wrapInt (delivery.RetryCount + 1))) = some delay ∧
        (WebhookService.handleDeliveryFailure L config env w delivery err
          statusCode).world.db.deliveries =
            w.db.deliveries.map (setRow delivery.ID StatusPending (some (env.now + delay))
              (wrapInt (delivery.RetryCount + 1))) ∧
        (WebhookService.handleDeliveryFailure L config env w delivery err
          statusCode).world.queue = w.queue ++ [deliverTask L delivery.ID (some delay)])) := by
  revert h
  unfold WebhookService.handleDeliveryFailure
  simp only []
  by_cases hr : wrapInt (delivery.RetryCount + 1) ≥ delivery.MaxRetries
  · simp only [hr, if_true]
    cases hU : env.updateFault with
    | some e => simp [PostgresRepository.UpdateWebhookDelivery]
    | none =>
      intro _
      refine ⟨rfl, Or.inl ⟨trivial, ?_, ?_⟩⟩
      · simp [PostgresRepository.UpdateWebhookDelivery, setRow]
      · simp [PostgresRepository.UpdateWebhookDelivery]
  · have hlt : wrapInt (delivery.RetryCount + 1) < delivery.MaxRetries := by omega
    simp only [hr, if_false]
    cases hI : sliceIndex config.RetryDelays
        (retryDelayIndex config (wrapInt (delivery.RetryCount + 1))) with
    | none => simp
    | some delay =>
      cases hU : env.updateFault with
      | some e => simp [PostgresRepository.UpdateWebhookDelivery]
      | none =>
        cases hQ : env.enqueueFault with
        | some e => simp [PostgresRepository.UpdateWebhookDelivery, clientEnqueue]
        | none =>
          intro _
          refine ⟨rfl, Or.inr ⟨hlt, rfl, delay, rfl, ?_, ?_⟩⟩
          · simp [PostgresRepository.UpdateWebhookDelivery, clientEnqueue, setRow]
          · simp [PostgresRepository.UpdateWebhookDelivery, clientEnqueue]

theorem DeliverWebhook_outcome_indep (L : Lib) (config : Config) (env : DeliverEnv)
    (w : World) (deliveryID : UUID) (f : Option GoError) :
    (WebhookService.DeliverWebhook L config { env with createAttemptFault := f } w
      deliveryID).2 = (WebhookService.DeliverWebhook L config env w deliveryID).2 := by
  unfold WebhookService.DeliverWebhook
  simp only []
  cases PostgresRepository.GetWebhookDelivery env.getDeliveryFault w.db deliveryID with
  | error e => rfl
  | ok delivery =>
    simp only []
    cases PostgresRepository.UpdateWebhookDelivery env.updateProcessingFault w.db
        { delivery with Status := StatusProcessing } with
    | mk db e =>
      cases e with
      | some e => rfl
      | none =>
        simp only []
        cases WebhookService.GetSubscription env.sub { w with db := db }
            delivery.SubscriptionID with
        | mk w1 res =>
          cases res with
          | error e => rfl
          | ok subscription =>
            simp only []
            cases NewRequestWithContext env.newRequestFault (goStr "POST")
                subscription.TargetURL with
            | error e => rfl
            | ok req =>
              simp only []
              cases env.clientDo (prepareRequest L { delivery with Status := StatusProcessing }
                  subscription req) with
              | error e => exact handleDeliveryFailure_outcome_indep _ _ _ _ _ _ _ _ _ _
              | ok resp =>
                simp only []
                split_ifs
                · rfl
                · exact handleDeliveryFailure_outcome_indep _ _ _ _ _ _ _ _ _ _

theorem DeliverWebhook_nil_cases (L : Lib) (config : Config) (env : DeliverEnv) (w : World)
    (deliveryID : UUID)
    (hnil : (WebhookService.DeliverWebhook L config env w deliveryID).2
      = Outcome.returned none) :
    ∃ delivery : WebhookDelivery,
      PostgresRepository.GetWebhookDelivery env.getDeliveryFault w.db deliveryID
        = .ok delivery ∧
      ((∃ (subscription : Subscription) (resp : Response),
          env.clientDo (outboundRequest L delivery subscription) = .ok resp ∧
          200 ≤ resp.StatusCode ∧ resp.StatusCode < 300) ∨
        (env.failure.updateFault = none ∧
          ((wrapInt (delivery.RetryCount + 1) ≥ delivery.MaxRetries ∧
            (WebhookService.DeliverWebhook L config env w deliveryID).1.db.deliveries =
              w.db.deliveries.map (setRow deliveryID StatusFailed none
                (wrapInt (delivery.RetryCount + 1))) ∧
            (WebhookService.DeliverWebhook L config env w deliveryID).1.queue = w.queue) ∨
          (wrapInt (delivery.RetryCount + 1) < delivery.MaxRetries ∧
            env.failure.enqueueFault = none ∧
            ∃ delay,
              (WebhookService.DeliverWebhook L config env w deliveryID).1.db.deliveries =
                w.db.deliveries.map (setRow deliveryID StatusPending
                  (some (env.failure.now + delay)) (wrapInt (delivery.RetryCount + 1))) ∧
              (WebhookService.DeliverWebhook L config env w deliveryID).1.queue =
                w.queue ++ [deliverTask L deliveryID (some delay)])))) := by
  have htail : ∀ (delivery : WebhookDelivery) (W : World) (err : GoError) (sc : Option Int),
      delivery.ID = deliveryID →
      W.db.deliveries = w.db.deliveries.map (setRow deliveryID StatusProcessing
        delivery.NextRetryAt delivery.RetryCount) →
      W.queue = w.queue →
      (WebhookService.handleDeliveryFailure L config env.failure W
        { delivery with Status := StatusProcessing } err sc).outcome = Outcome.returned none →
      env.failure.updateFault = none ∧
        ((wrapInt (delivery.RetryCount + 1) ≥ delivery.MaxRetries ∧
          (WebhookService.handleDeliveryFailure L config env.failure W
            { delivery with Status := StatusProcessing } err sc).world.db.deliveries =
            w.db.deliveries.map (setRow deliveryID StatusFailed none
              (wrapInt (delivery.RetryCount + 1))) ∧
          (WebhookService.handleDeliveryFailure L config env.failure W
            { delivery with Status := StatusProcessing } err sc).world.queue = w.queue) ∨
        (wrapInt (delivery.RetryCount + 1) < delivery.MaxRetries ∧
          env.failure.enqueueFault = none ∧
          ∃ delay,
            (WebhookService.handleDeliveryFailure L config env.failure W
              { delivery with Status := StatusProcessing } err sc).world.db.deliveries =
              w.db.deliveries.map (setRow deliveryID StatusPending
                (some (env.failure.now + delay)) (wrapInt (delivery.RetryCount + 1))) ∧
            (WebhookService.handleDeliveryFailure L config env.failure W
              { delivery with Status := StatusProcessing } err sc).world.queue =
              w.queue ++ [deliverTask L deliveryID (some delay)])) := by
    intro delivery W err sc hid hW hQ h
    subst hid
    obtain ⟨hU, hcase⟩ := handleDeliveryFailure_nil L config env.failure W
      { delivery with Status := StatusProcessing } err sc h
    refine ⟨hU, ?_⟩
    simp only [] at hcase
    rcases hcase with ⟨hr, hdb, hq⟩ | ⟨hr, hE, delay, _, hdb, hq⟩
    · refine Or.inl ⟨hr, ?_, by rw [hq, hQ]⟩
      rw [hdb, hW, map_setRow_setRow]
    · refine Or.inr ⟨hr, hE, delay, ?_, by rw [hq, hQ]⟩
      rw [hdb, hW, map_setRow_setRow]
  revert hnil
  unfold WebhookService.DeliverWebhook
  cases hGet : PostgresRepository.GetWebhookDelivery env.getDeliveryFault w.db deliveryID with
  | error err => simp
  | ok delivery =>
    obtain ⟨hid, _⟩ := GetWebhookDelivery_ok _ _ _ _ hGet
    simp only []
    cases hUf : env.updateProcessingFault with
    | some e => simp [PostgresRepository.UpdateWebhookDelivery]
    | none =>
      rw [UpdateWebhookDelivery_none_pair]
      simp only []
      cases hSub : WebhookService.GetSubscription env.sub
          { w with
            db := ⟨w.db.subscriptions,
              w.db.deliveries.map (setRow delivery.ID StatusProcessing delivery.NextRetryAt
                delivery.RetryCount), w.db.attempts⟩ }
          delivery.SubscriptionID with
      | mk w1 res =>
        obtain ⟨hdb, hq, _⟩ := GetSubscription_frame _ _ _ _ _ hSub
        simp only [] at hdb hq
        have hdels : w1.db.deliveries = w.db.deliveries.map (setRow deliveryID
            StatusProcessing delivery.NextRetryAt delivery.RetryCount) := by
          rw [hdb, hid]
        cases res with
        | error err => simp
        | ok subscription =>
          simp only []
          cases hN : env.newRequestFault with
          | some e =>
            simp only [NewRequestWithContext]
            intro hnil
            exact ⟨delivery, rfl, Or.inr (htail delivery w1 e none hid hdels hq hnil)⟩
          | none =>
            simp only [NewRequestWithContext]
            cases hDo : env.clientDo (prepareRequest L
                { delivery with Status := StatusProcessing } subscription
                ⟨goStr "POST", subscription.TargetURL, NoBody, none, 0, []⟩) with
            | error err =>
              simp only []
              intro hnil
              refine ⟨delivery, rfl, Or.inr (htail delivery _ err none hid ?_ hq hnil)⟩
              simp only [CreateDeliveryAttempt_deliveries, hdels]
            | ok resp =>
              simp only []
              by_cases hc : resp.StatusCode ≥ 200 ∧ resp.StatusCode < 300
              · intro _
                exact ⟨delivery, rfl, Or.inl ⟨subscription, resp, hDo, hc.1, hc.2⟩⟩
              · simp only [hc, if_false]
                intro hnil
                refine ⟨delivery, rfl, Or.inr (htail delivery _ _ _ hid ?_ hq hnil)⟩
                simp only [CreateDeliveryAttempt_deliveries, hdels]

/-- C23 as stated fails: the destination answers 500 and the insert of the attempt row fails;
`DeliverWebhook` logs the failed insert, persists `PENDING` and returns nil, so the task is
acknowledged although no attempt row of this run exists. -/
theorem DeliverWebhook_nil_without_attempt :
    insertFailsEnv.createAttemptFault = some (errorsNew "db down") ∧
    (WebhookService.DeliverWebhook demoLib demoConfig insertFailsEnv ingestedWorld 7).2
      = Outcome.returned none ∧
    (WebhookService.DeliverWebhook demoLib demoConfig insertFailsEnv ingestedWorld
      7).1.db.attempts = [] := by
  decide

/-- C23, amended. Whenever `DeliverWebhook` returns nil (so the task is acknowledged), the
delivery was loaded and either the destination answered the request with a 2xx status, or
the write of the delivery's resulting state went through and that state is stored: `FAILED`
with no retry time when the budget is exhausted, otherwise `PENDING` with `next_retry_at`
and the retry task enqueued; so a failure of that write is never followed by nil.  The
insert of the attempt row plays no part in the result: with any other outcome of that insert
`DeliverWebhook` returns nil as well. -/
theorem DeliverWebhook_nil_persisted (L : Lib) (config : Config) (env : DeliverEnv)
    (w : World) (deliveryID : UUID)
    (hnil : (WebhookService.DeliverWebhook L config env w deliveryID).2
      = Outcome.returned none) :
    (∃ delivery : WebhookDelivery,
      PostgresRepository.GetWebhookDelivery env.getDeliveryFault w.db deliveryID
        = .ok delivery ∧
      ((∃ (subscription : Subscription) (resp : Response),
          env.clientDo (outboundRequest L delivery subscription) = .ok resp ∧
          200 ≤ resp.StatusCode ∧ resp.StatusCode < 300) ∨
        (env.failure.updateFault = none ∧
          ((wrapInt (delivery.RetryCount + 1) ≥ delivery.MaxRetries ∧
            (WebhookService.DeliverWebhook L config env w deliveryID).1.db.deliveries =
              w.db.deliveries.map (setRow deliveryID StatusFailed none
                (wrapInt (delivery.RetryCount + 1))) ∧
            (WebhookService.DeliverWebhook L config env w deliveryID).1.queue = w.queue) ∨
          (wrapInt (delivery.RetryCount + 1) < delivery.MaxRetries ∧
            env.failure.enqueueFault = none ∧
            ∃ delay,
              (WebhookService.DeliverWebhook L config env w deliveryID).1.db.deliveries =
                w.db.deliveries.map (setRow deliveryID StatusPending
                  (some (env.failure.now + delay)) (wrapInt (delivery.RetryCount + 1))) ∧
              (WebhookService.DeliverWebhook L config env w deliveryID).1.queue =
                w.queue ++ [deliverTask L deliveryID (some delay)]))))) ∧
    ∀ f : Option GoError,
      (WebhookService.DeliverWebhook L config { env with createAttemptFault := f } w
        deliveryID).2 = Outcome.returned none :=
  ⟨DeliverWebhook_nil_cases L config env w deliveryID hnil,
    fun f => by rw [DeliverWebhook_outcome_indep, hnil]⟩

/-- C23 amended, at a concrete input: the first run on delivery 7 against a destination that
answers 500; nil is returned, the row is `PENDING` with a retry time and the retry is
queued. -/
theorem DeliverWebhook_nil_persisted_witness :
    (∃ delivery : WebhookDelivery,
      PostgresRepository.GetWebhookDelivery (respondingEnv 500).getDeliveryFault
        ingestedWorld.db 7 = .ok delivery ∧
      ((∃ (subscription : Subscription) (resp : Response),
          (respondingEnv 500).clientDo (outboundRequest demoLib delivery subscription)
            = .ok resp ∧
          200 ≤ resp.StatusCode ∧ resp.StatusCode < 300) ∨
        ((respondingEnv 500).failure.updateFault = none ∧
          ((wrapInt (delivery.RetryCount + 1) ≥ delivery.MaxRetries ∧
            (WebhookService.DeliverWebhook demoLib demoConfig (respondingEnv 500)
              ingestedWorld 7).1.db.deliveries =
              ingestedWorld.db.deliveries.map (setRow 7 StatusFailed none
                (wrapInt (delivery.RetryCount + 1))) ∧
            (WebhookService.DeliverWebhook demoLib demoConfig (respondingEnv 500)
              ingestedWorld 7).1.queue = ingestedWorld.queue) ∨
          (wrapInt (delivery.RetryCount + 1) < delivery.MaxRetries ∧
            (respondingEnv 500).failure.enqueueFault = none ∧
            ∃ delay,
              (WebhookService.DeliverWebhook demoLib demoConfig (respondingEnv 500)
                ingestedWorld 7).1.db.deliveries =
                ingestedWorld.db.deliveries.map (setRow 7 StatusPending
                  (some ((respondingEnv 500).failure.now + delay))
                  (wrapInt (delivery.RetryCount + 1))) ∧
              (WebhookService.DeliverWebhook demoLib demoConfig (respondingEnv 500)
                ingestedWorld 7).1.queue =
                ingestedWorld.queue ++ [deliverTask demoLib 7 (some delay)]))))) ∧
    ∀ f : Option GoError,
      (WebhookService.DeliverWebhook demoLib demoConfig
        { respondingEnv 500 with createAttemptFault := f } ingestedWorld 7).2
        = Outcome.returned none :=
  DeliverWebhook_nil_persisted demoLib demoConfig (respondingEnv 500) ingestedWorld 7
    (by decide)

/-! ## The attempt record of a run -/

/-- C22. The attempts table after a run of `DeliverWebhook` is the table before it followed by
at most one record, and that record has `delivery_id` equal to the delivery processed,
`attempt_number` equal to the loaded `retry_count` plus 1 (in `int` arithmetic, so the plain
sum whenever it fits an `int`), `status_code` equal to the status of the response when
`client.Do` returned one and null when it returned an error, status `SUCCESS` with
`error_details` null on a 2xx response and status `FAILED` otherwise; the record is there
whenever the request was handed to the client and the insert went through. -/
theorem DeliverWebhook_attempt_record (L : Lib) (config : Config) (env : DeliverEnv)
    (w : World) (deliveryID : UUID) :
    ∃ extra : List DeliveryAttempt,
      (WebhookService.DeliverWebhook L config env w deliveryID).1.db.attempts
        = w.db.attempts ++ extra ∧
      extra.length ≤ 1 ∧
      (∀ a ∈ extra, ∃ (delivery : WebhookDelivery) (subscription : Subscription),
        PostgresRepository.GetWebhookDelivery env.getDeliveryFault w.db deliveryID
          = .ok delivery ∧
        a.DeliveryID = deliveryID ∧
        a.AttemptNumber = wrapInt (delivery.RetryCount + 1) ∧
        (-2 ^ 63 ≤ delivery.RetryCount + 1 → delivery.RetryCount + 1 < 2 ^ 63 →
          a.AttemptNumber = delivery.RetryCount + 1) ∧
        (a.Status = StatusSuccess → a.ErrorDetails = none) ∧
        ((∃ resp : Response,
            env.clientDo (outboundRequest L delivery subscription) = .ok resp ∧
            a.StatusCode = some resp.StatusCode ∧
            (200 ≤ resp.StatusCode ∧ resp.StatusCode < 300 →
              a.Status = StatusSuccess ∧ a.ErrorDetails = none) ∧
            (¬ (200 ≤ resp.StatusCode ∧ resp.StatusCode < 300) → a.Status = StatusFailed)) ∨
          (∃ err : GoError,
            env.clientDo (outboundRequest L delivery subscription) = .error err ∧
            a.StatusCode = none ∧ a.Status = StatusFailed))) ∧
      (env.createAttemptFault = none →
        (WebhookService.DeliverWebhook L config env w deliveryID).1.sent ≠ w.sent →
        extra ≠ []) := by
  have hcreate : ∀ (db : DB) (a : DeliveryAttempt),
      ∃ extra : List DeliveryAttempt,
        (PostgresRepository.CreateDeliveryAttempt env.createAttemptFault db a).1.attempts
          = db.attempts ++ extra ∧
        (extra = [] ∨ extra = [a]) ∧ (env.createAttemptFault = none → extra = [a]) := by
    intro db a
    cases env.createAttemptFault with
    | some e =>
      exact ⟨[], by simp [PostgresRepository.CreateDeliveryAttempt], Or.inl rfl, by simp⟩
    | none =>
      exact ⟨[a], by simp [PostgresRepository.CreateDeliveryAttempt], Or.inr rfl, by simp⟩
  have hFS : StatusFailed ≠ StatusSuccess := by decide
  have hlen : ∀ (extra : List DeliveryAttempt) (a : DeliveryAttempt),
      (extra = [] ∨ extra = [a]) → extra.length ≤ 1 := by
    intro extra a h
    rcases h with h | h <;> simp [h]
  have hmem : ∀ (extra : List DeliveryAttempt) (a b : DeliveryAttempt),
      (extra = [] ∨ extra = [a]) → b ∈ extra → b = a := by
    intro extra a b h hb
    rcases h with h | h
    · rw [h] at hb; simp at hb
    · rw [h] at hb; simpa using hb
  cases hGet : PostgresRepository.GetWebhookDelivery env.getDeliveryFault w.db deliveryID with
  | error err =>
    unfold WebhookService.DeliverWebhook
    rw [hGet]
    exact ⟨[], by simp, by simp, by simp, fun _ h => absurd rfl h⟩
  | ok delivery =>
    obtain ⟨hid, _⟩ := GetWebhookDelivery_ok _ _ _ _ hGet
    subst hid
    have hfield : ∀ (a : DeliveryAttempt),
        a.AttemptNumber = wrapInt (delivery.RetryCount + 1) →
        (-2 ^ 63 ≤ delivery.RetryCount + 1 → delivery.RetryCount + 1 < 2 ^ 63 →
          a.AttemptNumber = delivery.RetryCount + 1) := by
      intro a ha h1 h2
      rw [ha, wrapInt_of_range _ h1 h2]
    unfold WebhookService.DeliverWebhook
    rw [hGet]
    simp only []
    cases hUf : env.updateProcessingFault with
    | some e =>
      simp only [PostgresRepository.UpdateWebhookDelivery]
      exact ⟨[], by simp, by simp, by simp, fun _ h => absurd rfl h⟩
    | none =>
      rw [UpdateWebhookDelivery_none_pair]
      simp only []
      cases hSub : WebhookService.GetSubscription env.sub
          { w with
            db := ⟨w.db.subscriptions,
              w.db.deliveries.map (setRow delivery.ID StatusProcessing delivery.NextRetryAt
                delivery.RetryCount), w.db.attempts⟩ }
          delivery.SubscriptionID with
      | mk w1 res =>
        obtain ⟨hdb, _, hs⟩ := GetSubscription_frame _ _ _ _ _ hSub
        simp only [] at hdb hs
        have hatt : w1.db.attempts = w.db.attempts := by rw [hdb]
        cases res with
        | error err => exact ⟨[], by simp [hatt], by simp, by simp, fun _ h => absurd hs h⟩
        | ok subscription =>
          simp only []
          cases hN : env.newRequestFault with
          | some e =>
            simp only [NewRequestWithContext]
            refine ⟨[], ?_, by simp, by simp, fun _ h => absurd ?_ h⟩
            · simp only [handleDeliveryFailure_attempts, hatt, List.append_nil]
            · simp only [handleDeliveryFailure_sent, hs]
          | none =>
            simp only [NewRequestWithContext]
            cases hDo : env.clientDo (prepareRequest L
                { delivery with Status := StatusProcessing } subscription
                ⟨goStr "POST", subscription.TargetURL, NoBody, none, 0, []⟩) with
            | error err =>
              simp only []
              obtain ⟨extra, hE, hE2, hE3⟩ := hcreate w1.db
                { newAttempt env delivery.ID { delivery with Status := StatusProcessing } with
                  Status := StatusFailed, ErrorDetails := some err.msg }
              refine ⟨extra, ?_, hlen _ _ hE2, ?_, fun hC _ => by rw [hE3 hC]; simp⟩
              · rw [handleDeliveryFailure_attempts]
                simp only []
                rw [hE, hatt]
              · intro b hb
                rw [hmem _ _ _ hE2 hb]
                refine ⟨delivery, subscription, rfl, rfl, rfl, hfield _ rfl, ?_,
                  Or.inr ⟨err, hDo, rfl, rfl⟩⟩
                intro h
                exact absurd h hFS
            | ok resp =>
              simp only []
              by_cases hc : resp.StatusCode ≥ 200 ∧ resp.StatusCode < 300
              · simp only [hc, and_self, if_true]
                obtain ⟨extra, hE, hE2, hE3⟩ := hcreate w1.db
                  { newAttempt env delivery.ID { delivery with Status := StatusProcessing } with
                    StatusCode := some resp.StatusCode, Status := StatusSuccess }
                refine ⟨extra, ?_, hlen _ _ hE2, ?_, fun hC _ => by rw [hE3 hC]; simp⟩
                · rw [UpdateWebhookDelivery_attempts]
                  rw [hE, hatt]
                · intro b hb
                  rw [hmem _ _ _ hE2 hb]
                  exact ⟨delivery, subscription, rfl, rfl, rfl, hfield _ rfl, fun _ => rfl,
                    Or.inl ⟨resp, hDo, rfl, fun _ => ⟨rfl, rfl⟩, fun h => absurd hc h⟩⟩
              · simp only [hc, if_false]
                obtain ⟨extra, hE, hE2, hE3⟩ := hcreate w1.db
                  { newAttempt env delivery.ID { delivery with Status := StatusProcessing } with
                    StatusCode := some resp.StatusCode, Status := StatusFailed,
                    ErrorDetails := some (goStr "HTTP " ++ formatInt resp.StatusCode ++
                      goStr ": " ++ resp.Body) }
                refine ⟨extra, ?_, hlen _ _ hE2, ?_, fun hC _ => by rw [hE3 hC]; simp⟩
                · rw [handleDeliveryFailure_attempts]
                  simp only []
                  rw [hE, hatt]
                · intro b hb
                  rw [hmem _ _ _ hE2 hb]
                  refine ⟨delivery, subscription, rfl, rfl, rfl, hfield _ rfl, ?_,
                    Or.inl ⟨resp, hDo, rfl, fun h => absurd h hc, fun _ => rfl⟩⟩
                  intro h
                  exact absurd h hFS

/-! ## Bounds of the delay lookup -/

theorem retryDelayIndex_in_bounds (config : Config) (r : Int)
    (hD : config.RetryDelays ≠ []) (h1 : 1 ≤ r) (h2 : r < 2 ^ 63) :
    0 ≤ retryDelayIndex config r ∧
    retryDelayIndex config r < (config.RetryDelays.length : Int) := by
  have hK : 0 < config.RetryDelays.length := List.length_pos.mpr hD
  have hw : wrapInt (r - 1) = r - 1 := by unfold wrapInt; omega
  unfold retryDelayIndex
  rw [hw]
  split_ifs with hle
  · omega
  · omega

theorem Load_RetryDelays (lookupEnv : GoString → Option GoString)
    (atoi : GoString → Except GoError Int) :
    (Load lookupEnv atoi).RetryDelays ≠ [] := by
  simp [Load]

/-- C26 as stated fails: the stored `retry_count` is the largest `int`, which is not negative;
the increment wraps around to the smallest `int`, which is below `max_retries = 5` and below
`len(RetryDelays) = 5`, so the retry branch looks up `RetryDelays[RetryCount-1]` at the index
`2^63 - 1` and the call panics.  The configuration is the one `Load` returns when no
variable is set. -/
theorem retry_delay_index_overflow :
    Load (fun _ => none) (fun _ => .error (errorsNew "invalid syntax")) = demoConfig ∧
    demoConfig.RetryDelays ≠ [] ∧ 0 ≤ saturatedDelivery.RetryCount ∧
    wrapInt (saturatedDelivery.RetryCount + 1) = -2 ^ 63 ∧
    wrapInt (saturatedDelivery.RetryCount + 1) < saturatedDelivery.MaxRetries ∧
    retryDelayIndex demoConfig (wrapInt (saturatedDelivery.RetryCount + 1)) = 2 ^ 63 - 1 ∧
    ¬ (retryDelayIndex demoConfig (wrapInt (saturatedDelivery.RetryCount + 1))
      < (demoConfig.RetryDelays.length : Int)) ∧
    (WebhookService.handleDeliveryFailure demoLib demoConfig okFailureEnv demoWorld
      saturatedDelivery (errorsNew "HTTP 500") (some 500)).outcome = Outcome.panicked := by
  refine ⟨rfl, by decide, by decide, by decide, by decide, by decide, by decide, by decide⟩

/-- C26, amended. For every configuration whose `RetryDelays` list is non-empty (in
particular every configuration returned by `Load`) and every delivery whose stored
`retry_count` is at least 0 and below the largest `int` (`2^63 - 1`), the index `i` that
`handleDeliveryFailure` uses for the delay lookup satisfies `0 ≤ i < len(RetryDelays)`, the
lookup yields a delay, and the call does not panic. -/
theorem retry_delay_index_in_bounds (L : Lib) (config : Config) (env : FailureEnv)
    (w : World) (delivery : WebhookDelivery) (err : GoError) (statusCode : Option Int)
    (hD : config.RetryDelays ≠ []) (h0 : 0 ≤ delivery.RetryCount)
    (hmax : delivery.RetryCount < 2 ^ 63 - 1) :
    (0 ≤ retryDelayIndex config (wrapInt (delivery.RetryCount + 1)) ∧
      retryDelayIndex config (wrapInt (delivery.RetryCount + 1))
        < (config.RetryDelays.length : Int)) ∧
    (∃ delay, sliceIndex config.RetryDelays
      (retryDelayIndex config (wrapInt (delivery.RetryCount + 1))) = some delay) ∧
    (WebhookService.handleDeliveryFailure L config env w delivery err statusCode).outcome
      ≠ Outcome.panicked ∧
    ∀ (lookupEnv : GoString → Option GoString) (atoi : GoString → Except GoError Int),
      0 ≤ retryDelayIndex (Load lookupEnv atoi) (wrapInt (delivery.RetryCount + 1)) ∧
      retryDelayIndex (Load lookupEnv atoi) (wrapInt (delivery.RetryCount + 1))
        < ((Load lookupEnv atoi).RetryDelays.length : Int) := by
  have hw : wrapInt (delivery.RetryCount + 1) = delivery.RetryCount + 1 :=
    wrapInt_of_range _ (by omega) (by omega)
  obtain ⟨delay, _, hslice⟩ :=
    sliceIndex_retryDelayIndex config (delivery.RetryCount + 1) hD (by omega)
  replace hslice := hslice (by omega)
  rw [hw]
  refine ⟨retryDelayIndex_in_bounds config _ hD (by omega) (by omega), ⟨delay, hslice⟩, ?_,
    fun lookupEnv atoi =>
      retryDelayIndex_in_bounds _ _ (Load_RetryDelays lookupEnv atoi) (by omega) (by omega)⟩
  unfold WebhookService.handleDeliveryFailure
  simp only [hw]
  split_ifs
  · cases env.updateFault <;> simp [PostgresRepository.UpdateWebhookDelivery]
  · rw [hslice]
    cases env.updateFault <;> cases env.enqueueFault <;>
      simp [PostgresRepository.UpdateWebhookDelivery, clientEnqueue]

/-- C26 amended, at a concrete input: the first failure of `demoDelivery` under the default
configuration; the index is 0. -/
theorem retry_delay_index_in_bounds_witness :
    (0 ≤ retryDelayIndex demoConfig (wrapInt (demoDelivery.RetryCount + 1)) ∧
      retryDelayIndex demoConfig (wrapInt (demoDelivery.RetryCount + 1))
        < (demoConfig.RetryDelays.length : Int)) ∧
    (∃ delay, sliceIndex demoConfig.RetryDelays
      (retryDelayIndex demoConfig (wrapInt (demoDelivery.RetryCount + 1))) = some delay) ∧
    (WebhookService.handleDeliveryFailure demoLib demoConfig okFailureEnv demoWorld
      demoDelivery (errorsNew "HTTP 500") (some 500)).outcome ≠ Outcome.panicked ∧
    ∀ (lookupEnv : GoString → Option GoString) (atoi : GoString → Except GoError Int),
      0 ≤ retryDelayIndex (Load lookupEnv atoi) (wrapInt (demoDelivery.RetryCount + 1)) ∧
      retryDelayIndex (Load lookupEnv atoi) (wrapInt (demoDelivery.RetryCount + 1))
        < ((Load lookupEnv atoi).RetryDelays.length : Int) :=
  retry_delay_index_in_bounds demoLib demoConfig okFailureEnv demoWorld demoDelivery
    (errorsNew "HTTP 500") (some 500) (by decide) (by decide) (by decide)

/-! ## `StringArray`: `Value` and `Scan` -/

theorem stringsSplit_append (sep : UInt8) (x rest : GoString) (h : sep ∉ x) :
    stringsSplit sep (x ++ sep :: rest) = x :: stringsSplit sep rest := by
  induction x with
  | nil => simp [stringsSplit]
  | cons b x ih =>
    have hb : b ≠ sep := fun hbs => h (by simp [hbs])
    have hx : sep ∉ x := fun hm => h (List.mem_cons_of_mem _ hm)
    show stringsSplit sep (b :: (x ++ sep :: rest)) = (b :: x) :: stringsSplit sep rest
    rw [stringsSplit]
    simp only [hb, if_false]
    rw [ih hx]

theorem stringsSplit_of_not_mem (sep : UInt8) (x : GoString) (h : sep ∉ x) :
    stringsSplit sep x = [x] := by
  induction x with
  | nil => rfl
  | cons b x ih =>
    have hb : b ≠ sep := fun hbs => h (by simp [hbs])
    have hx : sep ∉ x := fun hm => h (List.mem_cons_of_mem _ hm)
    simp only [stringsSplit, hb, if_false, ih hx]

theorem stringsSplit_join (sep : UInt8) (l : List GoString) (hne : l ≠ [])
    (h : ∀ x ∈ l, sep ∉ x) : stringsSplit sep (stringsJoin l sep) = l := by
  induction l with
  | nil => exact absurd rfl hne
  | cons x rest ih =>
    cases rest with
    | nil => exact stringsSplit_of_not_mem sep x (h x (by simp))
    | cons y rest =>
      have hx : sep ∉ x := h x (by simp)
      have hrest : ∀ z ∈ y :: rest, sep ∉ z := fun z hz => h z (List.mem_cons_of_mem _ hz)
      simp only [stringsJoin]
      rw [stringsSplit_append sep x _ hx, ih (by simp) hrest]

theorem stringsJoin_ne_nil (sep : UInt8) (l : List GoString) (hne : l ≠ [])
    (h : ∀ x ∈ l, x ≠ []) : stringsJoin l sep ≠ [] := by
  cases l with
  | nil => exact absurd rfl hne
  | cons x rest =>
    have hx : x ≠ [] := h x (by simp)
    cases rest with
    | nil => simpa [stringsJoin] using hx
    | cons y rest => simp [stringsJoin, hx]

theorem Value_some (elems : List GoString) :
    StringArray.Value (some elems) = (some (123 :: (stringsJoin elems 44 ++ [125])), none) := by
  have h1 : goStr "\x7b" = [123] := by decide
  have h2 : goStr "\x7d" = [125] := by decide
  simp [StringArray.Value, h1, h2]

theorem scanBraced_enclosed (s : StringArray) (inner : GoString) :
    scanBraced s (123 :: (inner ++ [125])) =
      if inner = [] then (some [], none) else (some (stringsSplit 44 inner), none) := by
  have hlen : (123 :: (inner ++ [125]) : GoString).length = inner.length + 2 := by simp
  have hlast : (123 :: (inner ++ [125]) : GoString)[inner.length + 2 - 1]? = some 125 := by
    have : inner.length + 2 - 1 = inner.length + 1 := by omega
    rw [this, List.getElem?_cons_succ, List.getElem?_append_right (le_refl _)]
    simp
  have htake : ((123 :: (inner ++ [125]) : GoString).take (inner.length + 2 - 1)).drop 1
      = inner := by
    have : inner.length + 2 - 1 = inner.length + 1 := by omega
    rw [this, List.take_succ_cons, List.drop_one, List.tail_cons, List.take_left']
    rfl
  unfold scanBraced
  rw [hlen, hlast, htake]
  simp

theorem scanBraced_malformed (s : StringArray) (str : GoString)
    (h : str.length < 2 ∨ ¬ ∃ inner, str = 123 :: (inner ++ [125])) :
    scanBraced s str = (s, some (errorsNew "invalid format for StringArray")) := by
  unfold scanBraced
  rw [if_pos]
  by_contra hcon
  push_neg at hcon
  obtain ⟨hlen, hfirst, hlast⟩ := hcon
  rcases h with h | h
  · omega
  · apply h
    cases str with
    | nil => simp at hlen
    | cons a rest =>
      have ha : a = 123 := by simpa using hfirst
      have hrest : rest ≠ [] := by
        intro hr
        rw [hr] at hlen
        simp at hlen
      have hl : (a :: rest).getLast? = some 125 := by
        rw [List.getLast?_eq_getElem?]
        exact hlast
      cases rest with
      | nil => exact absurd rfl hrest
      | cons b tl =>
        rw [List.getLast?_cons_cons] at hl
        refine ⟨(b :: tl).dropLast, ?_⟩
        rw [ha, List.dropLast_append_getLast? 125 (by simpa using hl)]

/-- C27. For every non-nil `StringArray` whose elements are all non-empty and contain no
comma, `Value` returns the text `{` + elements joined by `,` + `}` without error, and `Scan`
of that text, handed over as a `string` or as `[]byte`, returns nil and sets the receiver to
the same list; `Value` of nil is nil and `Scan` of nil sets the receiver to nil; and for every
text shorter than 2 bytes or not of the form `{` ... `}`, `Scan` returns an error and leaves
the receiver as it was. -/
theorem StringArray_round_trip (elems : List GoString) (s0 : StringArray)
    (h : ∀ x ∈ elems, x ≠ [] ∧ (44 : UInt8) ∉ x) :
    (∃ text : GoString,
      StringArray.Value (some elems) = (some text, none) ∧
      StringArray.Scan s0 (ScanSource.text text) = (some elems, none) ∧
      StringArray.Scan s0 (ScanSource.bytes text) = (some elems, none)) ∧
    StringArray.Value none = (none, none) ∧
    StringArray.Scan s0 ScanSource.null = (none, none) ∧
    ∀ str : GoString, (str.length < 2 ∨ ¬ ∃ inner, str = 123 :: (inner ++ [125])) →
      ∃ err : GoError,
        StringArray.Scan s0 (ScanSource.text str) = (s0, some err) ∧
        StringArray.Scan s0 (ScanSource.bytes str) = (s0, some err) := by
  have hscan : scanBraced s0 (123 :: (stringsJoin elems 44 ++ [125])) = (some elems, none) := by
    rw [scanBraced_enclosed]
    cases elems with
    | nil => rfl
    | cons x rest =>
      have hne : stringsJoin (x :: rest) 44 ≠ [] :=
        stringsJoin_ne_nil 44 _ (by simp) (fun z hz => (h z hz).1)
      rw [if_neg hne, stringsSplit_join 44 _ (by simp) (fun z hz => (h z hz).2)]
  refine ⟨⟨123 :: (stringsJoin elems 44 ++ [125]), Value_some elems, hscan, hscan⟩, rfl, rfl,
    ?_⟩
  intro str hstr
  exact ⟨errorsNew "invalid format for StringArray", scanBraced_malformed s0 str hstr,
    scanBraced_malformed s0 str hstr⟩

/-- C27, at a concrete input: the event types `a` and `bc`, scanned into a receiver that was
nil. -/
theorem StringArray_round_trip_witness :
    (∃ text : GoString,
      StringArray.Value (some demoEventTypes) = (some text, none) ∧
      StringArray.Scan none (ScanSource.text text) = (some demoEventTypes, none) ∧
      StringArray.Scan none (ScanSource.bytes text) = (some demoEventTypes, none)) ∧
    StringArray.Value none = (none, none) ∧
    StringArray.Scan none ScanSource.null = (none, none) ∧
    ∀ str : GoString, (str.length < 2 ∨ ¬ ∃ inner, str = 123 :: (inner ++ [125])) →
      ∃ err : GoError,
        StringArray.Scan none (ScanSource.text str) = (none, some err) ∧
        StringArray.Scan none (ScanSource.bytes str) = (none, some err) :=
  StringArray_round_trip demoEventTypes none (by decide)

end Webhook
